import Mathlib

/-!
# SecondOpinion: the results view (client/src/pages/Results/Results.jsx)

A shallow embedding of the result cache and hybrid search engine of the
results-listing view, and the properties of it that the specification states;
further down, the share flow (components/ShareModal.jsx and
services/shareService.js), the field and file checks of the upload form
(pages/Upload/Upload.jsx), the error handling and the request headers of the
HTTP client (services/api.js), the session and theme contexts
(context/AuthContext.jsx, context/ThemeContext.jsx), the e-mail validation of
utils/validation.js and the OTP entry of the two auth pages.

Modelling conventions.

* A React function component is a function of the values of one render.  Every
  handler and effect body closes over the values of the render that created it
  (`snap : State`) and writes with the `useState` setters into the state of the
  next render (`w.st`).  A handler therefore has the shape
  `State → World → World`: it reads `snap`, it writes `w`.
* The writes of one handler, effect or timer callback are batched: they become
  visible together, in the next render, and the effects of that render run in
  declaration order when one of their dependencies changed (`updateEffects`).
* `Date.now()` is an explicit argument `now`, in milliseconds.
* Network requests are recorded in `World.requests`; the continuation that runs
  when a request settles is a function of its own (`...Resolved`, `...Rejected`).
* Text is `String`; `includes`, `trim` are defined below on the list of
  characters, `toLowerCase` and `localeCompare` depend on the host's Unicode
  tables and are fields of `Platform`.
-/

namespace SecondOpinion

/-! ## Host functions -/

/-- The host's string functions whose result depends on Unicode tables:
`String.prototype.toLowerCase` and `String.prototype.localeCompare`.
Lower-casing maps the empty string, and nothing else, to the empty string; the
comparison is a consistent comparator (a total preorder), as a collation is. -/
structure Platform where
  toLowerCase : String → String
  toLowerCase_eq_empty : ∀ s, toLowerCase s = "" ↔ s = ""
  localeCompare : String → String → Int
  localeCompare_total : ∀ a b, localeCompare a b ≤ 0 ∨ localeCompare b a ≤ 0
  localeCompare_trans : ∀ a b c, localeCompare a b ≤ 0 → localeCompare b c ≤ 0 →
    localeCompare a c ≤ 0

/-- Comparison of two character lists by code point, with the sign convention of
`localeCompare`: negative, zero or positive. -/
def compareChars : List Char → List Char → Int
  | [], [] => 0
  | [], _ :: _ => -1
  | _ :: _, [] => 1
  | a :: as, b :: bs =>
    if a.toNat < b.toNat then -1
    else if b.toNat < a.toNat then 1
    else compareChars as bs

/-- The test of `String.prototype.includes` on character lists: `q` occurs in `s` as a
contiguous run. -/
def includesChars : List Char → List Char → Bool
  | [], q => q.isEmpty
  | c :: s, q => q.isPrefixOf (c :: s) || includesChars s q

/-- The call `s.includes(q)`. -/
def includes (s q : String) : Bool := includesChars s.data q.data

/-- The code points `String.prototype.trim` strips: WhiteSpace and
LineTerminator of ECMAScript. -/
def isTrimChar (c : Char) : Bool :=
  let n := c.toNat
  n = 0x09 || n = 0x0A || n = 0x0B || n = 0x0C || n = 0x0D || n = 0x20 || n = 0xA0 ||
  n = 0x1680 || (0x2000 ≤ n && n ≤ 0x200A) || n = 0x2028 || n = 0x2029 || n = 0x202F ||
  n = 0x205F || n = 0x3000 || n = 0xFEFF

/-- The call `s.trim()`. -/
def trim (s : String) : String :=
  ⟨((s.data.dropWhile isTrimChar).reverse.dropWhile isTrimChar).reverse⟩

/-- Truthiness of a string: a string is truthy unless it is empty. -/
def truthy (s : String) : Bool := !s.data.isEmpty

/-- The method `Array.prototype.slice(start, end)` for integer arguments: a negative index
counts from the end, both are clamped to the length. -/
def slice {α : Type} (l : List α) (start stop : Int) : List α :=
  let len : Int := l.length
  let k : Int := if start < 0 then max (len + start) 0 else min start len
  let final : Int := if stop < 0 then max (len + stop) 0 else min stop len
  (l.drop k.toNat).take (final - k).toNat

/-- Insertion of `x` into a list sorted by the comparator `cmp` (positive when
the first argument goes after the second): `x` passes exactly the elements it
must go after. -/
def insertBy {α : Type} (cmp : α → α → Int) (x : α) : List α → List α
  | [] => [x]
  | y :: ys => if 0 < cmp x y then y :: insertBy cmp x ys else x :: y :: ys

/-- The method `Array.prototype.sort(cmp)` on a copy: ECMAScript requires the sort to be
stable, and for a consistent comparator the stable order is unique; it is
computed here by insertion from the right. -/
def arraySort {α : Type} (cmp : α → α → Int) : List α → List α
  | [] => []
  | x :: xs => insertBy cmp x (arraySort cmp xs)

/-- The value of `Math.ceil(n / d)` for non-negative integers. -/
def mathCeilDiv (n d : Nat) : Nat := n / d + (if n % d = 0 then 0 else 1)

/-- A host with ASCII lower-casing and code-point collation. -/
def asciiPlatform : Platform where
  toLowerCase s := ⟨s.data.map Char.toLower⟩
  toLowerCase_eq_empty := by
    intro s
    cases s with
    | mk l => cases l <;> simp [String.ext_iff]
  localeCompare a b := compareChars a.data b.data
  localeCompare_total := by
    have key : ∀ x y : List Char, compareChars x y ≤ 0 ∨ compareChars y x ≤ 0 := by
      intro x
      induction x with
      | nil => intro y; cases y <;> simp [compareChars]
      | cons c cs ih =>
        intro y
        cases y with
        | nil => simp [compareChars]
        | cons d ds =>
          simp only [compareChars]
          by_cases h1 : c.toNat < d.toNat
          · simp [h1]
          · by_cases h2 : d.toNat < c.toNat
            · simp [h1, h2]
            · simpa [h1, h2] using ih ds
    exact fun a b => key a.data b.data
  localeCompare_trans := by
    have key : ∀ x y z : List Char, compareChars x y ≤ 0 → compareChars y z ≤ 0 →
        compareChars x z ≤ 0 := by
      intro x
      induction x with
      | nil => intro y z; cases y <;> cases z <;> simp [compareChars]
      | cons p ps ih =>
        intro y z
        cases y with
        | nil => simp [compareChars]
        | cons q qs =>
          cases z with
          | nil =>
            simp only [compareChars]
            intro _ h
            omega
          | cons r rs =>
            simp only [compareChars]
            intro h1 h2
            split_ifs at h1 h2 ⊢ <;> first | omega | exact ih _ _ h1 h2
    exact fun a b c => key a.data b.data c.data


/-! ## Data model -/

/-- A cache entry: the display-ready projection of one prediction record that
`response.results.map` builds.  `created_at` is the instant `new Date(created_at)`
denotes, in milliseconds; `confidence` is the rounded percentage.  The fields
that no filter, sort or cache decision reads (age, date, time, status, entropy,
probabilities, patient, image_filename, message) are left out. -/
structure Entry where
  id : Nat
  patientName : String
  patientId : String
  analysisType : String
  result : String
  confidence : Int
  model_type : String
  notes : Option String
  created_at : Int
  deriving DecidableEq, Repr

/-- The session user of the auth context; the view reads only `user?.id`. -/
structure User where
  id : Nat
  deriving DecidableEq, Repr

/-- A request to the backend made through `HistoryService`:
`getPredictionHistory(page, perPage, filters)` with the two filter fields the
view sets, or `getPredictionStatistics()`. -/
inductive Request where
  | history (page : Int) (perPage : Nat) (model_type : Option String) (search : Option String)
  | statistics
  deriving DecidableEq, Repr

/-- The answer of the history endpoint, its records already in display form. -/
structure HistoryResponse where
  results : List Entry
  total : Nat
  total_pages : Nat
  deriving DecidableEq, Repr

/-- The object stored as JSON under `resultsCache`; `user_id` is absent when
`user?.id` was undefined. -/
structure CacheData where
  data : List Entry
  timestamp : Int
  user_id : Option Nat
  deriving DecidableEq, Repr

/-- The text stored under the `resultsCache` key, by what the view can make of
it: the empty string (falsy), a text on which `JSON.parse` or the field reads
throw, or the JSON of a cache object. -/
inductive StoredText where
  | empty
  | unparseable
  | json (cacheData : CacheData)
  deriving DecidableEq, Repr

/-- The values of one render: the context values `user` (with
`isAuthenticated = !!user`) and every `useState` cell the cache and search
logic reads or writes. -/
structure State where
  user : Option User
  searchQuery : String
  filterType : String
  sortBy : String
  currentPage : Int
  loading : Bool
  error : Option String
  results : List Entry
  totalResults : Nat
  totalPages : Nat
  allResults : List Entry
  lastCacheTime : Option Int
  isSearching : Bool
  useLocalSearch : Bool
  deriving DecidableEq, Repr

/-- A pending `setTimeout` of the search effect: the id `setTimeout` returned,
the time it is due and the render whose values its callback closes over. -/
structure Timer where
  id : Nat
  due : Int
  snap : State
  deriving DecidableEq, Repr

/-- What handlers and effects act on: the state of the next render, the
`resultsCache` item of `localStorage`, the requests issued so far (oldest
first), the routes navigated to, and the timers of the page: every `setTimeout`
not yet fired or cleared (oldest first), the id the next `setTimeout` returns,
and the id `delayedSearch` held by the cleanup function that the last run of the
search effect returned (`none` when that run returned no cleanup, or its cleanup
has run). -/
structure World where
  st : State
  resultsCache : Option StoredText
  requests : List Request
  navigations : List String
  timers : List Timer
  nextTimerId : Nat
  delayedSearch : Option Nat
  deriving DecidableEq, Repr

/-- The `useState` initial values, under the given session user. -/
def initialState (user : Option User) : State where
  user := user
  searchQuery := ""
  filterType := "all"
  sortBy := "date"
  currentPage := 1
  loading := true
  error := none
  results := []
  totalResults := 0
  totalPages := 0
  allResults := []
  lastCacheTime := none
  isSearching := false
  useLocalSearch := false

def resultsPerPage : Nat := 5

def CACHE_DURATION : Int := 5 * 60 * 1000

/-- The auth context's `isAuthenticated: !!user`. -/
def isAuthenticated (snap : State) : Bool := snap.user.isSome

/-- The value of `user?.id`. -/
def userId (snap : State) : Option Nat := snap.user.map User.id

/-- The test `!lastCacheTime`: null and 0 are falsy. -/
def noCacheTime (snap : State) : Bool :=
  match snap.lastCacheTime with
  | none => true
  | some t => t == 0

/-- The difference `Date.now() - lastCacheTime`; null converts to 0. -/
def cacheAge (snap : State) (now : Int) : Int :=
  match snap.lastCacheTime with
  | none => now
  | some t => now - t

/-! ## The pipeline -/

/-- The comparator of `sortResults`. -/
def compareEntries (P : Platform) (sortBy : String) (a b : Entry) : Int :=
  if sortBy = "date" then b.created_at - a.created_at
  else if sortBy = "patient" then P.localeCompare a.patientName b.patientName
  else if sortBy = "confidence" then b.confidence - a.confidence
  else if sortBy = "result" then P.localeCompare a.result b.result
  else 0

/-- The helper `sortResults`: sorts a copy with the comparator of the current
`sortBy`. -/
def sortResults (P : Platform) (sortBy : String) (resultsToSort : List Entry) : List Entry :=
  arraySort (compareEntries P sortBy) resultsToSort

/-- The type filter of `performLocalSearch`. -/
def filterByType (filterType : String) (allResults : List Entry) : List Entry :=
  if filterType ≠ "all" then
    if filterType = "brain" then allResults.filter (fun r => r.model_type == "tumor")
    else if filterType = "pneumonia" then allResults.filter (fun r => r.model_type == "chest_xray")
    else allResults
  else allResults

/-- The predicate of the search filter of `performLocalSearch`, `query` being
`searchQuery.toLowerCase()`. -/
def matchesQuery (P : Platform) (query : String) (result : Entry) : Bool :=
  includes (P.toLowerCase result.patientName) query ||
  includes (P.toLowerCase result.patientId) query ||
  includes (P.toLowerCase result.analysisType) query ||
  includes (P.toLowerCase result.result) query ||
  (match result.notes with
   | none => false
   | some notes => truthy notes && includes (P.toLowerCase notes) query)

/-- The search filter of `performLocalSearch`. -/
def filterBySearch (P : Platform) (searchQuery : String) (filteredResults : List Entry) :
    List Entry :=
  if truthy (trim searchQuery) then
    filteredResults.filter (matchesQuery P (P.toLowerCase searchQuery))
  else filteredResults

/-- The list `sortedResults` of `performLocalSearch`. -/
def localSorted (P : Platform) (snap : State) : List Entry :=
  sortResults P snap.sortBy
    (filterBySearch P snap.searchQuery (filterByType snap.filterType snap.allResults))

/-- The page `sortedResults.slice(startIndex, endIndex)` of `performLocalSearch`. -/
def localPage (sortedResults : List Entry) (currentPage : Int) : List Entry :=
  let startIndex := (currentPage - 1) * (resultsPerPage : Int)
  let endIndex := startIndex + (resultsPerPage : Int)
  slice sortedResults startIndex endIndex

/-- The function `performLocalSearch`. -/
def performLocalSearch (P : Platform) (snap : State) (w : World) : World :=
  let sortedResults := localSorted P snap
  { w with st := { w.st with
      useLocalSearch := true
      loading := false
      results := localPage sortedResults snap.currentPage
      totalResults := sortedResults.length
      totalPages := mathCeilDiv sortedResults.length resultsPerPage
      isSearching := false } }

/-- The `filters.model_type` that `loadResults` sends. -/
def modelTypeFilter (filterType : String) : Option String :=
  if filterType ≠ "all" then
    if filterType = "brain" then some "tumor"
    else if filterType = "pneumonia" then some "chest_xray"
    else none
  else none

/-- The `filters.search` that `loadResults` sends. -/
def searchFilter (searchQuery : String) : Option String :=
  if truthy (trim searchQuery) then some (trim searchQuery) else none

/-- The function `loadResults` up to its `await`: the early return while local
search shows results, otherwise the state writes and the history request. -/
def loadResults (snap : State) (w : World) : World :=
  if snap.useLocalSearch && truthy (trim snap.searchQuery) && decide (snap.results.length > 0) then w
  else
    { w with
      st := { w.st with loading := true, error := none, useLocalSearch := false }
      requests := w.requests ++
        [Request.history snap.currentPage resultsPerPage (modelTypeFilter snap.filterType)
          (searchFilter snap.searchQuery)] }

/-- The rest of `loadResults` when the request resolves. -/
def loadResultsResolved (P : Platform) (snap : State) (response : HistoryResponse)
    (w : World) : World :=
  { w with st := { w.st with
      results := sortResults P snap.sortBy response.results
      totalResults := response.total
      totalPages := response.total_pages
      loading := false
      isSearching := false } }

/-- The rest of `loadResults` when the request rejects. -/
def loadResultsRejected (w : World) : World :=
  { w with st := { w.st with
      error := some "Failed to load analysis results. Please try again."
      loading := false
      isSearching := false } }

/-- The function `loadStatistics` up to its `await`. -/
def loadStatistics (w : World) : World :=
  { w with requests := w.requests ++ [Request.statistics] }

/-- The function `loadAllResults` up to its `await`: the 100-record request. -/
def loadAllResults (w : World) : World :=
  { w with requests := w.requests ++ [Request.history 1 100 none none] }

/-- The rest of `loadAllResults` when the request resolves; `now` and
`nowStored` are its two reads of `Date.now()`. -/
def loadAllResultsResolved (snap : State) (transformedResults : List Entry)
    (now nowStored : Int) (w : World) : World :=
  { w with
    st := { w.st with allResults := transformedResults, lastCacheTime := some now }
    resultsCache := some (StoredText.json
      { data := transformedResults, timestamp := nowStored, user_id := userId snap }) }

/-- The rest of `loadAllResults` when the request rejects: the error is logged. -/
def loadAllResultsRejected (w : World) : World := w


/-! ## The effects, in the order the component declares them -/

/-- The effect "check authentication". -/
def authEffect (snap : State) (w : World) : World :=
  if !isAuthenticated snap then { w with navigations := w.navigations ++ ["/auth/login"] }
  else w

/-- The effect "load data when component mounts or filters change",
dependencies `[isAuthenticated, currentPage, filterType]`. -/
def loadEffect (snap : State) (w : World) : World :=
  if isAuthenticated snap then loadStatistics (loadResults snap w) else w

/-- The effect "load all data for caching and local search", dependencies
`[isAuthenticated]`. -/
def primeEffect (snap : State) (now : Int) (w : World) : World :=
  if isAuthenticated snap && (noCacheTime snap || decide (cacheAge snap now > CACHE_DURATION))
  then loadAllResults w
  else w

/-- The callback the search effect hands to `setTimeout`. -/
def delayedSearch (P : Platform) (snap : State) (now : Int) (w : World) : World :=
  if isAuthenticated snap then
    let w1 : World := { w with st := { w.st with currentPage := 1 } }
    if decide (snap.allResults.length > 0) && decide (cacheAge snap now < CACHE_DURATION) then
      performLocalSearch P snap w1
    else
      loadResults snap { w1 with st := { w1.st with useLocalSearch := false } }
  else w

/-- The effect "handle search with hybrid approach", dependencies
`[searchQuery]`: a blank text is handled at once and the effect returns no
cleanup; any other text adds a 300 ms timer to the pending ones (`setTimeout`)
and returns the cleanup that holds its id. -/
def searchEffect (snap : State) (now : Int) (w : World) : World :=
  if !truthy (trim snap.searchQuery) then
    let w1 : World := { w with st := { w.st with isSearching := false, useLocalSearch := false } }
    if isAuthenticated snap then
      loadResults snap { w1 with st := { w1.st with currentPage := 1 } }
    else w1
  else
    { w with
      st := { w.st with isSearching := true }
      timers := w.timers ++ [{ id := w.nextTimerId, due := now + 300, snap := snap }]
      nextTimerId := w.nextTimerId + 1
      delayedSearch := some w.nextTimerId }

/-- The call `clearTimeout(id)`: the timer with that id, if still pending, is
removed; every other timer stays. -/
def clearTimeout (id : Nat) (timers : List Timer) : List Timer :=
  timers.filter (fun timer => timer.id != id)

/-- The cleanup of the search effect, run before its next run: the function
`() => clearTimeout(delayedSearch)` of the last run, when that run returned
one. -/
def searchCleanup (w : World) : World :=
  match w.delayedSearch with
  | none => w
  | some id => { w with timers := clearTimeout id w.timers, delayedSearch := none }

/-- A pending timer fires: it leaves the pending ones and its callback runs on
the render it closed over. -/
def fireTimer (P : Platform) (now : Int) (timer : Timer) (w : World) : World :=
  delayedSearch P timer.snap now { w with timers := clearTimeout timer.id w.timers }

/-- The effect "handle sorting changes", dependencies `[sortBy]`. -/
def sortEffect (P : Platform) (snap : State) (w : World) : World :=
  if isAuthenticated snap then
    if snap.useLocalSearch ||
        (decide (snap.allResults.length > 0) && truthy (trim snap.searchQuery)) then
      performLocalSearch P snap w
    else if snap.results.length > 0 then
      { w with st := { w.st with results := sortResults P snap.sortBy snap.results } }
    else loadResults snap w
  else w

/-- The effect "handle pagination for local search", dependencies
`[currentPage, useLocalSearch]`. -/
def paginationEffect (P : Platform) (snap : State) (w : World) : World :=
  if snap.useLocalSearch && truthy (trim snap.searchQuery) then performLocalSearch P snap w
  else w

/-- The effect "load cache from localStorage on component mount", dependencies
`[isAuthenticated, user?.id]`. -/
def restoreEffect (snap : State) (now : Int) (w : World) : World :=
  if isAuthenticated snap then
    match w.resultsCache with
    | none => w
    | some StoredText.empty => w
    | some StoredText.unparseable => { w with resultsCache := none }
    | some (StoredText.json cacheData) =>
      if cacheData.user_id = userId snap ∧ now - cacheData.timestamp < CACHE_DURATION then
        { w with st := { w.st with
            allResults := cacheData.data
            lastCacheTime := some cacheData.timestamp } }
      else { w with resultsCache := none }
  else w

/-- The effects of the first commit: every effect runs once, in declaration
order, on the values of the first render. -/
def mountEffects (P : Platform) (snap : State) (now : Int) (w : World) : World :=
  restoreEffect snap now
    (paginationEffect P snap
      (sortEffect P snap
        (searchEffect snap now
          (primeEffect snap now
            (loadEffect snap
              (authEffect snap w))))))

/-- The effects of a later commit: `prev` are the values of the previous render,
`snap` those of the new one; an effect runs when one of its dependencies
changed, the cleanup of the search effect before it. -/
def updateEffects (P : Platform) (prev snap : State) (now : Int) (w : World) : World :=
  let authChanged := isAuthenticated prev != isAuthenticated snap
  let w1 := if authChanged then authEffect snap w else w
  let w2 := if authChanged || prev.currentPage != snap.currentPage ||
      prev.filterType != snap.filterType then loadEffect snap w1 else w1
  let w3 := if authChanged then primeEffect snap now w2 else w2
  let w4 := if prev.searchQuery != snap.searchQuery then searchEffect snap now (searchCleanup w3)
    else w3
  let w5 := if prev.sortBy != snap.sortBy then sortEffect P snap w4 else w4
  let w6 := if prev.currentPage != snap.currentPage ||
      prev.useLocalSearch != snap.useLocalSearch then paginationEffect P snap w5 else w5
  if authChanged || userId prev != userId snap then restoreEffect snap now w6 else w6

/-- The world in which the view mounts: initial state, nothing requested yet. -/
def freshWorld (user : Option User) (resultsCache : Option StoredText) : World where
  st := initialState user
  resultsCache := resultsCache
  requests := []
  navigations := []
  timers := []
  nextTimerId := 1
  delayedSearch := none


/-! ## The specification's reading of the pipeline -/

/-- The model-type filter as the specification words it: 'brain' keeps
`model_type = "tumor"`, 'pneumonia' keeps `model_type = "chest_xray"`, 'all'
(and any other value) keeps everything. -/
def specKeepsType (filterType : String) (e : Entry) : Prop :=
  (filterType = "brain" → e.model_type = "tumor") ∧
  (filterType = "pneumonia" → e.model_type = "chest_xray")

instance (filterType : String) : DecidablePred (specKeepsType filterType) :=
  fun _ => inferInstanceAs (Decidable (_ ∧ _))

/-- The free-text filter as the specification words it: the lower-cased search
text is a substring of the lower-cased patient name, formatted patient id,
analysis-type display string, result label, or notes when notes are present. -/
def specMatches (P : Platform) (q : String) (e : Entry) : Prop :=
  (P.toLowerCase q).data <:+: (P.toLowerCase e.patientName).data ∨
  (P.toLowerCase q).data <:+: (P.toLowerCase e.patientId).data ∨
  (P.toLowerCase q).data <:+: (P.toLowerCase e.analysisType).data ∨
  (P.toLowerCase q).data <:+: (P.toLowerCase e.result).data ∨
  ∃ notes ∈ e.notes, (P.toLowerCase q).data <:+: (P.toLowerCase notes).data

instance (P : Platform) (q : String) : DecidablePred (specMatches P q) :=
  fun _ => inferInstanceAs (Decidable (_ ∨ _ ∨ _ ∨ _ ∨ _))

/-- The filter of the specification: first by model type, then by free text. -/
def specFilter (P : Platform) (filterType q : String) (allResults : List Entry) : List Entry :=
  (allResults.filter (fun e => decide (specKeepsType filterType e))).filter
    (fun e => decide (specMatches P q e))

/-- The order a sort key asks for: creation time descending for 'date', patient
name ascending for 'patient', confidence descending for 'confidence', result
label ascending for 'result'; any other key asks for nothing. -/
def keyOrdered (P : Platform) (sortBy : String) (a b : Entry) : Prop :=
  if sortBy = "date" then b.created_at ≤ a.created_at
  else if sortBy = "patient" then P.localeCompare a.patientName b.patientName ≤ 0
  else if sortBy = "confidence" then b.confidence ≤ a.confidence
  else if sortBy = "result" then P.localeCompare a.result b.result ≤ 0
  else True

instance (P : Platform) (sortBy : String) (a b : Entry) : Decidable (keyOrdered P sortBy a b) := by
  unfold keyOrdered
  infer_instance

/-- Two entries compare equal under a sort key: each may stand before the other. -/
def keyEquiv (P : Platform) (sortBy : String) (a b : Entry) : Prop :=
  keyOrdered P sortBy a b ∧ keyOrdered P sortBy b a

instance (P : Platform) (sortBy : String) (a b : Entry) : Decidable (keyEquiv P sortBy a b) :=
  inferInstanceAs (Decidable (_ ∧ _))

/-! ## Sample data -/

def sampleEntry (id : Nat) (name result : String) (confidence created : Int) : Entry where
  id := id
  patientName := name
  patientId := "PT-00000" ++ toString id
  analysisType := "Brain Tumor Detection"
  result := result
  confidence := confidence
  model_type := "tumor"
  notes := none
  created_at := created

def jack : Entry := sampleEntry 1 "Jack" "Glioma" 91 1000

def jane : Entry := sampleEntry 2 "Jane" "Normal Brain" 97 2000



/-- A render in which user 1's cache of two entries, primed at time 0, is in
memory, the text "ja" is being searched through the backend (local mode off) and
one backend record is shown. -/
def remoteSnap : State :=
  { initialState (some ⟨1⟩) with
    searchQuery := "ja"
    loading := false
    results := [jack]
    totalResults := 1
    totalPages := 1
    allResults := [jack, jane]
    lastCacheTime := some 0 }

/-- The render `remoteSnap` with local mode on and the local results shown. -/
def localSnap : State :=
  { remoteSnap with
    results := [jane, jack]
    totalResults := 2
    useLocalSearch := true }

/-- A world whose next-render state is the given render, with nothing stored,
requested or pending. -/
def worldOf (snap : State) : World where
  st := snap
  resultsCache := none
  requests := []
  navigations := []
  timers := []
  nextTimerId := 1
  delayedSearch := none


/-! ## Refresh, priming outcome and the debounce clock -/

/-- The `onClick` of the "Refresh Data" button. -/
def refreshClick (snap : State) (w : World) : World :=
  loadAllResults
    (loadResults snap
      { w with
        resultsCache := none
        st := { w.st with allResults := [], lastCacheTime := none, useLocalSearch := false } })

/-- How an awaited request settles: it resolves with a value or rejects with a
reason. -/
inductive Outcome (α : Type) where
  | resolved (value : α)
  | rejected (reason : String)

/-- The rest of `loadAllResults` after its `await`, with the lines it writes to
`console.error`: the `try` body when the request resolved, the `catch` when it
rejected. -/
def loadAllResultsSettled (snap : State) (outcome : Outcome (List Entry))
    (now nowStored : Int) (w : World) : World × List String :=
  match outcome with
  | Outcome.resolved transformedResults =>
    (loadAllResultsResolved snap transformedResults now nowStored w, [])
  | Outcome.rejected reason =>
    (loadAllResultsRejected w, ["Failed to load all results for cache: " ++ reason])

/-- The `onChange` of the search box: `setSearchQuery(e.target.value)`. -/
def setSearchQuery (value : String) (w : World) : World :=
  { w with st := { w.st with searchQuery := value } }

/-- The commit that follows state writes: the component renders with the written
state and the effects whose dependencies changed since the render `prev` run. -/
def commit (P : Platform) (prev : State) (now : Int) (w : World) : World :=
  updateEffects P prev w.st now w

/-- A keystroke in the search box at time `now`, `prev` being the render on
screen: the write and the commit that follows it. -/
def typeSearch (P : Platform) (prev : State) (value : String) (now : Int) (w : World) : World :=
  commit P prev now (setSearchQuery value w)

/-- The clock reaches `now`: every pending timer that is due fires, oldest
first. -/
def timeReaches (P : Platform) (now : Int) (w : World) : World :=
  (w.timers.filter (fun timer => decide (timer.due ≤ now))).foldl
    (fun acc timer => fireTimer P now timer acc) w

/-- The render `snap` that a timer callback closed over still describes the
screen `st` when the callback runs: session user, search text, filter, sort
key, page, local-search flag and in-memory cache are unchanged.  The cells
`isSearching` (which the search effect itself sets after `snap` was rendered),
`loading`, `error` and the shown results may differ. -/
def stillCurrent (snap st : State) : Prop :=
  st.user = snap.user ∧ st.searchQuery = snap.searchQuery ∧ st.filterType = snap.filterType ∧
  st.sortBy = snap.sortBy ∧ st.currentPage = snap.currentPage ∧
  st.useLocalSearch = snap.useLocalSearch ∧ st.allResults = snap.allResults

instance (snap st : State) : Decidable (stillCurrent snap st) :=
  inferInstanceAs (Decidable (_ ∧ _ ∧ _ ∧ _ ∧ _ ∧ _ ∧ _))

/-- The keystrokes "ja", "jac", "jack" at the times `t1`, `t2`, `t3`, starting
from the render `s0`; before each later keystroke the clock reaches its time, so
that a timer due by then fires first. -/
def typeJack (P : Platform) (s0 : State) (t1 t2 t3 : Int) (w0 : World) : World :=
  let w1 := typeSearch P s0 "ja" t1 w0
  let w1' := timeReaches P t2 w1
  let w2 := typeSearch P w1'.st "jac" t2 w1'
  let w2' := timeReaches P t3 w2
  typeSearch P w2'.st "jack" t3 w2'

/-- A render of user 1 with the cache of two entries primed at time 0 in memory,
no search text, and page 2 of the backend results on screen. -/
def idleSnap : State :=
  { initialState (some ⟨1⟩) with
    currentPage := 2
    loading := false
    results := [jack]
    totalResults := 6
    totalPages := 2
    allResults := [jack, jane]
    lastCacheTime := some 0 }

/-- A render of user 1 with nothing cached, no search text, and page 2 of the
backend results on screen. -/
def pageTwoSnap : State :=
  { initialState (some ⟨1⟩) with
    currentPage := 2
    loading := false
    results := [jack]
    totalResults := 6
    totalPages := 2 }

/-! ## The share flow (components/ShareModal.jsx, services/shareService.js) -/

/-- The value of `String.prototype.length`: the number of UTF-16 code units. -/
def jsLength (s : String) : Nat :=
  (s.data.map (fun c => if c.toNat < 0x10000 then 1 else 2)).sum

/-- The class `[^\s@]` of the e-mail pattern; `\s` is the set `trim` strips. -/
def isEmailChar (c : Char) : Bool := !isTrimChar c && c != '@'

/-- The pattern's end `[^\s@]+$`. -/
def matchTail (l : List Char) : Bool := !l.isEmpty && l.all isEmailChar

/-- The pattern's part `[^\s@]+\.[^\s@]+$`; `seen` tells that the first run
already holds a character.  At a dot the matcher may end the run or go on. -/
def matchDomain : Bool → List Char → Bool
  | _, [] => false
  | seen, c :: cs =>
    (seen && c == '.' && matchTail cs) || (isEmailChar c && matchDomain true cs)

/-- The whole pattern `^[^\s@]+@[^\s@]+\.[^\s@]+$`; `seen` as in `matchDomain`. -/
def matchLocal : Bool → List Char → Bool
  | _, [] => false
  | seen, c :: cs =>
    (seen && c == '@' && matchDomain false cs) || (isEmailChar c && matchLocal true cs)

/-- The method `ShareService.validateEmail`: `emailRegex.test(email)`. -/
def ShareService.validateEmail (email : String) : Bool := matchLocal false email.data

/-- The form of the share modal (`formData`); every field holds what its input
element holds, a string or the checkbox state. -/
structure ShareFormData where
  doctor_name : String
  doctor_email : String
  sender_name : String
  notes : String
  include_pdf : Bool
  deriving DecidableEq, Repr

/-- The object `validateShareForm` returns. -/
structure ShareValidation where
  isValid : Bool
  errors : List String
  deriving DecidableEq, Repr

/-- The method `ShareService.validateShareForm`. -/
def ShareService.validateShareForm (formData : ShareFormData) : ShareValidation :=
  let errors : List String := []
  let errors :=
    if !truthy formData.doctor_name || decide (jsLength (trim formData.doctor_name) < 2) then
      errors ++ ["Doctor's name must be at least 2 characters long"]
    else errors
  let errors :=
    if !truthy formData.doctor_email || !ShareService.validateEmail formData.doctor_email then
      errors ++ ["Please enter a valid email address"]
    else errors
  let errors :=
    if truthy formData.notes && decide (jsLength formData.notes > 1000) then
      errors ++ ["Notes must be less than 1000 characters"]
    else errors
  { isValid := decide (errors.length = 0), errors := errors }

/-- The value of `resultData.id`: a string (the demo data use "PT-…" strings),
a Number that is the integer `n`, or nothing (undefined or null). -/
inductive IdValue where
  | str (s : String)
  | num (n : Int)
  | missing
  deriving DecidableEq, Repr

/-- The value of a digit in the given radix, if the character is one. -/
def digitValue (radix : Nat) (c : Char) : Option Nat :=
  let n := c.toNat
  let v : Option Nat :=
    if 48 ≤ n ∧ n ≤ 57 then some (n - 48)
    else if 97 ≤ n ∧ n ≤ 122 then some (n - 97 + 10)
    else if 65 ≤ n ∧ n ≤ 90 then some (n - 65 + 10)
    else none
  v.filter (fun d => decide (d < radix))

/-- The longest prefix of digits of the radix, as a number; `none` when the
prefix is empty. -/
def leadingNumber (radix : Nat) : Option Nat → List Char → Option Nat
  | acc, [] => acc
  | acc, c :: cs =>
    match digitValue radix c with
    | some d => leadingNumber radix (some (acc.getD 0 * radix + d)) cs
    | none => acc

/-- The bound 2^53: every integer of at most this magnitude is a Number (a
double), so that the Number for such an integer is the integer itself; beyond
it, the Number for an integer is a rounded value. -/
def maxExactInteger : Nat := 9007199254740992

/-- A Number as `parseInt` returns it, as far as it is followed here: NaN; an
integer of magnitude at most 2^53, returned exactly; or another number, which
is not NaN and whose value is not computed here (the double nearest a numeral
beyond 2^53, Infinity for a very long numeral, or what `parseInt` reads from
the text of a Number beyond 2^53, which from 1e21 on is in exponent form). -/
inductive JsNumber where
  | nan
  | exact (n : Int)
  | beyond
  deriving DecidableEq, Repr

/-- The test `isNaN(number)`. -/
def JsNumber.isNaN : JsNumber → Bool
  | JsNumber.nan => true
  | _ => false

/-- The Number for the integer that `parseInt` read, of the given sign and
magnitude. -/
def numberOf (negative : Bool) (magnitude : Nat) : JsNumber :=
  if magnitude ≤ maxExactInteger then
    JsNumber.exact (if negative then -(magnitude : Int) else (magnitude : Int))
  else JsNumber.beyond

/-- The function `parseInt(string)` without a radix argument: leading white space
is skipped, a sign is read, a prefix `0x` or `0X` selects radix 16, and the
longest run of digits is the integer read; no digit gives NaN. -/
def parseIntChars (cs : List Char) : JsNumber :=
  let cs := cs.dropWhile isTrimChar
  let negative := cs.head? == some '-'
  let cs := if cs.head? == some '-' || cs.head? == some '+' then cs.tail else cs
  let hex := "0x".data.isPrefixOf cs || "0X".data.isPrefixOf cs
  let magnitude := if hex then leadingNumber 16 none (cs.drop 2) else leadingNumber 10 none cs
  match magnitude with
  | none => JsNumber.nan
  | some m => numberOf negative m

/-- The call `parseInt(predictionId)`, which reads the text `String(predictionId)`:
a string is parsed; for a Number that is an integer of magnitude at most 2^53
the text is its decimal numeral, which is read back exactly; the text of a
larger Number starts with a digit, so that the result is not NaN;
`"undefined"` and `"null"` give NaN. -/
def parseInt : IdValue → JsNumber
  | IdValue.str s => parseIntChars s.data
  | IdValue.num n => if n.natAbs ≤ maxExactInteger then JsNumber.exact n else JsNumber.beyond
  | IdValue.missing => JsNumber.nan

/-- The body of the request to `/share/share-report`. -/
structure ShareRequest where
  prediction_id : JsNumber
  doctor_email : String
  doctor_name : String
  sender_name : String
  notes : Option String
  include_pdf : Bool
  deriving DecidableEq, Repr

/-- The `useState` cells of the share modal. -/
structure ShareState where
  formData : ShareFormData
  isSharing : Bool
  errors : List String
  success : Bool
  deriving DecidableEq, Repr

/-- What the handlers of the share modal act on: the state of the next render,
the `token` item of `localStorage`, and the calls of `ShareService.shareReport`
made so far. -/
structure ShareWorld where
  st : ShareState
  token : Option String
  shareReport : List ShareRequest
  deriving DecidableEq, Repr

/-- The test `typeof predictionId === "string" && predictionId.startsWith("PT-")`. -/
def isDemoId : IdValue → Bool
  | IdValue.str s => "PT-".data.isPrefixOf s.data
  | _ => false

/-- The object `shareRequest` of `handleSubmit`; `fullName` is
`patientData?.full_name`. -/
def shareRequestOf (formData : ShareFormData) (fullName : Option String)
    (predictionId : JsNumber) : ShareRequest where
  prediction_id := predictionId
  doctor_email := trim formData.doctor_email
  doctor_name := trim formData.doctor_name
  sender_name :=
    if truthy (trim formData.sender_name) then trim formData.sender_name
    else match fullName with
      | some name => if truthy name then name else "Patient"
      | none => "Patient"
  notes := if truthy (trim formData.notes) then some (trim formData.notes) else none
  include_pdf := formData.include_pdf

/-- The handler `handleSubmit` of the share modal up to its `await`; an early
`return` inside the `try` passes through `finally`, which writes
`isSharing = false`. -/
def handleSubmit (snap : ShareState) (id : IdValue) (fullName : Option String)
    (w : ShareWorld) : ShareWorld :=
  let validation := ShareService.validateShareForm snap.formData
  if !validation.isValid then { w with st := { w.st with errors := validation.errors } }
  else if !(match w.token with | some t => truthy t | none => false) then
    { w with st := { w.st with
        isSharing := false
        errors := ["Please log in to share reports with doctors."] } }
  else if isDemoId id then
    { w with st := { w.st with
        isSharing := false
        errors :=
          ["Cannot share demo/sample data. Please perform a real medical analysis first."] } }
  else
    let predictionId := parseInt id
    if predictionId.isNaN then
      { w with st := { w.st with
          isSharing := false
          errors := ["Invalid prediction ID. Cannot share this result."] } }
    else
      { w with
        st := { w.st with isSharing := true, errors := [] }
        shareReport := w.shareReport ++ [shareRequestOf snap.formData fullName predictionId] }

/-- The rest of `handleSubmit` when `shareReport` resolves. -/
def handleSubmitResolved (w : ShareWorld) : ShareWorld :=
  { w with st := { w.st with success := true, isSharing := false } }

/-- The rest of `handleSubmit` when `shareReport` rejects with `error.message`. -/
def handleSubmitRejected (message : String) (w : ShareWorld) : ShareWorld :=
  { w with st := { w.st with errors := [message], isSharing := false } }

/-- The e-mail pattern as the specification words it: a non-empty run without
white space or '@', then '@', a non-empty run, '.', and a non-empty run, the
runs being of the same kind. -/
def specEmail (email : String) : Prop :=
  ∃ a b c : List Char, email.data = a ++ '@' :: (b ++ '.' :: c) ∧
    a ≠ [] ∧ b ≠ [] ∧ c ≠ [] ∧
    (∀ x ∈ a, isEmailChar x = true) ∧ (∀ x ∈ b, isEmailChar x = true) ∧
    (∀ x ∈ c, isEmailChar x = true)

/-- A filled share form that passes validation. -/
def sampleForm : ShareFormData where
  doctor_name := "Dr Rai"
  doctor_email := "rai@clinic.np"
  sender_name := ""
  notes := ""
  include_pdf := true

/-- The share modal with `sampleForm` typed in, a stored token and no call yet. -/
def sampleShareWorld : ShareWorld where
  st := { formData := sampleForm, isSharing := false, errors := [], success := false }
  token := some "tok"
  shareReport := []

/-! ## The upload form (pages/Upload/Upload.jsx) -/

/-- The class `\d`: the ten ASCII digits; `\D` is its complement. -/
def isDigitChar (c : Char) : Bool := decide (48 ≤ c.toNat) && decide (c.toNat ≤ 57)

/-- The state cell `patientInfo`. -/
structure PatientInfo where
  name : String
  dateOfBirth : String
  gender : String
  phone : String
  contact : String
  notes : String
  deriving DecidableEq, Repr

/-- The state cell `validationErrors`. -/
structure ValidationErrors where
  phone : String
  dateOfBirth : String
  deriving DecidableEq, Repr

/-- A `File`: the three properties `handleFileSelection` reads. -/
structure FileValue where
  name : String
  type : String
  size : Nat
  deriving DecidableEq, Repr

/-- The `useState` cells of the upload page that file selection and the two field
validators read or write. -/
structure UploadState where
  selectedFile : Option FileValue
  imagePreview : Option String
  patientInfo : PatientInfo
  validationErrors : ValidationErrors
  deriving DecidableEq, Repr

/-- What the handlers of the upload page act on: the state of the next render,
the `alert` boxes shown so far, and the file a `FileReader` was started on (its
`onload` sets the preview later). -/
structure UploadWorld where
  st : UploadState
  alerts : List String
  reading : Option FileValue
  deriving DecidableEq, Repr

/-- The call `s.endsWith(suffix)`. -/
def endsWith (s suffix : String) : Bool := suffix.data.isSuffixOf s.data

/-- The call `s.startsWith(start)`. -/
def startsWith (s start : String) : Bool := start.data.isPrefixOf s.data

/-- The function `validatePhoneNumber`: the error text it returns and the state
after its functional `setPatientInfo` update. -/
def validatePhoneNumber (phone : String) (st : UploadState) : String × UploadState :=
  if !truthy (trim phone) then ("", st)
  else
    let digitsOnly := phone.data.filter isDigitChar
    if digitsOnly.length ≠ 10 then ("Phone number must be exactly 10 digits", st)
    else
      let formatted : String :=
        ⟨slice digitsOnly 0 3 ++ '-' :: (slice digitsOnly 3 6 ++
          '-' :: slice digitsOnly 6 (digitsOnly.length : Int))⟩
      ("", { st with patientInfo := { st.patientInfo with phone := formatted } })

/-- The handler `handlePhoneChange`. -/
def handlePhoneChange (value : String) (st : UploadState) : UploadState :=
  let st1 := { st with patientInfo := { st.patientInfo with phone := value } }
  let r := validatePhoneNumber value st1
  { r.2 with validationErrors := { r.2.validationErrors with phone := r.1 } }

/-- A `Date` by its reading in local time: what `getFullYear`, `getMonth` (0 to
11) and `getDate` return, and the milliseconds elapsed since local midnight.
Local time is UTC plus one fixed offset, so that instants are ordered as their
readings are. -/
structure JsDate where
  fullYear : Int
  month : Nat
  date : Nat
  msOfDay : Nat
  deriving DecidableEq, Repr

/-- The comparison `a > b` of two `Date` objects: `a` is the later instant. -/
def JsDate.after (a b : JsDate) : Bool :=
  decide (b.fullYear < a.fullYear) ||
  (decide (a.fullYear = b.fullYear) &&
    (decide (b.month < a.month) ||
      (decide (a.month = b.month) &&
        (decide (b.date < a.date) ||
          (decide (a.date = b.date) && decide (b.msOfDay < a.msOfDay))))))

/-- A non-empty value of the date input: the text "YYYY-MM-DD", by its year,
its month (1 to 12) and its day of the month. -/
structure DateValue where
  year : Nat
  month : Nat
  day : Nat
  deriving DecidableEq, Repr

/-- The leap years of the calendar of `Date`. -/
def isLeapYear (year : Nat) : Bool :=
  (year % 4 == 0 && year % 100 != 0) || year % 400 == 0

/-- The number of days of a month (1 to 12). -/
def daysInMonth (year month : Nat) : Nat :=
  if month = 2 then (if isLeapYear year then 29 else 28)
  else if month = 4 ∨ month = 6 ∨ month = 9 ∨ month = 11 then 30
  else 31

/-- The text names a day of the calendar; the date input yields no other. -/
def DateValue.isValid (dob : DateValue) : Bool :=
  decide (1 ≤ dob.month) && decide (dob.month ≤ 12) && decide (1 ≤ dob.day) &&
    decide (dob.day ≤ daysInMonth dob.year dob.month)

/-- The object `new Date(dob)` for a date-only text, read in local time:
`Date` takes such a text as midnight UTC of that day, and local time is UTC
plus `offsetMs` (positive east of Greenwich, negative west of it, less than a
day either way).  At or east of Greenwich the local reading is the day of the
text, `offsetMs` after midnight; west of Greenwich it is the evening of the day
before.  A text that names no day gives an Invalid Date, `none`. -/
def newDate (offsetMs : Int) (dob : DateValue) : Option JsDate :=
  if !dob.isValid then none
  else if 0 ≤ offsetMs then
    some { fullYear := dob.year, month := dob.month - 1, date := dob.day,
           msOfDay := offsetMs.toNat }
  else if 1 < dob.day then
    some { fullYear := dob.year, month := dob.month - 1, date := dob.day - 1,
           msOfDay := (86400000 + offsetMs).toNat }
  else if 1 < dob.month then
    some { fullYear := dob.year, month := dob.month - 2,
           date := daysInMonth dob.year (dob.month - 1),
           msOfDay := (86400000 + offsetMs).toNat }
  else
    some { fullYear := (dob.year : Int) - 1, month := 11, date := 31,
           msOfDay := (86400000 + offsetMs).toNat }

/-- The function `validateDateOfBirth`; `dob` is the value of the date input
(`none` for the empty string), `offsetMs` the offset of local time and `today`
the object `new Date()`.  On an Invalid Date every comparison is false and the
function returns no error. -/
def validateDateOfBirth (offsetMs : Int) (dob : Option DateValue) (today : JsDate) : String :=
  match dob with
  | none => ""
  | some text =>
    match newDate offsetMs text with
    | none => ""
    | some birthDate =>
      if birthDate.after today then "Date of birth cannot be in the future"
      else
        let age : Int := today.fullYear - birthDate.fullYear
        let monthDiff : Int := (today.month : Int) - (birthDate.month : Int)
        let adjustedAge : Int :=
          if monthDiff < 0 ∨ (monthDiff = 0 ∧ today.date < birthDate.date) then age - 1 else age
        if adjustedAge < 0 then "Invalid date of birth"
        else if adjustedAge > 120 then "Age cannot exceed 120 years"
        else ""

/-- The array `allowedTypes` of `handleFileSelection`. -/
def allowedTypes : List String := ["image/jpeg", "image/jpg", "image/png", "image/dicom"]

/-- The function `handleFileSelection`. -/
def handleFileSelection (P : Platform) (file : FileValue) (w : UploadWorld) : UploadWorld :=
  if !allowedTypes.contains file.type && !endsWith (P.toLowerCase file.name) ".dcm" then
    { w with alerts := w.alerts ++
        ["Please upload a valid medical image (JPEG, PNG, or DICOM format)"] }
  else if file.size > 10 * 1024 * 1024 then
    { w with alerts := w.alerts ++ ["File size must be less than 10MB"] }
  else
    let w1 : UploadWorld := { w with st := { w.st with selectedFile := some file } }
    if startsWith file.type "image/" && !endsWith (P.toLowerCase file.name) ".dcm" then
      { w1 with reading := some file }
    else
      { w1 with st := { w1.st with imagePreview := none } }

/-- This year's birthday has not yet occurred: today's month and day come before
those of the birth date. -/
def birthdayPending (birth today : JsDate) : Prop :=
  today.month < birth.month ∨ (today.month = birth.month ∧ today.date < birth.date)

instance (birth today : JsDate) : Decidable (birthdayPending birth today) :=
  inferInstanceAs (Decidable (_ ∨ _))

/-- The age in completed years as the specification words it: the year
difference, minus one when this year's birthday has not yet occurred. -/
def completedAge (birth today : JsDate) : Int :=
  today.fullYear - birth.fullYear - (if birthdayPending birth today then 1 else 0)

/-- An upload page with nothing selected and an empty patient form. -/
def emptyUpload : UploadWorld where
  st :=
    { selectedFile := none
      imagePreview := none
      patientInfo :=
        { name := "", dateOfBirth := "", gender := "", phone := "", contact := "", notes := "" }
      validationErrors := { phone := "", dateOfBirth := "" } }
  alerts := []
  reading := none

/-- The day a value of the date input names, as a local day (at its midnight). -/
def DateValue.asDay (dob : DateValue) : JsDate :=
  { fullYear := dob.year, month := dob.month - 1, date := dob.day, msOfDay := 0 }

/-- The fifth of November 2026, at noon. -/
def sampleToday : JsDate := { fullYear := 2026, month := 10, date := 5, msOfDay := 43200000 }

/-- The fifth of November 2026, at 23:00. -/
def sampleEvening : JsDate := { fullYear := 2026, month := 10, date := 5, msOfDay := 82800000 }

/-- The offset of Nepal time, UTC+05:45, in milliseconds. -/
def nepalOffset : Int := 20700000

/-- The offset of New York in November, UTC-05:00, in milliseconds. -/
def newYorkOffset : Int := -18000000

/-! ## The HTTP client (services/api.js) -/

/-- A field of the parsed error body, as the error code reads it: a string, a
truthy value that is not a string (with the text `String(value)` gives), or a
value that is missing or falsy and not a string (undefined, null, false, 0). -/
inductive JsonField where
  | absent
  | str (s : String)
  | other (text : String)
  deriving DecidableEq, Repr

/-- The object `errorData`: the three fields of the parsed body the
specification names. -/
structure ErrorData where
  detail : JsonField
  message : JsonField
  error : JsonField
  deriving DecidableEq, Repr

/-- The `Response` of `fetch`; `json` is what `response.json()` resolves to, or
`none` when it rejects because the body is not JSON. -/
structure FetchResponse where
  status : Nat
  statusText : String
  json : Option ErrorData
  deriving DecidableEq, Repr

/-- The property `error.response` that `post` attaches. -/
structure ErrorResponse where
  status : Nat
  statusText : String
  data : ErrorData
  deriving DecidableEq, Repr

/-- The `Error` a method throws: its message and, when attached, `response`. -/
structure ApiError where
  message : String
  response : Option ErrorResponse
  deriving DecidableEq, Repr

/-- The getter `response.ok`: the status is in the range 200 to 299. -/
def FetchResponse.ok (response : FetchResponse) : Bool :=
  decide (200 ≤ response.status) && decide (response.status ≤ 299)

/-- The value of `await response.json().catch(() => ({}))`. -/
def FetchResponse.errorData (response : FetchResponse) : ErrorData :=
  response.json.getD { detail := JsonField.absent, message := JsonField.absent,
                       error := JsonField.absent }

/-- The text of a truthy field, `none` for a falsy one: the left operand of
`field || fallback` when it is chosen, as `new Error` converts it. -/
def JsonField.truthyText : JsonField → Option String
  | JsonField.absent => none
  | JsonField.str s => if truthy s then some s else none
  | JsonField.other text => some text

/-- The template `HTTP error! status: ${response.status}`. -/
def httpErrorText (status : Nat) : String := "HTTP error! status: " ++ toString status

/-- The error `post` throws for a response that is not ok. -/
def ApiService.postError (response : FetchResponse) : ApiError :=
  let errorData := response.errorData
  { message :=
      match errorData.detail with
      | JsonField.str detail => detail
      | _ => (errorData.message.truthyText).getD (httpErrorText response.status)
    response := some
      { status := response.status, statusText := response.statusText, data := errorData } }

/-- The error `get` throws for a response that is not ok. -/
def ApiService.getError (response : FetchResponse) : ApiError :=
  let errorData := response.errorData
  { message := (errorData.detail.truthyText).getD (httpErrorText response.status)
    response := none }

/-- The error `put` throws for a response that is not ok. -/
def ApiService.putError (response : FetchResponse) : ApiError :=
  let errorData := response.errorData
  { message := (errorData.detail.truthyText).getD (httpErrorText response.status)
    response := none }

/-- The error `delete` throws for a response that is not ok. -/
def ApiService.deleteError (response : FetchResponse) : ApiError :=
  let errorData := response.errorData
  { message := (errorData.detail.truthyText).getD (httpErrorText response.status)
    response := none }

/-- The four request methods of `ApiService`. -/
inductive Method where
  | get
  | post
  | put
  | delete
  deriving DecidableEq, Repr

/-- How a method call ends once `fetch` has answered: the parsed body is
returned, parsing the body of an ok response throws, or the error of the
method is thrown. -/
inductive ApiResult where
  | returned (data : ErrorData)
  | syntaxError
  | thrown (error : ApiError)
  deriving DecidableEq, Repr

/-- The part of `get`, `post`, `put` and `delete` after `await fetch(url, config)`. -/
def ApiService.settle (method : Method) (response : FetchResponse) : ApiResult :=
  if !response.ok then
    ApiResult.thrown
      (match method with
       | Method.get => ApiService.getError response
       | Method.post => ApiService.postError response
       | Method.put => ApiService.putError response
       | Method.delete => ApiService.deleteError response)
  else
    match response.json with
    | some data => ApiResult.returned data
    | none => ApiResult.syntaxError

/-- A 400 answer whose JSON body has only a `message` field. -/
def messageOnly400 : FetchResponse where
  status := 400
  statusText := "Bad Request"
  json := some { detail := JsonField.absent, message := JsonField.str "Not allowed",
                 error := JsonField.absent }

/-- A 400 answer whose JSON body has only an `error` field. -/
def errorOnly400 : FetchResponse where
  status := 400
  statusText := "Bad Request"
  json := some { detail := JsonField.absent, message := JsonField.absent,
                 error := JsonField.str "Not allowed" }

/-! ## Request headers of the HTTP client (services/api.js) -/

/-- A headers object: its own properties, name and value. -/
abbrev Headers := List (String × String)

/-- The object spread `{...a, ...b}`: the properties of `b` override those of
`a` with the same name. -/
def spread (a b : Headers) : Headers :=
  a.filter (fun p => !(b.any (fun q => q.1 == p.1))) ++ b

/-- The value of the property `name` of a headers object, if it has one. -/
def header (h : Headers) (name : String) : Option String :=
  (h.find? (fun p => p.1 == name)).map (fun p => p.2)

/-- The argument `options` of a request method: its `headers` property, absent or
an object.  No other property of `options` bears on the headers sent. -/
structure RequestOptions where
  headers : Option Headers
  deriving DecidableEq, Repr

/-- The method `getAuthHeaders`; `token` is `localStorage.getItem("token")`. -/
def ApiService.getAuthHeaders (token : Option String) : Headers :=
  match token with
  | some t => if truthy t then [("Authorization", "Bearer " ++ t)] else []
  | none => []

/-- The property `config.headers` that `get`, `post`, `put` and `delete` hand to
`fetch`.  Each builds `{ ..., headers: {...}, ...options }`, so a `headers`
property of `options` replaces the merged object; `post` then adds the content
type in front unless the body is a `FormData`. -/
def ApiService.configHeaders (method : Method) (token : Option String)
    (options : RequestOptions) (isFormData : Bool) : Headers :=
  let given : Headers := options.headers.getD []
  match method with
  | Method.post =>
    let merged := spread (ApiService.getAuthHeaders token) given
    let config := match options.headers with
      | some h => h
      | none => merged
    if isFormData then config else spread [("Content-Type", "application/json")] config
  | _ =>
    let merged :=
      spread (spread [("Content-Type", "application/json")] (ApiService.getAuthHeaders token)) given
    match options.headers with
    | some h => h
    | none => merged

/-- A 404 answer with a JSON body. -/
def notFound404 : FetchResponse where
  status := 404
  statusText := "Not Found"
  json := some { detail := JsonField.str "User not found", message := JsonField.absent,
                 error := JsonField.absent }

/-! ## The session context (context/AuthContext.jsx) -/

/-- The `useState` cells of `AuthProvider`. -/
structure AuthState where
  user : Option User
  token : Option String
  loading : Bool
  deriving DecidableEq, Repr

/-- A request `AuthProvider` makes with `fetch`. -/
inductive AuthRequest where
  | loginJson (email password : String)
  | me (bearer : String)
  | verifyToken (bearer : String)
  deriving DecidableEq, Repr

/-- What the functions of the session context act on: the state of the next
render, the `token` item of `localStorage`, and the requests made so far. -/
structure AuthWorld where
  st : AuthState
  storedToken : Option String
  fetches : List AuthRequest
  deriving DecidableEq, Repr

/-- How `fetch("/auth/login-json")` ends: the promise rejects, the response is ok
(with `data.access_token`, or `none` when the body is not JSON), or the response
is not ok (with its parsed body, or `none` when the body is not JSON). -/
inductive CredentialAnswer where
  | rejected
  | ok (access_token : Option String)
  | notOk (status : Nat) (errorData : Option ErrorData)
  deriving DecidableEq, Repr

/-- How `fetch("/auth/me")` ends: the promise rejects, the response is ok (with
the profile, or `none` when the body is not JSON), or the response is not ok. -/
inductive ProfileAnswer where
  | rejected
  | ok (userData : Option User)
  | notOk (status : Nat)
  deriving DecidableEq, Repr

/-- The object an auth function resolves with; a truthy `detail` that is not a
string is given by its text. -/
structure AuthResult where
  success : Bool
  error : Option String
  deriving DecidableEq, Repr

/-- The context value `isAuthenticated: !!user`. -/
def AuthContext.isAuthenticated (st : AuthState) : Bool := st.user.isSome

/-- The function `login`, given how its two requests end: the world it leaves and
the object it resolves with.  A throw inside the `try` (a rejected `fetch`, a
body that is not JSON) ends in the `catch`. -/
def AuthContext.login (email password : String) (credentials : CredentialAnswer)
    (profile : ProfileAnswer) (w : AuthWorld) : AuthWorld × AuthResult :=
  let w0 : AuthWorld := { w with fetches := w.fetches ++ [AuthRequest.loginJson email password] }
  match credentials with
  | CredentialAnswer.rejected => (w0, { success := false, error := some "Network error" })
  | CredentialAnswer.ok none => (w0, { success := false, error := some "Network error" })
  | CredentialAnswer.ok (some access_token) =>
    let w1 : AuthWorld :=
      { w0 with
        storedToken := some access_token
        st := { w0.st with token := some access_token }
        fetches := w0.fetches ++ [AuthRequest.me access_token] }
    match profile with
    | ProfileAnswer.rejected => (w1, { success := false, error := some "Network error" })
    | ProfileAnswer.ok none => (w1, { success := false, error := some "Network error" })
    | ProfileAnswer.ok (some userData) =>
      ({ w1 with st := { w1.st with user := some userData } }, { success := true, error := none })
    | ProfileAnswer.notOk _ => (w1, { success := true, error := none })
  | CredentialAnswer.notOk _ none => (w0, { success := false, error := some "Network error" })
  | CredentialAnswer.notOk _ (some errorData) =>
    (w0, { success := false, error := some (errorData.detail.truthyText.getD "Login failed") })

/-- The function `logout`. -/
def AuthContext.logout (w : AuthWorld) : AuthWorld :=
  { w with storedToken := none, st := { w.st with token := none, user := none } }

/-! ## The theme context (context/ThemeContext.jsx) -/

/-- How `localStorage.getItem("theme")` ends: it throws, or it returns the stored
value (`none` for null). -/
inductive StorageRead where
  | throws
  | value (v : Option String)
  deriving DecidableEq, Repr

/-- The initializer of the `theme` state. -/
def initialTheme (read : StorageRead) : String :=
  match read with
  | StorageRead.throws => "light"
  | StorageRead.value v => if v = some "dark" then "dark" else "light"

/-- The updater of `toggleTheme`: `t === "dark" ? "light" : "dark"`. -/
def toggleTheme (t : String) : String := if t = "dark" then "light" else "dark"

/-- A signed-out session: no user, no token, nothing requested. -/
def signedOut : AuthWorld where
  st := { user := none, token := none, loading := false }
  storedToken := none
  fetches := []

/-! ## E-mail validation (utils/validation.js) -/

/-- The class `[a-zA-Z0-9]`. -/
def isAlnum (c : Char) : Bool :=
  (decide (97 ≤ c.toNat) && decide (c.toNat ≤ 122)) ||
  (decide (65 ≤ c.toNat) && decide (c.toNat ≤ 90)) ||
  (decide (48 ≤ c.toNat) && decide (c.toNat ≤ 57))

/-- The class of the local part of `emailRegex`: letters, digits and the
characters . ! # $ % & apostrophe * + / = ? ^ _ backtick { | } ~ - , given by
their code points. -/
def isLocalChar (c : Char) : Bool :=
  isAlnum c ||
  [46, 33, 35, 36, 37, 38, 39, 42, 43, 47, 61, 63, 94, 95, 96, 123, 124, 125, 126, 45].contains
    c.toNat

/-- The class `[a-zA-Z0-9-]`. -/
def isLabelChar (c : Char) : Bool := isAlnum c || c == '-'

/-- One domain label of `emailRegex`,
`[a-zA-Z0-9](?:[a-zA-Z0-9-]{0,61}[a-zA-Z0-9])?`: a letter or digit, or 2 to 63
characters that start and end with a letter or digit, with letters, digits and
hyphens between. -/
def isLabel (l : List Char) : Bool :=
  match l with
  | [] => false
  | [c] => isAlnum c
  | c :: d :: rest =>
    isAlnum c && decide ((d :: rest).length ≤ 62) && isAlnum ((d :: rest).getLast (by simp)) &&
      (d :: rest).dropLast.all isLabelChar

/-- The call `s.split(sep)` for a one-character separator. -/
def splitChar (sep : Char) : List Char → List (List Char)
  | [] => [[]]
  | c :: cs =>
    if c = sep then [] :: splitChar sep cs
    else
      match splitChar sep cs with
      | [] => [[c]]
      | part :: parts => (c :: part) :: parts

/-- The function `isValidEmail`: the guard on a falsy argument, then
`emailRegex.test(email)`, the pattern being a run of local characters, '@', and
labels separated by dots, up to the end. -/
def isValidEmail (email : String) : Bool :=
  truthy email &&
    (!(email.data.takeWhile isLocalChar).isEmpty &&
      match email.data.dropWhile isLocalChar with
      | [] => false
      | c :: domain => c == '@' && (splitChar '.' domain).all isLabel)

/-- The object `validateEmail` returns. -/
structure EmailValidation where
  isValid : Bool
  error : Option String
  deriving DecidableEq, Repr

/-- The first element of `trimmedEmail.split("@")`, the empty text when missing. -/
def localPartOf (trimmedEmail : String) : List Char :=
  ((splitChar '@' trimmedEmail.data)[0]?).getD []

/-- The second element of `trimmedEmail.split("@")`, the empty text when missing. -/
def domainOf (trimmedEmail : String) : List Char :=
  ((splitChar '@' trimmedEmail.data)[1]?).getD []

/-- The function `validateEmail` of utils/validation.js. -/
def validateEmail (email : String) : EmailValidation :=
  if !truthy email || trim email == "" then
    { isValid := false, error := some "Email is required" }
  else
    let trimmedEmail := trim email
    if jsLength trimmedEmail < 5 then { isValid := false, error := some "Email is too short" }
    else if jsLength trimmedEmail > 254 then
      { isValid := false, error := some "Email is too long" }
    else if !includes trimmedEmail "@" then
      { isValid := false, error := some "Email must contain @ symbol" }
    else if trimmedEmail.data.count '@' ≠ 1 then
      { isValid := false, error := some "Email must contain exactly one @ symbol" }
    else if (localPartOf trimmedEmail).isEmpty then
      { isValid := false, error := some "Email must have a username before @" }
    else if jsLength ⟨localPartOf trimmedEmail⟩ > 64 then
      { isValid := false, error := some "Email username part is too long" }
    else if (domainOf trimmedEmail).isEmpty then
      { isValid := false, error := some "Email must have a domain after @" }
    else if !includes ⟨domainOf trimmedEmail⟩ "." then
      { isValid := false, error := some "Email domain must contain a dot" }
    else if includes trimmedEmail ".." then
      { isValid := false, error := some "Email cannot contain consecutive dots" }
    else if startsWith trimmedEmail "." || endsWith trimmedEmail "." then
      { isValid := false, error := some "Email cannot start or end with a dot" }
    else if !isValidEmail trimmedEmail then
      { isValid := false, error := some "Please enter a valid email address" }
    else { isValid := true, error := none }

/-- The conditions on the trimmed input as the specification lists them: length
between 5 and 254, exactly one '@' with a non-empty local part of at most 64
characters before it and a domain containing a '.' after it, no "..", no '.' at
the start or the end, and a match of the `isValidEmail` pattern. -/
def specEmailAccepted (t : String) : Prop :=
  5 ≤ jsLength t ∧ jsLength t ≤ 254 ∧
  (∃ l d : List Char, t.data = l ++ '@' :: d ∧ '@' ∉ l ∧ '@' ∉ d ∧
    l ≠ [] ∧ jsLength ⟨l⟩ ≤ 64 ∧ '.' ∈ d) ∧
  ¬ "..".data <:+: t.data ∧ ¬ ".".data <+: t.data ∧ ¬ ".".data <:+ t.data ∧
  isValidEmail t = true

/-! ## The message of a failed upload (pages/Upload/Upload.jsx, `handleUpload`) -/

/-- The object `errorData.detail` of a structured validation error; `mriPercent`
is the text `((detail.mri_probability || 0) * 100).toFixed(1)`. -/
structure DetailObject where
  error : Option String
  message : Option String
  separator_prediction : Option String
  mriPercent : String
  deriving DecidableEq, Repr

/-- The field `errorData.detail` as `handleUpload` tells it apart: an object, a
string, or anything else (missing, null, or another value). -/
inductive UploadDetail where
  | absent
  | str (s : String)
  | object (detail : DetailObject)
  deriving DecidableEq, Repr

/-- The object `error.response.data` as `handleUpload` reads it. -/
structure UploadErrorData where
  detail : UploadDetail
  message : Option String
  error : Option String
  deriving DecidableEq, Repr

/-- The error caught by `handleUpload`: `error.message`, and `error.response.data`
when the error carries a response with a body. -/
structure UploadError where
  message : Option String
  data : Option UploadErrorData
  deriving DecidableEq, Repr

/-- The expression `v || fallback` for a string or missing `v`. -/
def orElse (v : Option String) (fallback : String) : String :=
  match v with
  | some s => if truthy s then s else fallback
  | none => fallback

/-- The template of the image-validation message. -/
def imageValidationMessage (imageType mriPercent : String) : String :=
  "Image Validation Failed: This appears to be a " ++ imageType ++
    " image (MRI probability: " ++ mriPercent ++
    "%). Please upload an MRI brain scan image for tumor analysis."

/-- The "special handling for patient requirement error" at the end of the
`catch`. -/
def patientRequirementFix (errorMessage : String) : String :=
  if includes errorMessage "Either patient_id or patient_name must be provided" then
    "Please select an existing patient or provide patient information for a new patient."
  else errorMessage

/-- The `catch` of `handleUpload`: the text it passes to `setUploadError`. -/
def uploadErrorMessage (error : UploadError) : String :=
  let errorMessage := "Upload failed. Please try again."
  let errorMessage :=
    match error.data with
    | some errorData =>
      match errorData.detail with
      | UploadDetail.object detail =>
        if (match detail.error with
            | some e => truthy e && includes e "Invalid image type"
            | none => false) then
          imageValidationMessage (orElse detail.separator_prediction "Non-medical")
            detail.mriPercent
        else orElse detail.message (orElse detail.error errorMessage)
      | UploadDetail.str s =>
        if truthy s then s else orElse errorData.message (orElse errorData.error errorMessage)
      | UploadDetail.absent => orElse errorData.message (orElse errorData.error errorMessage)
    | none => orElse error.message errorMessage
  patientRequirementFix errorMessage

/-! ## The OTP entry (pages/auth/OTPVerification.jsx, pages/auth/ResetPassword.jsx) -/

/-- The initial and the cleared `otp` state: six empty slots. -/
def emptyOTP : List String := ["", "", "", "", "", ""]

/-- The function `handleOTPChange` of both pages: the `otp` it writes.  The
inputs exist for the indices 0 to 5. -/
def handleOTPChange (otp : List String) (index : Nat) (value : String) : List String :=
  if jsLength value > 1 then otp else otp.set index value

/-- The function `handlePaste` of both pages: the `otp` it writes, `text` being
the clipboard text. -/
def handlePaste (otp : List String) (text : String) : List String :=
  let pastedData := slice text.data 0 6
  if !pastedData.isEmpty && pastedData.all isDigitChar then
    slice (pastedData.map (fun c => String.mk [c]) ++ List.replicate 6 "") 0 6
  else otp

/-- The call `otp.join("")`. -/
def joinOTP (otp : List String) : String := ⟨(otp.map String.data).flatten⟩

/-- The guard of `handleSubmit` and `handleOTPSubmit`: the code handed to the
verification call, `none` when the handler stops with its "complete 6-digit"
error. -/
def submittedCode (otp : List String) : Option String :=
  if jsLength (joinOTP otp) ≠ 6 then none else some (joinOTP otp)

/-- The shape of the OTP entry state: exactly six slots, each of at most one
character. -/
def otpWellFormed (otp : List String) : Prop :=
  otp.length = 6 ∧ ∀ s ∈ otp, jsLength s ≤ 1

/-! ## Lemmas on the host functions -/

theorem includesChars_iff (s q : List Char) : includesChars s q = true ↔ q <:+: s := by
  induction s with
  | nil => simp [includesChars]
  | cons c s ih =>
    simp only [includesChars, Bool.or_eq_true, List.isPrefixOf_iff_prefix, ih]
    exact List.infix_cons_iff.symm

theorem includes_iff (s q : String) : includes s q = true ↔ q.data <:+: s.data :=
  includesChars_iff s.data q.data

theorem truthy_iff (s : String) : truthy s = true ↔ s ≠ "" := by
  cases s with
  | mk l => cases l <;> simp [truthy, String.ext_iff]

theorem trim_empty : trim "" = "" := by decide

theorem slice_nat {α : Type} (l : List α) (i n : Nat) :
    slice l (i : Int) ((i : Int) + (n : Int)) = (l.drop i).take n := by
  unfold slice
  have h1 : ¬ ((i : Int) < 0) := by omega
  have h2 : ¬ ((i : Int) + (n : Int) < 0) := by omega
  simp only [h1, h2, if_false]
  by_cases hi : i ≤ l.length
  · have e1 : (min (i : Int) (l.length : Int)).toNat = i := by omega
    rw [e1]
    apply List.take_eq_take.mpr
    simp only [List.length_drop]
    omega
  · have e1 : (min (i : Int) (l.length : Int)).toNat = l.length := by omega
    rw [e1, List.drop_eq_nil_of_le (Nat.le_refl _), List.drop_eq_nil_of_le (by omega)]
    simp

theorem mathCeilDiv_five (n : Nat) : mathCeilDiv n 5 = ⌈(n : ℚ) / 5⌉₊ := by
  have key : ∀ m : Nat, ((n : ℚ) / 5 ≤ (m : ℚ)) ↔ mathCeilDiv n 5 ≤ m := by
    intro m
    rw [div_le_iff₀ (by norm_num : (0 : ℚ) < 5)]
    have : ((n : ℚ) ≤ (m : ℚ) * 5) ↔ n ≤ m * 5 := by exact_mod_cast Iff.rfl
    rw [this]
    unfold mathCeilDiv
    split_ifs <;> omega
  apply le_antisymm
  · exact (key _).mp (Nat.le_ceil _)
  · exact Nat.ceil_le.mpr ((key _).mpr (Nat.le_refl _))

/-! ## Lemmas on the stable sort -/

section StableSort

variable {α : Type} (cmp : α → α → Int)

theorem insertBy_perm (x : α) (l : List α) : (insertBy cmp x l).Perm (x :: l) := by
  induction l with
  | nil => exact List.Perm.refl _
  | cons y ys ih =>
    unfold insertBy
    split_ifs
    · exact (List.Perm.cons y ih).trans (List.Perm.swap x y ys)
    · exact List.Perm.refl _

theorem arraySort_perm (l : List α) : (arraySort cmp l).Perm l := by
  induction l with
  | nil => exact List.Perm.refl _
  | cons x xs ih => exact (insertBy_perm cmp x _).trans (List.Perm.cons x ih)

theorem insertBy_pairwise
    (total : ∀ a b, cmp a b ≤ 0 ∨ cmp b a ≤ 0)
    (trans : ∀ a b c, cmp a b ≤ 0 → cmp b c ≤ 0 → cmp a c ≤ 0)
    (x : α) (l : List α) (h : l.Pairwise (fun a b => cmp a b ≤ 0)) :
    (insertBy cmp x l).Pairwise (fun a b => cmp a b ≤ 0) := by
  induction l with
  | nil => simp [insertBy]
  | cons y ys ih =>
    rw [List.pairwise_cons] at h
    unfold insertBy
    split_ifs with hxy
    · rw [List.pairwise_cons]
      refine ⟨?_, ih h.2⟩
      intro z hz
      rw [(insertBy_perm cmp x ys).mem_iff, List.mem_cons] at hz
      rcases hz with hz | hz
      · rw [hz]
        rcases total y x with h1 | h1
        · exact h1
        · omega
      · exact h.1 z hz
    · have hxy2 : cmp x y ≤ 0 := by omega
      rw [List.pairwise_cons]
      refine ⟨?_, List.pairwise_cons.mpr h⟩
      intro z hz
      rw [List.mem_cons] at hz
      rcases hz with hz | hz
      · rw [hz]; exact hxy2
      · exact trans x y z hxy2 (h.1 z hz)

theorem arraySort_pairwise
    (total : ∀ a b, cmp a b ≤ 0 ∨ cmp b a ≤ 0)
    (trans : ∀ a b c, cmp a b ≤ 0 → cmp b c ≤ 0 → cmp a c ≤ 0)
    (l : List α) : (arraySort cmp l).Pairwise (fun a b => cmp a b ≤ 0) := by
  induction l with
  | nil => simp [arraySort]
  | cons x xs ih => exact insertBy_pairwise cmp total trans x _ ih

theorem insertBy_filter (p : α → Bool)
    (hp : ∀ a b, p a = true → p b = true → cmp a b ≤ 0)
    (x : α) (l : List α) : (insertBy cmp x l).filter p = (x :: l).filter p := by
  induction l with
  | nil => simp [insertBy]
  | cons y ys ih =>
    unfold insertBy
    split_ifs with hxy
    · by_cases hx : p x = true
      · have hy : ¬ p y = true := fun hy => by have := hp x y hx hy; omega
        rw [List.filter_cons_of_neg hy, ih, List.filter_cons_of_pos hx,
          List.filter_cons_of_pos hx, List.filter_cons_of_neg hy]
      · rw [List.filter_cons, ih, List.filter_cons_of_neg hx, List.filter_cons_of_neg hx,
          List.filter_cons]
    · rfl

theorem arraySort_filter (p : α → Bool)
    (hp : ∀ a b, p a = true → p b = true → cmp a b ≤ 0)
    (l : List α) : (arraySort cmp l).filter p = l.filter p := by
  induction l with
  | nil => rfl
  | cons x xs ih =>
    show (insertBy cmp x (arraySort cmp xs)).filter p = _
    rw [insertBy_filter cmp p hp, List.filter_cons, ih, List.filter_cons]

end StableSort

theorem compareEntries_le_iff (P : Platform) (sortBy : String) (a b : Entry) :
    compareEntries P sortBy a b ≤ 0 ↔ keyOrdered P sortBy a b := by
  unfold compareEntries keyOrdered
  split_ifs <;> first | omega | exact Iff.rfl | simp

theorem compareEntries_total (P : Platform) (sortBy : String) (a b : Entry) :
    compareEntries P sortBy a b ≤ 0 ∨ compareEntries P sortBy b a ≤ 0 := by
  unfold compareEntries
  split_ifs
  · omega
  · exact P.localeCompare_total _ _
  · omega
  · exact P.localeCompare_total _ _
  · simp

theorem compareEntries_trans (P : Platform) (sortBy : String) (a b c : Entry)
    (h1 : compareEntries P sortBy a b ≤ 0) (h2 : compareEntries P sortBy b c ≤ 0) :
    compareEntries P sortBy a c ≤ 0 := by
  unfold compareEntries at *
  split_ifs at *
  · omega
  · exact P.localeCompare_trans _ _ _ h1 h2
  · omega
  · exact P.localeCompare_trans _ _ _ h1 h2
  · simp


/-! ## Lemmas on the local pipeline -/

theorem trim_ne_empty {q : String} (hq : trim q ≠ "") : q ≠ "" := by
  intro h
  exact hq (h ▸ trim_empty)

theorem filterByType_eq (filterType : String) (l : List Entry) :
    filterByType filterType l = l.filter (fun e => decide (specKeepsType filterType e)) := by
  unfold filterByType
  by_cases h1 : filterType = "all"
  · subst h1
    rw [if_neg (by simp)]
    symm
    rw [List.filter_eq_self]
    intro e _
    simp [specKeepsType]
  · by_cases h2 : filterType = "brain"
    · subst h2
      rw [if_pos h1, if_pos rfl]
      apply List.filter_congr
      intro e _
      rw [Bool.eq_iff_iff]
      simp [specKeepsType]
    · by_cases h3 : filterType = "pneumonia"
      · subst h3
        rw [if_pos h1, if_neg h2, if_pos rfl]
        apply List.filter_congr
        intro e _
        rw [Bool.eq_iff_iff]
        simp [specKeepsType]
      · rw [if_pos h1, if_neg h2, if_neg h3]
        symm
        rw [List.filter_eq_self]
        intro e _
        simp [specKeepsType, h2, h3]

theorem matchesQuery_iff (P : Platform) (q : String) (hq : q ≠ "") (e : Entry) :
    matchesQuery P (P.toLowerCase q) e = true ↔ specMatches P q e := by
  have hlq : (P.toLowerCase q).data ≠ [] := by
    intro h
    exact hq ((P.toLowerCase_eq_empty q).mp (String.ext_iff.mpr h))
  unfold matchesQuery specMatches
  simp only [Bool.or_eq_true, includes_iff, or_assoc]
  refine or_congr Iff.rfl (or_congr Iff.rfl (or_congr Iff.rfl (or_congr Iff.rfl ?_)))
  cases hn : e.notes with
  | none => simp
  | some notes =>
    simp only [Bool.and_eq_true, includes_iff, truthy_iff, Option.mem_def, Option.some.injEq,
      exists_eq_left']
    constructor
    · exact fun h => h.2
    · intro h
      refine ⟨?_, h⟩
      intro hne
      subst hne
      rw [(P.toLowerCase_eq_empty "").mpr rfl] at h
      exact hlq (List.infix_nil.mp h)

theorem filterBySearch_eq (P : Platform) (q : String) (hq : trim q ≠ "") (l : List Entry) :
    filterBySearch P q l = l.filter (fun e => decide (specMatches P q e)) := by
  unfold filterBySearch
  rw [if_pos ((truthy_iff _).mpr hq)]
  apply List.filter_congr
  intro e _
  rw [Bool.eq_iff_iff, matchesQuery_iff P q (trim_ne_empty hq) e]
  simp

theorem localPage_eq (l : List Entry) (k : Nat) :
    localPage l ((k : Int) + 1) = (l.drop (k * 5)).take 5 := by
  unfold localPage resultsPerPage
  have e : ((k : Int) + 1 - 1) * ((5 : Nat) : Int) = ((k * 5 : Nat) : Int) := by push_cast; ring
  rw [e]
  exact slice_nat l (k * 5) 5

theorem flatten_pages (l : List Entry) (m : Nat) :
    ((List.range m).map (fun k : Nat => (l.drop (k * 5)).take 5)).flatten = l.take (m * 5) := by
  induction m with
  | zero => simp
  | succ m ih =>
    rw [List.range_succ, List.map_append, List.flatten_append, ih, Nat.succ_mul, List.take_add]
    simp

theorem mathCeilDiv_mul_ge (n : Nat) : n ≤ mathCeilDiv n 5 * 5 := by
  unfold mathCeilDiv
  split_ifs <;> omega

/-! ## The claims -/

/-- C1. For a search text whose trim is non-empty and a page number `p ≥ 1`,
`performLocalSearch` shows elements `(p-1)*5` up to `p*5` of the sorted filtered
cache, the filter keeping entries first by model type and then by free text; it
sets `totalResults` to the length of that list and `totalPages` to the ceiling
of length / 5. -/
theorem performLocalSearch_shows_page (P : Platform) (snap : State) (w : World)
    (hq : trim snap.searchQuery ≠ "") (hp : 1 ≤ snap.currentPage) :
    (performLocalSearch P snap w).st.results =
      ((sortResults P snap.sortBy
        (specFilter P snap.filterType snap.searchQuery snap.allResults)).drop
          ((snap.currentPage - 1).toNat * 5)).take 5 ∧
    (performLocalSearch P snap w).st.totalResults =
      (sortResults P snap.sortBy
        (specFilter P snap.filterType snap.searchQuery snap.allResults)).length ∧
    (performLocalSearch P snap w).st.totalPages =
      ⌈((sortResults P snap.sortBy
        (specFilter P snap.filterType snap.searchQuery snap.allResults)).length : ℚ) / 5⌉₊ := by
  have hs : localSorted P snap = sortResults P snap.sortBy
      (specFilter P snap.filterType snap.searchQuery snap.allResults) := by
    unfold localSorted specFilter
    rw [filterByType_eq, filterBySearch_eq P _ hq]
  have hpage : snap.currentPage = (((snap.currentPage - 1).toNat : Nat) : Int) + 1 := by omega
  refine ⟨?_, ?_, ?_⟩
  · show localPage (localSorted P snap) snap.currentPage = _
    rw [hs, hpage, localPage_eq]
    simp
  · show (localSorted P snap).length = _
    rw [hs]
  · show mathCeilDiv (localSorted P snap).length resultsPerPage = _
    rw [hs]
    exact mathCeilDiv_five _

/-- Witness of C1: two cached entries, search text "ja", first page. -/
theorem performLocalSearch_shows_page_witness :
    (performLocalSearch asciiPlatform
      { initialState (some ⟨1⟩) with allResults := [jack, jane], searchQuery := "ja" }
      (freshWorld (some ⟨1⟩) none)).st.results =
      ((sortResults asciiPlatform "date"
        (specFilter asciiPlatform "all" "ja" [jack, jane])).drop (((1 : Int) - 1).toNat * 5)).take 5 ∧
    (performLocalSearch asciiPlatform
      { initialState (some ⟨1⟩) with allResults := [jack, jane], searchQuery := "ja" }
      (freshWorld (some ⟨1⟩) none)).st.totalResults =
      (sortResults asciiPlatform "date" (specFilter asciiPlatform "all" "ja" [jack, jane])).length ∧
    (performLocalSearch asciiPlatform
      { initialState (some ⟨1⟩) with allResults := [jack, jane], searchQuery := "ja" }
      (freshWorld (some ⟨1⟩) none)).st.totalPages =
      ⌈((sortResults asciiPlatform "date"
        (specFilter asciiPlatform "all" "ja" [jack, jane])).length : ℚ) / 5⌉₊ :=
  performLocalSearch_shows_page asciiPlatform
    { initialState (some ⟨1⟩) with allResults := [jack, jane], searchQuery := "ja" }
    (freshWorld (some ⟨1⟩) none) (by decide) (by decide)

/-- C5. For a search text `q` with non-empty trim, an entry passes the local
free-text filter exactly when the lower-cased `q` is a substring of the
lower-cased patient name, patient id, analysis type, result label or present
notes; so a text with the same lower-case form as `q` keeps the same entries. -/
theorem filterBySearch_case_insensitive (P : Platform) (q : String) (hq : trim q ≠ "") :
    (∀ (l : List Entry) (e : Entry), e ∈ filterBySearch P q l ↔ e ∈ l ∧ specMatches P q e) ∧
    (∀ q' : String, trim q' ≠ "" → P.toLowerCase q' = P.toLowerCase q →
      ∀ l : List Entry, filterBySearch P q' l = filterBySearch P q l) := by
  constructor
  · intro l e
    rw [filterBySearch_eq P q hq, List.mem_filter]
    simp
  · intro q' hq' hlow l
    unfold filterBySearch
    rw [if_pos ((truthy_iff _).mpr hq), if_pos ((truthy_iff _).mpr hq'), hlow]

/-- Witness of C5: the search text "ja", and its variant "JA". -/
theorem filterBySearch_case_insensitive_witness :
    (∀ (l : List Entry) (e : Entry),
      e ∈ filterBySearch asciiPlatform "ja" l ↔ e ∈ l ∧ specMatches asciiPlatform "ja" e) ∧
    (∀ q' : String, trim q' ≠ "" → asciiPlatform.toLowerCase q' = asciiPlatform.toLowerCase "ja" →
      ∀ l : List Entry, filterBySearch asciiPlatform q' l = filterBySearch asciiPlatform "ja" l) :=
  filterBySearch_case_insensitive asciiPlatform "ja" (by decide)

/-- C6. For every list and sort key, `sortResults` returns a permutation of its
input that is ordered by the key and stable (the entries that compare equal to
any given entry keep their input order); for an unrecognised key the output is
the input. -/
theorem sortResults_sorted_stable_perm (P : Platform) (sortBy : String) (l : List Entry) :
    (sortResults P sortBy l).Perm l ∧
    (sortResults P sortBy l).Pairwise (keyOrdered P sortBy) ∧
    (∀ e : Entry, (sortResults P sortBy l).filter (fun x => decide (keyEquiv P sortBy e x)) =
      l.filter (fun x => decide (keyEquiv P sortBy e x))) ∧
    (sortBy ≠ "date" → sortBy ≠ "patient" → sortBy ≠ "confidence" → sortBy ≠ "result" →
      sortResults P sortBy l = l) := by
  have hstable : ∀ p : Entry → Bool,
      (∀ a b, p a = true → p b = true → compareEntries P sortBy a b ≤ 0) →
      (sortResults P sortBy l).filter p = l.filter p :=
    fun p hp => arraySort_filter (compareEntries P sortBy) p hp l
  refine ⟨arraySort_perm _ l, ?_, ?_, ?_⟩
  · have h := arraySort_pairwise (compareEntries P sortBy) (compareEntries_total P sortBy)
      (compareEntries_trans P sortBy) l
    exact h.imp (fun hab => (compareEntries_le_iff P sortBy _ _).mp hab)
  · intro e
    apply hstable
    intro a b ha hb
    simp only [decide_eq_true_eq, keyEquiv] at ha hb
    exact compareEntries_trans P sortBy a e b
      ((compareEntries_le_iff P sortBy _ _).mpr ha.2)
      ((compareEntries_le_iff P sortBy _ _).mpr hb.1)
  · intro h1 h2 h3 h4
    have h := hstable (fun _ => true) (by
      intro a b _ _
      simp [compareEntries, h1, h2, h3, h4])
    simpa using h

/-- Witness of C6: three entries sorted by confidence, two of them equal. -/
theorem sortResults_sorted_stable_perm_witness :
    sortResults asciiPlatform "confidence"
      [jack, jane, sampleEntry 3 "Jill" "Glioma" 97 500] =
      [jane, sampleEntry 3 "Jill" "Glioma" 97 500, jack] ∧
    (sortResults asciiPlatform "confidence"
      [jack, jane, sampleEntry 3 "Jill" "Glioma" 97 500]).Perm
      [jack, jane, sampleEntry 3 "Jill" "Glioma" 97 500] :=
  ⟨by decide, (sortResults_sorted_stable_perm asciiPlatform "confidence"
    [jack, jane, sampleEntry 3 "Jill" "Glioma" 97 500]).1⟩

/-- C7. Local pagination partitions the list: every page holds at most 5
entries, the pages 1 to ceil(n/5) concatenated in order are the list, and every
page numbered above ceil(n/5) is empty. -/
theorem localPage_partition (l : List Entry) :
    (∀ k : Nat, (localPage l ((k : Int) + 1)).length ≤ 5) ∧
    ((List.range ⌈(l.length : ℚ) / 5⌉₊).map (fun k : Nat => localPage l ((k : Int) + 1))).flatten
      = l ∧
    (∀ k : Nat, localPage l (((⌈(l.length : ℚ) / 5⌉₊ + k : Nat) : Int) + 1) = []) := by
  rw [← mathCeilDiv_five]
  have hge := mathCeilDiv_mul_ge l.length
  refine ⟨?_, ?_, ?_⟩
  · intro k
    rw [localPage_eq]
    exact (List.length_take_le _ _)
  · simp only [localPage_eq]
    rw [flatten_pages, List.take_of_length_le hge]
  · intro k
    rw [localPage_eq, List.drop_eq_nil_of_le (by rw [Nat.add_mul]; omega)]
    rfl


/-- C4. With a non-empty cache primed at `t0`, the debounced search decision of
an authenticated render at time `t` runs the local search exactly when
`t - t0 < 300000`, and goes to `loadResults` exactly otherwise; so the cache is
used at `t0 + 299 s` and not at `t0 + 301 s`. -/
theorem delayedSearch_local_iff_fresh (P : Platform) (snap : State) (w : World) (t t0 : Int)
    (hauth : isAuthenticated snap = true) (hne : snap.allResults ≠ [])
    (ht0 : snap.lastCacheTime = some t0) :
    (delayedSearch P snap t w =
        performLocalSearch P snap { w with st := { w.st with currentPage := 1 } }
      ↔ t - t0 < 300000) ∧
    (delayedSearch P snap t w =
        loadResults snap { w with st := { w.st with currentPage := 1, useLocalSearch := false } }
      ↔ ¬ (t - t0 < 300000)) ∧
    delayedSearch P snap (t0 + 299000) w =
      performLocalSearch P snap { w with st := { w.st with currentPage := 1 } } ∧
    delayedSearch P snap (t0 + 301000) w =
      loadResults snap { w with st := { w.st with currentPage := 1, useLocalSearch := false } } := by
  have hlen : snap.allResults.length > 0 := List.length_pos.mpr hne
  have hage : ∀ t, cacheAge snap t = t - t0 := fun t => by simp [cacheAge, ht0]
  have hlocal : ∀ t, t - t0 < 300000 → delayedSearch P snap t w =
      performLocalSearch P snap { w with st := { w.st with currentPage := 1 } } := by
    intro t h
    simp [delayedSearch, hauth, hlen, hage, CACHE_DURATION, h]
  have hremote : ∀ t, ¬ (t - t0 < 300000) → delayedSearch P snap t w =
      loadResults snap { w with st := { w.st with currentPage := 1, useLocalSearch := false } } := by
    intro t h
    simp [delayedSearch, hauth, hage, CACHE_DURATION, h]
  have hdiff : performLocalSearch P snap { w with st := { w.st with currentPage := 1 } } ≠
      loadResults snap { w with st := { w.st with currentPage := 1, useLocalSearch := false } } := by
    intro h
    have h2 := congrArg (fun x : World => x.st.useLocalSearch) h
    unfold loadResults at h2
    split_ifs at h2 <;> simp [performLocalSearch] at h2
  refine ⟨⟨fun h => ?_, hlocal t⟩, ⟨fun h => ?_, hremote t⟩, hlocal _ (by omega), hremote _ (by omega)⟩
  · by_contra hc
    exact hdiff (h.symm.trans (hremote t hc))
  · intro hc
    exact hdiff ((hlocal t hc).symm.trans h)

/-- Witness of C4: user 1's cache primed at time 0, decision taken at 1000 ms. -/
theorem delayedSearch_local_iff_fresh_witness :
    (delayedSearch asciiPlatform remoteSnap 1000 (worldOf remoteSnap)).st.results = [jane, jack] ∧
    (delayedSearch asciiPlatform remoteSnap 1000 (worldOf remoteSnap) =
        performLocalSearch asciiPlatform remoteSnap
          { worldOf remoteSnap with st := { (worldOf remoteSnap).st with currentPage := 1 } }
      ↔ (1000 : Int) - 0 < 300000) :=
  ⟨by decide,
    (delayedSearch_local_iff_fresh asciiPlatform remoteSnap (worldOf remoteSnap) 1000 0
      (by decide) (by decide) (by decide)).1⟩

/-- C9. For an authenticated render and a non-empty stored text: a stored cache
is restored into memory (and kept in storage) when its user_id is the session
user's id and `now - timestamp < 300000`; in every other case (other user,
expired, unparseable) the state is left as it was and the entry is removed. -/
theorem restoreEffect_restores_iff_valid (snap : State) (now : Int) (w : World)
    (item : StoredText) (hauth : isAuthenticated snap = true)
    (hitem : w.resultsCache = some item) (hne : item ≠ StoredText.empty) :
    (∀ c : CacheData, item = StoredText.json c → c.user_id = userId snap →
      now - c.timestamp < 300000 →
      restoreEffect snap now w =
        { w with st := { w.st with allResults := c.data, lastCacheTime := some c.timestamp } }) ∧
    ((¬ ∃ c : CacheData, item = StoredText.json c ∧ c.user_id = userId snap ∧
        now - c.timestamp < 300000) →
      restoreEffect snap now w = { w with resultsCache := none }) := by
  constructor
  · intro c hc hu ht
    subst hc
    simp [restoreEffect, hauth, hitem, hu, CACHE_DURATION, ht]
  · intro hno
    cases item with
    | empty => exact absurd rfl hne
    | unparseable => simp [restoreEffect, hauth, hitem]
    | json c =>
      have hc : ¬ (c.user_id = userId snap ∧ now - c.timestamp < CACHE_DURATION) := by
        intro h
        exact hno ⟨c, rfl, h.1, by simpa [CACHE_DURATION] using h.2⟩
      simp only [restoreEffect, hauth, hitem, if_true]
      rw [if_neg hc]

/-- Witness of C9: user 1 mounts at time 2000 with their own cache of time 1000
in storage. -/
theorem restoreEffect_restores_iff_valid_witness :
    restoreEffect (initialState (some ⟨1⟩)) 2000
      (freshWorld (some ⟨1⟩)
        (some (StoredText.json { data := [jack], timestamp := 1000, user_id := some 1 }))) =
      { freshWorld (some ⟨1⟩)
          (some (StoredText.json { data := [jack], timestamp := 1000, user_id := some 1 })) with
        st := { initialState (some ⟨1⟩) with allResults := [jack], lastCacheTime := some 1000 } } :=
  (restoreEffect_restores_iff_valid (initialState (some ⟨1⟩)) 2000
    (freshWorld (some ⟨1⟩)
      (some (StoredText.json { data := [jack], timestamp := 1000, user_id := some 1 })))
    (StoredText.json { data := [jack], timestamp := 1000, user_id := some 1 })
    (by decide) rfl (by decide)).1
    { data := [jack], timestamp := 1000, user_id := some 1 } rfl (by decide) (by decide)

/-- C8, evaluated: user 7 mounts the view at time 100000 with their own cache of
time 99000 in storage.  The cache is restored, and yet the 100-record priming
request is issued (after the first page request and the statistics request). -/
theorem mount_with_fresh_stored_cache_primes :
    (mountEffects asciiPlatform (initialState (some ⟨7⟩)) 100000
      (freshWorld (some ⟨7⟩)
        (some (StoredText.json { data := [jack], timestamp := 99000, user_id := some 7 })))).st.allResults
      = [jack] ∧
    (mountEffects asciiPlatform (initialState (some ⟨7⟩)) 100000
      (freshWorld (some ⟨7⟩)
        (some (StoredText.json { data := [jack], timestamp := 99000, user_id := some 7 })))).requests.take 3
      = [Request.history 1 5 none none, Request.statistics, Request.history 1 100 none none] := by
  decide


/-! ### Cache isolation between users -/

theorem truthy_trim_empty : truthy (trim "") = false := by decide

theorem truthy_empty : truthy "" = false := by decide

theorem truthy_trim {q : String} (hq : trim q ≠ "") : truthy (trim q) = true :=
  (truthy_iff _).mpr hq

theorem mountEffects_initial (P : Platform) (B : User) (now : Int) (stored : Option StoredText) :
    mountEffects P (initialState (some B)) now (freshWorld (some B) stored) =
      restoreEffect (initialState (some B)) now
        { st := { initialState (some B) with loading := true }
          resultsCache := stored
          requests := [Request.history 1 5 none none, Request.statistics,
            Request.history 1 100 none none, Request.history 1 5 none none,
            Request.history 1 5 none none]
          navigations := []
          timers := []
          nextTimerId := 1
          delayedSearch := none } := by
  simp [mountEffects, authEffect, loadEffect, primeEffect, searchEffect, sortEffect,
    paginationEffect, loadResults, loadStatistics, loadAllResults, initialState, freshWorld,
    isAuthenticated, noCacheTime, truthy_trim_empty, modelTypeFilter, searchFilter,
    resultsPerPage]

/-- C2. A cache primed while user A was the session user is never usable for a
user B with another id.  The priming under A stores the entries with A's id;
when the view mounts under B (a change of session user passes through the
sign-in page, so the view is mounted anew), the restore effect compares the
stored id with B's, leaves the in-memory cache empty and removes the stored
entry.  The cache-usability check of B's debounced search is therefore false,
and the query for B's search text goes to the backend: the history request with
that text is the last request, and nothing from a cache is shown. -/
theorem stored_cache_discarded_for_other_user (P : Platform) (A B : User) (snapA : State)
    (wA : World) (data : List Entry) (t0 t1 now t : Int) (q : String)
    (hA : snapA.user = some A) (hAB : A.id ≠ B.id) (hq : trim q ≠ "") :
    (mountEffects P (initialState (some B)) now
      (freshWorld (some B) (loadAllResultsResolved snapA data t0 t1 wA).resultsCache)).st.allResults
        = [] ∧
    (mountEffects P (initialState (some B)) now
      (freshWorld (some B) (loadAllResultsResolved snapA data t0 t1 wA).resultsCache)).st.lastCacheTime
        = none ∧
    (mountEffects P (initialState (some B)) now
      (freshWorld (some B) (loadAllResultsResolved snapA data t0 t1 wA).resultsCache)).resultsCache
        = none ∧
    (decide ((mountEffects P (initialState (some B)) now
        (freshWorld (some B)
          (loadAllResultsResolved snapA data t0 t1 wA).resultsCache)).st.allResults.length > 0) &&
      decide (cacheAge { (mountEffects P (initialState (some B)) now
        (freshWorld (some B) (loadAllResultsResolved snapA data t0 t1 wA).resultsCache)).st with
          searchQuery := q } t < CACHE_DURATION)) = false ∧
    delayedSearch P
      { (mountEffects P (initialState (some B)) now
          (freshWorld (some B) (loadAllResultsResolved snapA data t0 t1 wA).resultsCache)).st with
        searchQuery := q } t
      (mountEffects P (initialState (some B)) now
        (freshWorld (some B) (loadAllResultsResolved snapA data t0 t1 wA).resultsCache)) =
      { st := { initialState (some B) with loading := true }
        resultsCache := none
        requests := [Request.history 1 5 none none, Request.statistics,
          Request.history 1 100 none none, Request.history 1 5 none none,
          Request.history 1 5 none none, Request.history 1 5 none (some (trim q))]
        navigations := []
        timers := []
        nextTimerId := 1
        delayedSearch := none } := by
  have hmount : mountEffects P (initialState (some B)) now
      (freshWorld (some B) (loadAllResultsResolved snapA data t0 t1 wA).resultsCache) =
      { st := { initialState (some B) with loading := true }
        resultsCache := none
        requests := [Request.history 1 5 none none, Request.statistics,
          Request.history 1 100 none none, Request.history 1 5 none none,
          Request.history 1 5 none none]
        navigations := []
        timers := []
        nextTimerId := 1
        delayedSearch := none } := by
    rw [mountEffects_initial]
    have hne : ¬ (some A.id = some B.id) := by simpa using hAB
    simp [restoreEffect, loadAllResultsResolved, userId, hA, isAuthenticated, initialState, hne]
  rw [hmount]
  refine ⟨rfl, rfl, rfl, ?_, ?_⟩
  · simp [initialState]
  · simp [delayedSearch, isAuthenticated, initialState, loadResults, truthy_trim hq,
      modelTypeFilter, searchFilter, resultsPerPage]

/-- Witness of C2: user 1's stored cache, user 2 mounts and searches "ja". -/
theorem stored_cache_discarded_for_other_user_witness :
    (mountEffects asciiPlatform (initialState (some ⟨2⟩)) 2000
      (freshWorld (some ⟨2⟩) (loadAllResultsResolved (initialState (some ⟨1⟩)) [jack, jane] 1000 1000
        (freshWorld (some ⟨1⟩) none)).resultsCache)).st.allResults = [] :=
  (stored_cache_discarded_for_other_user asciiPlatform ⟨1⟩ ⟨2⟩ (initialState (some ⟨1⟩))
    (freshWorld (some ⟨1⟩) none) [jack, jane] 1000 1000 2000 3000 "ja" rfl (by decide)
    (by decide)).1


/-! ### Queries with an unusable cache -/

theorem delayedSearch_remote (P : Platform) (snap : State) (w : World)
    (now : Int) (hauth : isAuthenticated snap = true) (hmode : snap.useLocalSearch = false)
    (hstale : snap.allResults = [] ∨ 300000 ≤ cacheAge snap now) :
    delayedSearch P snap now w =
      { w with
        st := { w.st with currentPage := 1, useLocalSearch := false, loading := true,
                          error := none }
        requests := w.requests ++
          [Request.history snap.currentPage 5 (modelTypeFilter snap.filterType)
            (searchFilter snap.searchQuery)] } := by
  have hcond : (decide (snap.allResults.length > 0) &&
      decide (cacheAge snap now < CACHE_DURATION)) = false := by
    rcases hstale with h | h
    · simp [h]
    · have : ¬ (cacheAge snap now < CACHE_DURATION) := by
        simp only [CACHE_DURATION]
        omega
      simp [this]
  simp only [delayedSearch, hauth, if_true, hcond]
  simp [loadResults, hmode, resultsPerPage]



/-- C3, refuted as stated: the cache was primed at time 0 and it is now 400000,
so it is older than 5 minutes.  A sort-key change with local mode off still
computes the shown results from `allResults` and requests nothing; a filter
change in local mode issues the statistics request only, no history request. -/
theorem stale_cache_still_read :
    ¬ (cacheAge remoteSnap 400000 < CACHE_DURATION) ∧
    (updateEffects asciiPlatform remoteSnap { remoteSnap with sortBy := "patient" } 400000
      (worldOf { remoteSnap with sortBy := "patient" })).st.results = [jack, jane] ∧
    (updateEffects asciiPlatform remoteSnap { remoteSnap with sortBy := "patient" } 400000
      (worldOf { remoteSnap with sortBy := "patient" })).requests = [] ∧
    (updateEffects asciiPlatform localSnap { localSnap with filterType := "brain" } 400000
      (worldOf { localSnap with filterType := "brain" })).requests = [Request.statistics] := by
  decide

/-- C3, amended: when the cache is not usable (empty, or primed 5 minutes or
more ago) and local-search mode is off, a query execution triggered by a
search-text change (debounced or blank), a page change or a filter change issues
the backend history request and writes nothing to the shown results; the
pagination effect does nothing. -/
theorem stale_cache_remote_mode_queries_backend (P : Platform) (snap : State) (w : World)
    (now : Int) (hauth : isAuthenticated snap = true) (hmode : snap.useLocalSearch = false)
    (hstale : snap.allResults = [] ∨ 300000 ≤ cacheAge snap now) :
    delayedSearch P snap now w =
      { w with
        st := { w.st with currentPage := 1, useLocalSearch := false, loading := true,
                          error := none }
        requests := w.requests ++
          [Request.history snap.currentPage 5 (modelTypeFilter snap.filterType)
            (searchFilter snap.searchQuery)] } ∧
    (trim snap.searchQuery = "" → searchEffect snap now w =
      { w with
        st := { w.st with isSearching := false, currentPage := 1, useLocalSearch := false,
                          loading := true, error := none }
        requests := w.requests ++
          [Request.history snap.currentPage 5 (modelTypeFilter snap.filterType) none] }) ∧
    loadEffect snap w =
      { w with
        st := { w.st with loading := true, error := none, useLocalSearch := false }
        requests := w.requests ++
          [Request.history snap.currentPage 5 (modelTypeFilter snap.filterType)
            (searchFilter snap.searchQuery), Request.statistics] } ∧
    paginationEffect P snap w = w := by
  refine ⟨delayedSearch_remote P snap w now hauth hmode hstale, ?_, ?_, ?_⟩
  · intro hq
    simp [searchEffect, hq, truthy_empty, hauth, loadResults, hmode, resultsPerPage,
      searchFilter]
  · simp [loadEffect, hauth, loadResults, hmode, loadStatistics, resultsPerPage]
  · simp [paginationEffect, hmode]

/-- Witness of C3 amended: the cache of `remoteSnap`, 400000 ms after priming. -/
theorem stale_cache_remote_mode_queries_backend_witness :
    (delayedSearch asciiPlatform remoteSnap 400000 (worldOf remoteSnap)).requests =
      [Request.history 1 5 none (some "ja")] ∧
    paginationEffect asciiPlatform remoteSnap (worldOf remoteSnap) = worldOf remoteSnap :=
  ⟨by decide,
    (stale_cache_remote_mode_queries_backend asciiPlatform remoteSnap (worldOf remoteSnap) 400000
      (by decide) (by decide) (Or.inr (by decide))).2.2.2⟩


/-! ### Page reset and sort-key changes -/

/-- C10, refuted as stated: in `remoteSnap` the remote pipeline is active (local
mode off, one backend record shown).  A sort-key change, with the cache fresh,
does not re-run it: the local pipeline runs instead, local mode comes on, the
two cached entries are shown and nothing is requested. -/
theorem sort_change_leaves_remote_pipeline :
    remoteSnap.useLocalSearch = false ∧
    (updateEffects asciiPlatform remoteSnap { remoteSnap with sortBy := "patient" } 1000
      (worldOf { remoteSnap with sortBy := "patient" })).st.useLocalSearch = true ∧
    (updateEffects asciiPlatform remoteSnap { remoteSnap with sortBy := "patient" } 1000
      (worldOf { remoteSnap with sortBy := "patient" })).st.results = [jack, jane] ∧
    (updateEffects asciiPlatform remoteSnap { remoteSnap with sortBy := "patient" } 1000
      (worldOf { remoteSnap with sortBy := "patient" })).requests = [] := by
  decide

theorem localSorted_congr (P : Platform) (a b : State) (h1 : a.sortBy = b.sortBy)
    (h2 : a.searchQuery = b.searchQuery) (h3 : a.filterType = b.filterType)
    (h4 : a.allResults = b.allResults) : localSorted P a = localSorted P b := by
  unfold localSorted
  rw [h1, h2, h3, h4]

theorem loadResults_results (snap : State) (w : World) :
    (loadResults snap w).st.results = w.st.results := by
  unfold loadResults
  split_ifs <;> rfl

theorem loadResults_currentPage (snap : State) (w : World) :
    (loadResults snap w).st.currentPage = w.st.currentPage := by
  unfold loadResults
  split_ifs <;> rfl

theorem local_then_render_shows_first_page (P : Platform) (snap : State) (w : World)
    (now now' : Int) (hauth : isAuthenticated snap = true) (hw : stillCurrent snap w.st)
    (hq : trim snap.searchQuery ≠ "") (hne : snap.allResults ≠ [])
    (hfresh : cacheAge snap now < CACHE_DURATION) :
    (updateEffects P w.st (delayedSearch P snap now w).st now'
      (delayedSearch P snap now w)).st.results = localPage (localSorted P snap) 1 := by
  obtain ⟨hu, hsq, hft, hsb, hcp, hul, har⟩ := hw
  have hlen : snap.allResults.length > 0 := List.length_pos.mpr hne
  have hd : delayedSearch P snap now w =
      performLocalSearch P snap { w with st := { w.st with currentPage := 1 } } := by
    simp [delayedSearch, hauth, hlen, hfresh]
  rw [hd]
  have hs : localSorted P (performLocalSearch P snap
      { w with st := { w.st with currentPage := 1 } }).st = localSorted P snap := by
    apply localSorted_congr <;> simp [performLocalSearch, hsq, hft, hsb, har]
  have hq' : truthy (trim (performLocalSearch P snap
      { w with st := { w.st with currentPage := 1 } }).st.searchQuery) = true := by
    simpa [performLocalSearch, hsq] using truthy_trim hq
  have hu1 : (performLocalSearch P snap
      { w with st := { w.st with currentPage := 1 } }).st.useLocalSearch = true := rfl
  have hp : (performLocalSearch P snap
      { w with st := { w.st with currentPage := 1 } }).st.currentPage = 1 := rfl
  have hpag : ∀ w' : World, (paginationEffect P (performLocalSearch P snap
      { w with st := { w.st with currentPage := 1 } }).st w').st.results
      = localPage (localSorted P snap) 1 := by
    intro w'
    simp only [paginationEffect, hu1, hq', Bool.and_self, if_true]
    show localPage (localSorted P _) _ = _
    rw [hs, hp]
  unfold updateEffects
  have e1 : (isAuthenticated w.st != isAuthenticated (performLocalSearch P snap
      { w with st := { w.st with currentPage := 1 } }).st) = false := by
    simp [isAuthenticated, performLocalSearch]
  have e2 : (w.st.filterType != (performLocalSearch P snap
      { w with st := { w.st with currentPage := 1 } }).st.filterType) = false := by
    simp [performLocalSearch]
  have e3 : (w.st.searchQuery != (performLocalSearch P snap
      { w with st := { w.st with currentPage := 1 } }).st.searchQuery) = false := by
    simp [performLocalSearch]
  have e4 : (w.st.sortBy != (performLocalSearch P snap
      { w with st := { w.st with currentPage := 1 } }).st.sortBy) = false := by
    simp [performLocalSearch]
  have e5 : (userId w.st != userId (performLocalSearch P snap
      { w with st := { w.st with currentPage := 1 } }).st) = false := by
    simp [userId, performLocalSearch]
  simp only [e1, e2, e3, e4, e5, hp, hu1, Bool.false_or, Bool.or_false, if_false,
    Bool.false_eq_true]
  by_cases hp1 : w.st.currentPage = 1
  · by_cases hl1 : w.st.useLocalSearch = true
    · simp only [hp1, hl1, bne_self_eq_false, Bool.false_or, if_false, Bool.false_eq_true]
      show localPage (localSorted P snap) snap.currentPage = _
      rw [← hcp, hp1]
    · have hl0 : w.st.useLocalSearch = false := by simpa using hl1
      have hb : (false != true) = true := rfl
      simp only [hp1, hl0, bne_self_eq_false, Bool.false_or, if_false, Bool.false_eq_true, hb,
        if_true]
      exact hpag _
  · have hb : (w.st.currentPage != 1) = true := by simpa using hp1
    simp only [hb, Bool.true_or, if_true]
    exact hpag _


theorem remote_then_render_requests_first_page (P : Platform) (snap : State) (w : World)
    (now now' : Int) (hauth : isAuthenticated snap = true) (hw : stillCurrent snap w.st)
    (hmode : snap.useLocalSearch = false)
    (hstale : snap.allResults = [] ∨ 300000 ≤ cacheAge snap now) :
    (updateEffects P w.st (delayedSearch P snap now w).st now'
      (delayedSearch P snap now w)).requests =
      w.requests ++
        (if snap.currentPage = 1 then
          [Request.history 1 5 (modelTypeFilter snap.filterType) (searchFilter snap.searchQuery)]
        else
          [Request.history snap.currentPage 5 (modelTypeFilter snap.filterType)
            (searchFilter snap.searchQuery),
           Request.history 1 5 (modelTypeFilter snap.filterType) (searchFilter snap.searchQuery),
           Request.statistics]) := by
  obtain ⟨hu, hsq, hft, hsb, hcp, hul, har⟩ := hw
  rw [delayedSearch_remote P snap w now hauth hmode hstale]
  have hauth2 : snap.user.isSome = true := hauth
  have hul' : w.st.useLocalSearch = false := by rw [hul]; exact hmode
  by_cases hp1 : snap.currentPage = 1
  · have hp1' : w.st.currentPage = 1 := by rw [hcp]; exact hp1
    simp [updateEffects, isAuthenticated, userId, hul', hp1, hp1']
  · have hp1' : ¬ w.st.currentPage = 1 := by rw [hcp]; exact hp1
    have hb : (w.st.currentPage != 1) = true := by simpa using hp1'
    simp [updateEffects, isAuthenticated, userId, hul', hp1, hb, loadEffect, loadResults,
      loadStatistics, paginationEffect, resultsPerPage, hauth2, hu, hsq, hft]

/-- C10, amended: for an authenticated render, the handling of a search-text
change (at once for a blank text, when the debounce timer fires otherwise) sets
the current page to 1.  Here `snap` is the render the handling closed over and
`w.st` the screen at the time it runs, which shows the same query (it may differ
in `isSearching`, which the search effect sets after the keystroke).  When the
local pipeline is chosen the results shown after the following render are page 1
of the new text's local list, and when the backend is chosen with local mode off
the last history request issued is for page 1.  A sort-key change leaves the
current page unchanged; it runs the local pipeline when local mode is on or the
cache is non-empty with a non-blank text, and otherwise re-sorts the shown page
in place, or calls `loadResults` when nothing is shown. -/
theorem search_resets_page_sort_keeps_page (P : Platform) (snap : State) (w : World)
    (now now' : Int) (hauth : isAuthenticated snap = true) (hw : stillCurrent snap w.st) :
    (trim snap.searchQuery = "" → (searchEffect snap now w).st.currentPage = 1) ∧
    (delayedSearch P snap now w).st.currentPage = 1 ∧
    (trim snap.searchQuery ≠ "" → snap.allResults ≠ [] → cacheAge snap now < 300000 →
      (updateEffects P w.st (delayedSearch P snap now w).st now'
        (delayedSearch P snap now w)).st.results = localPage (localSorted P snap) 1) ∧
    (snap.useLocalSearch = false → (snap.allResults = [] ∨ 300000 ≤ cacheAge snap now) →
      (updateEffects P w.st (delayedSearch P snap now w).st now'
        (delayedSearch P snap now w)).requests =
      w.requests ++
        (if snap.currentPage = 1 then
          [Request.history 1 5 (modelTypeFilter snap.filterType) (searchFilter snap.searchQuery)]
        else
          [Request.history snap.currentPage 5 (modelTypeFilter snap.filterType)
            (searchFilter snap.searchQuery),
           Request.history 1 5 (modelTypeFilter snap.filterType) (searchFilter snap.searchQuery),
           Request.statistics])) ∧
    (sortEffect P snap w).st.currentPage = w.st.currentPage ∧
    ((snap.useLocalSearch = true ∨ (snap.allResults ≠ [] ∧ trim snap.searchQuery ≠ "")) →
      sortEffect P snap w = performLocalSearch P snap w) ∧
    (snap.useLocalSearch = false → (snap.allResults = [] ∨ trim snap.searchQuery = "") →
      (snap.results ≠ [] → sortEffect P snap w =
        { w with st := { w.st with results := sortResults P snap.sortBy snap.results } }) ∧
      (snap.results = [] → sortEffect P snap w = loadResults snap w)) := by
  refine ⟨?_, ?_, ?_, ?_, ?_, ?_, ?_⟩
  · intro hq
    simp only [searchEffect, hq, truthy_empty, hauth]
    simp [loadResults_currentPage]
  · simp only [delayedSearch, hauth, if_true]
    split_ifs
    · rfl
    · rw [loadResults_currentPage]
  · intro hq hne hfresh
    exact local_then_render_shows_first_page P snap w now now' hauth hw hq hne
      (by simpa [CACHE_DURATION] using hfresh)
  · intro hmode hstale
    exact remote_then_render_requests_first_page P snap w now now' hauth hw hmode hstale
  · simp only [sortEffect, hauth, if_true]
    split_ifs
    · rfl
    · rfl
    · rw [loadResults_currentPage]
  · intro h
    have hc : (snap.useLocalSearch ||
        (decide (snap.allResults.length > 0) && truthy (trim snap.searchQuery))) = true := by
      rcases h with h | ⟨h1, h2⟩
      · simp [h]
      · simp [List.length_pos.mpr h1, truthy_trim h2]
    simp only [sortEffect, hauth, if_true, hc]
  · intro hmode h
    have hc : (snap.useLocalSearch ||
        (decide (snap.allResults.length > 0) && truthy (trim snap.searchQuery))) = false := by
      rcases h with h | h
      · simp [hmode, h]
      · simp [hmode, h, truthy_empty]
    constructor
    · intro hr
      have hl : snap.results.length > 0 := List.length_pos.mpr hr
      simp only [sortEffect, hauth, if_true, hc, Bool.false_eq_true, if_false, hl]
    · intro hr
      simp [sortEffect, hauth, hc, hr]

/-- Witness of C10 amended: from `idleSnap` (page 2, nothing searched) the text
"ja" is typed at time 1000, which arms the timer on the render
`{ idleSnap with searchQuery := "ja" }` and sets `isSearching` on the screen.
With the cache fresh (time 1300) the render after the timer shows page 1 of the
local list; with the cache expired (time 400000) the backend is asked for page 2
and then for page 1. -/
theorem search_resets_page_sort_keeps_page_witness :
    (typeSearch asciiPlatform idleSnap "ja" 1000 (worldOf idleSnap)).st ≠
      { idleSnap with searchQuery := "ja" } ∧
    (updateEffects asciiPlatform (typeSearch asciiPlatform idleSnap "ja" 1000 (worldOf idleSnap)).st
      (delayedSearch asciiPlatform { idleSnap with searchQuery := "ja" } 1300
        (typeSearch asciiPlatform idleSnap "ja" 1000 (worldOf idleSnap))).st 1300
      (delayedSearch asciiPlatform { idleSnap with searchQuery := "ja" } 1300
        (typeSearch asciiPlatform idleSnap "ja" 1000 (worldOf idleSnap)))).st.results =
      localPage (localSorted asciiPlatform { idleSnap with searchQuery := "ja" }) 1 ∧
    (updateEffects asciiPlatform (typeSearch asciiPlatform idleSnap "ja" 1000 (worldOf idleSnap)).st
      (delayedSearch asciiPlatform { idleSnap with searchQuery := "ja" } 400000
        (typeSearch asciiPlatform idleSnap "ja" 1000 (worldOf idleSnap))).st 400000
      (delayedSearch asciiPlatform { idleSnap with searchQuery := "ja" } 400000
        (typeSearch asciiPlatform idleSnap "ja" 1000 (worldOf idleSnap)))).requests =
      (typeSearch asciiPlatform idleSnap "ja" 1000 (worldOf idleSnap)).requests ++
        (if ({ idleSnap with searchQuery := "ja" } : State).currentPage = 1 then
          [Request.history 1 5 (modelTypeFilter ({ idleSnap with searchQuery := "ja" } : State).filterType)
            (searchFilter ({ idleSnap with searchQuery := "ja" } : State).searchQuery)]
        else
          [Request.history ({ idleSnap with searchQuery := "ja" } : State).currentPage 5
            (modelTypeFilter ({ idleSnap with searchQuery := "ja" } : State).filterType)
            (searchFilter ({ idleSnap with searchQuery := "ja" } : State).searchQuery),
           Request.history 1 5 (modelTypeFilter ({ idleSnap with searchQuery := "ja" } : State).filterType)
            (searchFilter ({ idleSnap with searchQuery := "ja" } : State).searchQuery),
           Request.statistics]) :=
  ⟨by decide,
   (search_resets_page_sort_keeps_page asciiPlatform { idleSnap with searchQuery := "ja" }
      (typeSearch asciiPlatform idleSnap "ja" 1000 (worldOf idleSnap)) 1300 1300
      (by decide) (by decide)).2.2.1 (by decide) (by decide) (by decide),
   (search_resets_page_sort_keeps_page asciiPlatform { idleSnap with searchQuery := "ja" }
      (typeSearch asciiPlatform idleSnap "ja" 1000 (worldOf idleSnap)) 400000 400000
      (by decide) (by decide)).2.2.2.1 (by decide) (Or.inr (by decide))⟩

/-! ### Refresh and priming failure -/

/-- C11. The refresh action leaves the in-memory cache empty (no entries, no
timestamp), removes the stored `resultsCache` entry, leaves local-search mode
off, and issues the priming request last; when that request resolves the cache
is filled and stored again. -/
theorem refreshClick_clears_and_reprimes (snap : State) (w : World) :
    (refreshClick snap w).st.allResults = [] ∧
    (refreshClick snap w).st.lastCacheTime = none ∧
    (refreshClick snap w).resultsCache = none ∧
    (refreshClick snap w).st.useLocalSearch = false ∧
    (refreshClick snap w).requests =
      (loadResults snap w).requests ++ [Request.history 1 100 none none] ∧
    (∀ (data : List Entry) (now nowStored : Int),
      (loadAllResultsResolved snap data now nowStored (refreshClick snap w)).st.allResults = data ∧
      (loadAllResultsResolved snap data now nowStored (refreshClick snap w)).st.lastCacheTime
        = some now ∧
      (loadAllResultsResolved snap data now nowStored (refreshClick snap w)).resultsCache
        = some (StoredText.json { data := data, timestamp := nowStored, user_id := userId snap })) := by
  unfold refreshClick loadAllResults loadResults
  split_ifs <;> exact ⟨rfl, rfl, rfl, rfl, rfl, fun _ _ _ => ⟨rfl, rfl, rfl⟩⟩

/-- C12. If the priming request rejects, `loadAllResults` leaves `allResults`,
the cache timestamp, the stored copy and the page-level error state as they
were (the whole world is unchanged); the failure is written to the console
only. -/
theorem loadAllResults_failure_is_silent (snap : State) (reason : String)
    (now nowStored : Int) (w : World) :
    (loadAllResultsSettled snap (Outcome.rejected reason) now nowStored w).1.st.allResults
      = w.st.allResults ∧
    (loadAllResultsSettled snap (Outcome.rejected reason) now nowStored w).1.st.lastCacheTime
      = w.st.lastCacheTime ∧
    (loadAllResultsSettled snap (Outcome.rejected reason) now nowStored w).1.resultsCache
      = w.resultsCache ∧
    (loadAllResultsSettled snap (Outcome.rejected reason) now nowStored w).1.st.error
      = w.st.error ∧
    (loadAllResultsSettled snap (Outcome.rejected reason) now nowStored w).1 = w ∧
    (loadAllResultsSettled snap (Outcome.rejected reason) now nowStored w).2
      = ["Failed to load all results for cache: " ++ reason] :=
  ⟨rfl, rfl, rfl, rfl, rfl, rfl⟩

/-! ### Debounce -/

theorem clearTimeout_held (id : Nat) (timers : List Timer)
    (h : ∀ timer ∈ timers, timer.id = id) : clearTimeout id timers = [] := by
  unfold clearTimeout
  rw [List.filter_eq_nil_iff]
  intro timer hmem
  simp [h timer hmem]

theorem searchCleanup_clears (w : World)
    (hpend : ∀ timer ∈ w.timers, w.delayedSearch = some timer.id) :
    searchCleanup w = { w with timers := [], delayedSearch := none } := by
  unfold searchCleanup
  cases hd : w.delayedSearch with
  | none =>
    have : w.timers = [] := by
      rw [List.eq_nil_iff_forall_not_mem]
      intro timer hmem
      have := hpend timer hmem
      rw [hd] at this
      cases this
    cases w
    simp_all
  | some id =>
    have : clearTimeout id w.timers = [] := by
      apply clearTimeout_held
      intro timer hmem
      have := hpend timer hmem
      rw [hd] at this
      exact (Option.some.inj this).symm
    simp [this]

theorem typeSearch_arms_timer (P : Platform) (prev : State) (value : String) (now : Int)
    (w : World) (hw : w.st = prev)
    (hpend : ∀ timer ∈ w.timers, w.delayedSearch = some timer.id)
    (hne : prev.searchQuery ≠ value) (hq : trim value ≠ "") :
    typeSearch P prev value now w =
      { w with
        st := { prev with searchQuery := value, isSearching := true }
        timers := [{ id := w.nextTimerId, due := now + 300,
                     snap := { prev with searchQuery := value } }]
        nextTimerId := w.nextTimerId + 1
        delayedSearch := some w.nextTimerId } := by
  subst hw
  have hb : (w.st.searchQuery != value) = true := by simpa using hne
  have hc : searchCleanup { w with st := { w.st with searchQuery := value } } =
      { w with st := { w.st with searchQuery := value }, timers := [], delayedSearch := none } :=
    searchCleanup_clears _ hpend
  simp [typeSearch, commit, setSearchQuery, updateEffects, hb, searchEffect, hc,
    truthy_trim hq, isAuthenticated, userId]

theorem timeReaches_not_due (P : Platform) (now : Int) (w : World)
    (hdue : ∀ timer ∈ w.timers, now < timer.due) : timeReaches P now w = w := by
  have : w.timers.filter (fun timer => decide (timer.due ≤ now)) = [] := by
    rw [List.filter_eq_nil_iff]
    intro timer hmem
    have := hdue timer hmem
    simp
    omega
  simp [timeReaches, this]

theorem timeReaches_due (P : Platform) (now : Int) (w : World) (timer : Timer)
    (ht : w.timers = [timer]) (hdue : timer.due ≤ now) :
    timeReaches P now w = delayedSearch P timer.snap now { w with timers := [] } := by
  simp [timeReaches, ht, hdue, fireTimer, clearTimeout]

theorem delayedSearch_timers (P : Platform) (snap : State) (now : Int) (w : World) :
    (delayedSearch P snap now w).timers = w.timers := by
  unfold delayedSearch performLocalSearch loadResults
  split_ifs <;> rfl

theorem typeJack_eq (P : Platform) (s0 : State) (w0 : World) (t1 t2 t3 : Int)
    (hw : w0.st = s0) (hpend : ∀ timer ∈ w0.timers, w0.delayedSearch = some timer.id)
    (h0 : s0.searchQuery ≠ "ja") (h12 : t2 < t1 + 300) (h23 : t3 < t2 + 300) :
    typeJack P s0 t1 t2 t3 w0 =
      { w0 with
        st := { s0 with searchQuery := "jack", isSearching := true }
        timers := [{ id := w0.nextTimerId + 2, due := t3 + 300,
                     snap := { s0 with searchQuery := "jack", isSearching := true } }]
        nextTimerId := w0.nextTimerId + 3
        delayedSearch := some (w0.nextTimerId + 2) } := by
  have e1 := typeSearch_arms_timer P s0 "ja" t1 w0 hw hpend h0 (by decide)
  have r1 : timeReaches P t2 (typeSearch P s0 "ja" t1 w0) = typeSearch P s0 "ja" t1 w0 := by
    apply timeReaches_not_due
    rw [e1]
    intro timer hmem
    simp only [List.mem_singleton] at hmem
    rw [hmem]
    exact h12
  have e2 := typeSearch_arms_timer P (typeSearch P s0 "ja" t1 w0).st "jac" t2
    (typeSearch P s0 "ja" t1 w0) rfl
    (by
      rw [e1]
      intro timer hmem
      simp only [List.mem_singleton] at hmem
      rw [hmem])
    (by rw [e1]; exact (by decide : "ja" ≠ "jac")) (by decide)
  have r2 : timeReaches P t3
      (typeSearch P (typeSearch P s0 "ja" t1 w0).st "jac" t2 (typeSearch P s0 "ja" t1 w0)) =
      typeSearch P (typeSearch P s0 "ja" t1 w0).st "jac" t2 (typeSearch P s0 "ja" t1 w0) := by
    apply timeReaches_not_due
    rw [e2]
    intro timer hmem
    simp only [List.mem_singleton] at hmem
    rw [hmem]
    exact h23
  have e3 := typeSearch_arms_timer P
    (typeSearch P (typeSearch P s0 "ja" t1 w0).st "jac" t2 (typeSearch P s0 "ja" t1 w0)).st
    "jack" t3
    (typeSearch P (typeSearch P s0 "ja" t1 w0).st "jac" t2 (typeSearch P s0 "ja" t1 w0))
    rfl
    (by
      rw [e2]
      intro timer hmem
      simp only [List.mem_singleton] at hmem
      rw [hmem])
    (by rw [e2]; exact (by decide : "jac" ≠ "jack")) (by decide)
  show typeSearch P (timeReaches P t3 (typeSearch P (timeReaches P t2
      (typeSearch P s0 "ja" t1 w0)).st "jac" t2 (timeReaches P t2
      (typeSearch P s0 "ja" t1 w0)))).st "jack" t3 (timeReaches P t3 (typeSearch P (timeReaches P t2
      (typeSearch P s0 "ja" t1 w0)).st "jac" t2 (timeReaches P t2
      (typeSearch P s0 "ja" t1 w0)))) = _
  rw [r1, r2, e3, e2, e1]

/-- C13, refuted as stated: user 1 is on page 2 with nothing cached and types
"ja", "jac", "jack" at 0, 100 and 200 ms.  One timer callback runs (at 500 ms,
for "jack"), and yet two history requests for "jack" go out: the callback asks
for the page of its render (page 2) and resets the page, and the commit that
follows asks for page 1. -/
theorem debounce_then_page_reset_queries_twice :
    (typeJack asciiPlatform pageTwoSnap 0 100 200 (worldOf pageTwoSnap)).requests = [] ∧
    (timeReaches asciiPlatform 500
      (typeJack asciiPlatform pageTwoSnap 0 100 200 (worldOf pageTwoSnap))).requests =
      [Request.history 2 5 none (some "jack")] ∧
    (commit asciiPlatform (typeJack asciiPlatform pageTwoSnap 0 100 200 (worldOf pageTwoSnap)).st
      500 (timeReaches asciiPlatform 500
        (typeJack asciiPlatform pageTwoSnap 0 100 200 (worldOf pageTwoSnap)))).requests =
      [Request.history 2 5 none (some "jack"), Request.history 1 5 none (some "jack"),
       Request.statistics] := by
  decide

/-- C13, amended: typing "ja", "jac", "jack", each less than 300 ms after the
previous one, runs the debounced search exactly once, for "jack".  Every
keystroke clears the timer of the one before it, so that after the typing the
only pending timer is the one of "jack", nothing has been requested and the
shown results are untouched; no clock tick before that timer is due runs
anything; when it is due its callback runs once, on the render whose search text
is "jack", and no timer is pending afterwards, so that no later tick runs
anything.  With local mode off and no usable cache, the callback and the commit
that follows it send one history request, for "jack", when the view was on page
1, and from another page two of them (the page of the render, then page 1) and
the statistics request. -/
theorem debounce_runs_last_text_once (P : Platform) (s0 : State) (w0 : World)
    (t1 t2 t3 t t' : Int) (hw : w0.st = s0)
    (hpend : ∀ timer ∈ w0.timers, w0.delayedSearch = some timer.id)
    (h0 : s0.searchQuery ≠ "ja")
    (h12 : t2 < t1 + 300) (h23 : t3 < t2 + 300) (ht : t3 + 300 ≤ t) :
    typeJack P s0 t1 t2 t3 w0 =
      { w0 with
        st := { s0 with searchQuery := "jack", isSearching := true }
        timers := [{ id := w0.nextTimerId + 2, due := t3 + 300,
                     snap := { s0 with searchQuery := "jack", isSearching := true } }]
        nextTimerId := w0.nextTimerId + 3
        delayedSearch := some (w0.nextTimerId + 2) } ∧
    (∀ u : Int, u < t3 + 300 →
      timeReaches P u (typeJack P s0 t1 t2 t3 w0) = typeJack P s0 t1 t2 t3 w0) ∧
    timeReaches P t (typeJack P s0 t1 t2 t3 w0) =
      delayedSearch P { s0 with searchQuery := "jack", isSearching := true } t
        { typeJack P s0 t1 t2 t3 w0 with timers := [] } ∧
    (timeReaches P t (typeJack P s0 t1 t2 t3 w0)).timers = [] ∧
    (∀ u : Int, timeReaches P u (timeReaches P t (typeJack P s0 t1 t2 t3 w0)) =
      timeReaches P t (typeJack P s0 t1 t2 t3 w0)) ∧
    (isAuthenticated s0 = true → s0.useLocalSearch = false →
      (s0.allResults = [] ∨ 300000 ≤ cacheAge s0 t) →
      (commit P (typeJack P s0 t1 t2 t3 w0).st t'
        (timeReaches P t (typeJack P s0 t1 t2 t3 w0))).requests =
      w0.requests ++
        (if s0.currentPage = 1 then
          [Request.history 1 5 (modelTypeFilter s0.filterType) (some "jack")]
        else
          [Request.history s0.currentPage 5 (modelTypeFilter s0.filterType) (some "jack"),
           Request.history 1 5 (modelTypeFilter s0.filterType) (some "jack"),
           Request.statistics])) := by
  have e := typeJack_eq P s0 w0 t1 t2 t3 hw hpend h0 h12 h23
  have efire : timeReaches P t (typeJack P s0 t1 t2 t3 w0) =
      delayedSearch P { s0 with searchQuery := "jack", isSearching := true } t
        { typeJack P s0 t1 t2 t3 w0 with timers := [] } := by
    have := timeReaches_due P t (typeJack P s0 t1 t2 t3 w0)
      { id := w0.nextTimerId + 2, due := t3 + 300,
        snap := { s0 with searchQuery := "jack", isSearching := true } }
      (by rw [e]) ht
    exact this
  have etimers : (timeReaches P t (typeJack P s0 t1 t2 t3 w0)).timers = [] := by
    rw [efire, delayedSearch_timers]
  refine ⟨e, ?_, efire, etimers, ?_, ?_⟩
  · intro u hu
    apply timeReaches_not_due
    rw [e]
    intro timer hmem
    simp only [List.mem_singleton] at hmem
    rw [hmem]
    exact hu
  · intro u
    apply timeReaches_not_due
    rw [etimers]
    intro timer hmem
    cases hmem
  · intro hauth hmode hstale
    have hsf : searchFilter "jack" = some "jack" := by decide
    have hst : (typeJack P s0 t1 t2 t3 w0).st =
        ({ typeJack P s0 t1 t2 t3 w0 with timers := [] } : World).st := rfl
    have key := remote_then_render_requests_first_page P
      { s0 with searchQuery := "jack", isSearching := true }
      { typeJack P s0 t1 t2 t3 w0 with timers := [] } t t'
      (by simpa [isAuthenticated] using hauth)
      (by rw [e]; exact ⟨rfl, rfl, rfl, rfl, rfl, rfl, rfl⟩)
      hmode
      (by simpa [cacheAge] using hstale)
    rw [efire]
    unfold commit
    rw [hst]
    show (updateEffects P ({ typeJack P s0 t1 t2 t3 w0 with timers := [] } : World).st
      (delayedSearch P { s0 with searchQuery := "jack", isSearching := true } t
        { typeJack P s0 t1 t2 t3 w0 with timers := [] }).st t'
      (delayedSearch P { s0 with searchQuery := "jack", isSearching := true } t
        { typeJack P s0 t1 t2 t3 w0 with timers := [] })).requests = _
    rw [key, hsf]
    simp [e]

/-- Witness of C13 amended: user 1 on page 1, nothing cached, keystrokes at 0,
100 and 200 ms, the clock at 500 ms and the commit after it: one history
request, for "jack". -/
theorem debounce_runs_last_text_once_witness :
    (commit asciiPlatform
      (typeJack asciiPlatform (initialState (some ⟨1⟩)) 0 100 200 (freshWorld (some ⟨1⟩) none)).st 500
      (timeReaches asciiPlatform 500
        (typeJack asciiPlatform (initialState (some ⟨1⟩)) 0 100 200
          (freshWorld (some ⟨1⟩) none)))).requests
      = [Request.history 1 5 none (some "jack")] ∧
    (commit asciiPlatform
      (typeJack asciiPlatform (initialState (some ⟨1⟩)) 0 100 200 (freshWorld (some ⟨1⟩) none)).st 500
      (timeReaches asciiPlatform 500
        (typeJack asciiPlatform (initialState (some ⟨1⟩)) 0 100 200
          (freshWorld (some ⟨1⟩) none)))).requests =
      (freshWorld (some ⟨1⟩) none).requests ++
        (if (initialState (some ⟨1⟩)).currentPage = 1 then
          [Request.history 1 5 (modelTypeFilter (initialState (some ⟨1⟩)).filterType) (some "jack")]
        else
          [Request.history (initialState (some ⟨1⟩)).currentPage 5
            (modelTypeFilter (initialState (some ⟨1⟩)).filterType) (some "jack"),
           Request.history 1 5 (modelTypeFilter (initialState (some ⟨1⟩)).filterType) (some "jack"),
           Request.statistics]) :=
  ⟨by decide,
    (debounce_runs_last_text_once asciiPlatform (initialState (some ⟨1⟩))
      (freshWorld (some ⟨1⟩) none) 0 100 200 500 500 rfl (by decide) (by decide) (by decide)
      (by decide) (by decide)).2.2.2.2.2 (by decide) (by decide) (Or.inl (by decide))⟩

/-! ### The share form and the share guard -/

theorem matchTail_iff (l : List Char) :
    matchTail l = true ↔ l ≠ [] ∧ ∀ x ∈ l, isEmailChar x = true := by
  cases l <;> simp [matchTail]

theorem matchDomain_iff (seen : Bool) (l : List Char) :
    matchDomain seen l = true ↔
      ∃ b c : List Char, l = b ++ '.' :: c ∧ (seen = true ∨ b ≠ []) ∧
        (∀ x ∈ b, isEmailChar x = true) ∧ c ≠ [] ∧ ∀ x ∈ c, isEmailChar x = true := by
  induction l generalizing seen with
  | nil => simp [matchDomain]
  | cons x xs ih =>
    simp only [matchDomain, Bool.or_eq_true, Bool.and_eq_true, beq_iff_eq, matchTail_iff, ih]
    constructor
    · rintro (⟨⟨hs, hx⟩, hne, hall⟩ | ⟨hx, b, c, hxs, -, hb, hc⟩)
      · exact ⟨[], xs, by simp [hx], Or.inl hs, by simp, hne, hall⟩
      · refine ⟨x :: b, c, by simp [hxs], Or.inr (by simp), ?_, hc⟩
        intro y hy
        rcases List.mem_cons.mp hy with h | h
        · rw [h]; exact hx
        · exact hb y h
    · rintro ⟨b, c, hl, hs, hb, hc⟩
      cases b with
      | nil =>
        simp only [List.nil_append, List.cons.injEq] at hl
        left
        refine ⟨⟨?_, hl.1⟩, ?_⟩
        · rcases hs with h | h
          · exact h
          · exact absurd rfl h
        · rw [hl.2]; exact hc
      | cons y b =>
        simp only [List.cons_append, List.cons.injEq] at hl
        right
        refine ⟨?_, b, c, hl.2, Or.inl trivial, fun z hz => hb z (List.mem_cons_of_mem _ hz), hc⟩
        rw [hl.1]
        exact hb y (List.mem_cons_self _ _)

theorem matchLocal_iff (seen : Bool) (l : List Char) :
    matchLocal seen l = true ↔
      ∃ a rest : List Char, l = a ++ '@' :: rest ∧ (seen = true ∨ a ≠ []) ∧
        (∀ x ∈ a, isEmailChar x = true) ∧ matchDomain false rest = true := by
  induction l generalizing seen with
  | nil => simp [matchLocal]
  | cons x xs ih =>
    simp only [matchLocal, Bool.or_eq_true, Bool.and_eq_true, beq_iff_eq, ih]
    constructor
    · rintro (⟨⟨hs, hx⟩, hd⟩ | ⟨hx, a, rest, hxs, -, ha, hd⟩)
      · exact ⟨[], xs, by simp [hx], Or.inl hs, by simp, hd⟩
      · refine ⟨x :: a, rest, by simp [hxs], Or.inr (by simp), ?_, hd⟩
        intro y hy
        rcases List.mem_cons.mp hy with h | h
        · rw [h]; exact hx
        · exact ha y h
    · rintro ⟨a, rest, hl, hs, ha, hd⟩
      cases a with
      | nil =>
        simp only [List.nil_append, List.cons.injEq] at hl
        left
        refine ⟨⟨?_, hl.1⟩, ?_⟩
        · rcases hs with h | h
          · exact h
          · exact absurd rfl h
        · rw [hl.2]; exact hd
      | cons y a =>
        simp only [List.cons_append, List.cons.injEq] at hl
        right
        refine ⟨?_, a, rest, hl.2, Or.inl trivial, fun z hz => ha z (List.mem_cons_of_mem _ hz), hd⟩
        rw [hl.1]
        exact ha y (List.mem_cons_self _ _)

theorem validateEmail_iff (email : String) :
    ShareService.validateEmail email = true ↔ specEmail email := by
  unfold ShareService.validateEmail specEmail
  rw [matchLocal_iff]
  constructor
  · rintro ⟨a, rest, hl, hs, ha, hd⟩
    obtain ⟨b, c, hr, hs', hb, hc, hc'⟩ := (matchDomain_iff false rest).mp hd
    refine ⟨a, b, c, by rw [hl, hr], ?_, ?_, hc, ha, hb, hc'⟩
    · rcases hs with h | h
      · exact absurd h (by simp)
      · exact h
    · rcases hs' with h | h
      · exact absurd h (by simp)
      · exact h
  · rintro ⟨a, b, c, hl, ha, hb, hc, ha', hb', hc'⟩
    exact ⟨a, b ++ '.' :: c, hl, Or.inr ha, ha',
      (matchDomain_iff false _).mpr ⟨b, c, rfl, Or.inr hb, hb', hc, hc'⟩⟩

theorem jsLength_empty : jsLength "" = 0 := rfl

theorem eq_empty_of_not_truthy {s : String} (h : truthy s = false) : s = "" := by
  by_contra hne
  rw [(truthy_iff s).mpr hne] at h
  exact Bool.noConfusion h

theorem validateShareForm_errors (f : ShareFormData) :
    (ShareService.validateShareForm f).errors =
      (if 2 ≤ jsLength (trim f.doctor_name) then []
        else ["Doctor's name must be at least 2 characters long"]) ++
      (if ShareService.validateEmail f.doctor_email = true then []
        else ["Please enter a valid email address"]) ++
      (if jsLength f.notes ≤ 1000 then [] else ["Notes must be less than 1000 characters"]) ∧
    (ShareService.validateShareForm f).isValid =
      decide ((ShareService.validateShareForm f).errors = []) := by
  have hname : (!truthy f.doctor_name || decide (jsLength (trim f.doctor_name) < 2)) =
      decide (¬ 2 ≤ jsLength (trim f.doctor_name)) := by
    cases h : truthy f.doctor_name
    · rw [eq_empty_of_not_truthy h, trim_empty, jsLength_empty]
      rfl
    · simp
  have hmail : (!truthy f.doctor_email || !ShareService.validateEmail f.doctor_email) =
      !ShareService.validateEmail f.doctor_email := by
    cases h : truthy f.doctor_email
    · rw [eq_empty_of_not_truthy h]
      rfl
    · simp
  have hnotes : (truthy f.notes && decide (jsLength f.notes > 1000)) =
      decide (¬ jsLength f.notes ≤ 1000) := by
    cases h : truthy f.notes
    · rw [eq_empty_of_not_truthy h, jsLength_empty]
      rfl
    · simp
  unfold ShareService.validateShareForm
  simp only [hname, hmail, hnotes]
  constructor
  · by_cases h1 : 2 ≤ jsLength (trim f.doctor_name) <;>
      by_cases h2 : ShareService.validateEmail f.doctor_email = true <;>
      by_cases h3 : jsLength f.notes ≤ 1000 <;> simp [h1, h2, h3]
  · by_cases h1 : 2 ≤ jsLength (trim f.doctor_name) <;>
      by_cases h2 : ShareService.validateEmail f.doctor_email = true <;>
      by_cases h3 : jsLength f.notes ≤ 1000 <;> simp [h1, h2, h3]

/-- C15. `validateShareForm` returns `isValid = true` with no errors exactly when
the trimmed doctor name has at least 2 characters, the doctor e-mail has the form
run '@' run '.' run (non-empty runs without white space or '@') and the notes
are at most 1000 characters long (empty notes included); otherwise `isValid` is
false and `errors` holds one message per failing check, in the order name,
e-mail, notes. -/
theorem validateShareForm_valid_iff (f : ShareFormData) :
    (((ShareService.validateShareForm f).isValid = true ∧
        (ShareService.validateShareForm f).errors = []) ↔
      (2 ≤ jsLength (trim f.doctor_name) ∧ specEmail f.doctor_email ∧ jsLength f.notes ≤ 1000)) ∧
    ((ShareService.validateShareForm f).isValid = false ↔
      ¬ (2 ≤ jsLength (trim f.doctor_name) ∧ specEmail f.doctor_email ∧
        jsLength f.notes ≤ 1000)) ∧
    (∃ nameErrors emailErrors notesErrors : List String,
      (ShareService.validateShareForm f).errors = nameErrors ++ emailErrors ++ notesErrors ∧
      (2 ≤ jsLength (trim f.doctor_name) → nameErrors = []) ∧
      (¬ 2 ≤ jsLength (trim f.doctor_name) →
        nameErrors = ["Doctor's name must be at least 2 characters long"]) ∧
      (specEmail f.doctor_email → emailErrors = []) ∧
      (¬ specEmail f.doctor_email → emailErrors = ["Please enter a valid email address"]) ∧
      (jsLength f.notes ≤ 1000 → notesErrors = []) ∧
      (¬ jsLength f.notes ≤ 1000 → notesErrors = ["Notes must be less than 1000 characters"])) := by
  obtain ⟨herr, hval⟩ := validateShareForm_errors f
  have hmail := validateEmail_iff f.doctor_email
  have hnil : (ShareService.validateShareForm f).errors = [] ↔
      (2 ≤ jsLength (trim f.doctor_name) ∧ specEmail f.doctor_email ∧
        jsLength f.notes ≤ 1000) := by
    rw [herr, ← hmail]
    by_cases h1 : 2 ≤ jsLength (trim f.doctor_name) <;>
      by_cases h2 : ShareService.validateEmail f.doctor_email = true <;>
      by_cases h3 : jsLength f.notes ≤ 1000 <;> simp [h1, h2, h3]
  refine ⟨?_, ?_, ?_⟩
  · rw [hval, ← hnil]
    simp
  · rw [hval, ← hnil]
    simp
  · refine ⟨_, _, _, herr, ?_, ?_, ?_, ?_, ?_, ?_⟩
    · intro h; simp [h]
    · intro h; simp [h]
    · intro h; simp [hmail.mpr h]
    · intro h
      have : ¬ ShareService.validateEmail f.doctor_email = true := fun h' => h (hmail.mp h')
      simp [this]
    · intro h; simp [h]
    · intro h; simp [h]

/-- C14, refuted as stated: the id "42abc" is not an integer numeral, yet with a
valid form and a stored token the submit handler records no error and calls the
share endpoint, with `prediction_id` 42. -/
theorem share_accepts_numeral_prefix :
    (handleSubmit sampleShareWorld.st (IdValue.str "42abc") none sampleShareWorld).st.errors = [] ∧
    (handleSubmit sampleShareWorld.st (IdValue.str "42abc") none sampleShareWorld).shareReport =
      [{ prediction_id := JsNumber.exact 42, doctor_email := "rai@clinic.np",
         doctor_name := "Dr Rai", sender_name := "Patient", notes := none,
         include_pdf := true }] := by
  decide

/-- C14, amended: for an id that is a string starting with "PT-", or from which
`parseInt` reads NaN, the submit handler records an error and makes no call to
the share endpoint (with a valid form and a stored token the error is the
demo-data error, respectively the invalid-id error); for any other id, with a
valid form and a stored token, it calls the share endpoint once with
`prediction_id` the number `parseInt` reads.  For an id that is an integer
Number of magnitude at most 2^53 that number is the id itself; a missing id
reads as NaN; a numeral beyond 2^53, such as "9007199254740993", reads as a
number that is not followed further. -/
theorem handleSubmit_share_guard (snap : ShareState) (id : IdValue) (fullName : Option String)
    (w : ShareWorld) :
    ((isDemoId id = true ∨ parseInt id = JsNumber.nan) →
      (handleSubmit snap id fullName w).shareReport = w.shareReport ∧
      (handleSubmit snap id fullName w).st.errors ≠ []) ∧
    ((ShareService.validateShareForm snap.formData).isValid = true →
      (∃ t : String, w.token = some t ∧ t ≠ "") →
      (isDemoId id = true → (handleSubmit snap id fullName w).st.errors =
        ["Cannot share demo/sample data. Please perform a real medical analysis first."]) ∧
      (isDemoId id = false → parseInt id = JsNumber.nan →
        (handleSubmit snap id fullName w).st.errors =
          ["Invalid prediction ID. Cannot share this result."]) ∧
      (isDemoId id = false → parseInt id ≠ JsNumber.nan →
        handleSubmit snap id fullName w =
          { w with
            st := { w.st with isSharing := true, errors := [] }
            shareReport := w.shareReport ++
              [shareRequestOf snap.formData fullName (parseInt id)] })) ∧
    (∀ n : Int, n.natAbs ≤ 9007199254740992 →
      parseInt (IdValue.num n) = JsNumber.exact n ∧ isDemoId (IdValue.num n) = false) ∧
    parseInt IdValue.missing = JsNumber.nan ∧
    parseInt (IdValue.str "9007199254740993") = JsNumber.beyond := by
  have hnan : ∀ x : JsNumber, x.isNaN = true ↔ x = JsNumber.nan := by
    intro x
    cases x <;> simp [JsNumber.isNaN]
  refine ⟨?_, ?_, fun n hn => ⟨?_, rfl⟩, rfl, by decide⟩
  · intro hid
    by_cases hv : (ShareService.validateShareForm snap.formData).isValid = true
    · by_cases ht : (match w.token with | some t => truthy t | none => false) = true
      · by_cases hd : isDemoId id = true
        · simp [handleSubmit, hv, ht, hd]
        · have hp : (parseInt id).isNaN = true := by
            rcases hid with h | h
            · exact absurd h hd
            · exact (hnan _).mpr h
          simp [handleSubmit, hv, ht, hd, hp]
      · simp [handleSubmit, hv, ht]
    · have hv' : (ShareService.validateShareForm snap.formData).isValid = false := by
        simpa using hv
      have herr : (ShareService.validateShareForm snap.formData).errors ≠ [] := by
        intro h
        rw [(validateShareForm_errors snap.formData).2, h] at hv'
        simp at hv'
      simp [handleSubmit, hv', herr]
  · rintro hv ⟨t, ht, hne⟩
    have htok : (match w.token with | some t => truthy t | none => false) = true := by
      rw [ht]
      exact (truthy_iff t).mpr hne
    refine ⟨?_, ?_, ?_⟩
    · intro hd
      simp [handleSubmit, hv, htok, hd]
    · intro hd hp
      have hp' : (parseInt id).isNaN = true := (hnan _).mpr hp
      simp [handleSubmit, hv, htok, hd, hp']
    · intro hd hp
      have hp' : (parseInt id).isNaN = false := by
        cases h : (parseInt id).isNaN
        · rfl
        · exact absurd ((hnan _).mp h) hp
      simp [handleSubmit, hv, htok, hd, hp']
  · have : n.natAbs ≤ maxExactInteger := hn
    simp [parseInt, this]

/-- Witness of C14 amended: the demo id "PT-000123" is refused before any call,
the numeric id 42 is read as 42 and shared as 42. -/
theorem handleSubmit_share_guard_witness :
    ((handleSubmit sampleShareWorld.st (IdValue.str "PT-000123") none sampleShareWorld).shareReport
        = sampleShareWorld.shareReport ∧
      (handleSubmit sampleShareWorld.st (IdValue.str "PT-000123") none sampleShareWorld).st.errors
        ≠ []) ∧
    handleSubmit sampleShareWorld.st (IdValue.num 42) none sampleShareWorld =
      { sampleShareWorld with
        st := { sampleShareWorld.st with isSharing := true, errors := [] }
        shareReport := sampleShareWorld.shareReport ++
          [shareRequestOf sampleShareWorld.st.formData none (parseInt (IdValue.num 42))] } ∧
    parseInt (IdValue.num 42) = JsNumber.exact 42 :=
  ⟨(handleSubmit_share_guard sampleShareWorld.st (IdValue.str "PT-000123") none
      sampleShareWorld).1 (Or.inl (by decide)),
   (handleSubmit_share_guard sampleShareWorld.st (IdValue.num 42) none
      sampleShareWorld).2.1 (by decide) ⟨"tok", rfl, by decide⟩ |>.2.2 rfl (by decide),
   ((handleSubmit_share_guard sampleShareWorld.st (IdValue.num 42) none
      sampleShareWorld).2.2.1 42 (by decide)).1⟩

/-! ### The phone number -/

theorem dropWhile_ne_nil_of_mem {α : Type} (p : α → Bool) (l : List α) (c : α) (hc : c ∈ l)
    (hp : p c = false) : l.dropWhile p ≠ [] := by
  induction l with
  | nil => cases hc
  | cons x xs ih =>
    rw [List.dropWhile_cons]
    split_ifs with hx
    · rcases List.mem_cons.mp hc with h | h
      · rw [h, hx] at hp
        exact Bool.noConfusion hp
      · exact ih h
    · exact List.cons_ne_nil _ _

theorem dropWhile_has_unmatched {α : Type} (p : α → Bool) (l : List α)
    (h : l.dropWhile p ≠ []) : ∃ c ∈ l.dropWhile p, p c = false := by
  induction l with
  | nil => exact absurd rfl h
  | cons x xs ih =>
    rw [List.dropWhile_cons] at h ⊢
    split_ifs at h ⊢ with hx
    · exact ih h
    · exact ⟨x, List.mem_cons_self _ _, by simpa using hx⟩

theorem trim_ne_empty_of_mem (s : String) (c : Char) (hc : c ∈ s.data)
    (hp : isTrimChar c = false) : trim s ≠ "" := by
  have h1 := dropWhile_ne_nil_of_mem isTrimChar s.data c hc hp
  obtain ⟨d, hd, hpd⟩ := dropWhile_has_unmatched isTrimChar s.data h1
  have h2 := dropWhile_ne_nil_of_mem isTrimChar (s.data.dropWhile isTrimChar).reverse d
    (List.mem_reverse.mpr hd) hpd
  intro h
  have h3 := congrArg String.data h
  simp only [trim] at h3
  exact h2 (List.reverse_eq_nil_iff.mp h3)

theorem isDigitChar_not_trim (c : Char) (h : isDigitChar c = true) : isTrimChar c = false := by
  simp only [isDigitChar, Bool.and_eq_true, decide_eq_true_eq] at h
  simp only [isTrimChar, Bool.or_eq_false_iff, Bool.and_eq_false_iff, decide_eq_false_iff_not]
  omega

theorem truthy_trim_of_digits (phone : String) (h : (phone.data.filter isDigitChar).length = 10) :
    truthy (trim phone) = true := by
  cases hd : phone.data.filter isDigitChar with
  | nil => rw [hd] at h; cases h
  | cons c cs =>
    have hc : c ∈ phone.data.filter isDigitChar := by rw [hd]; exact List.mem_cons_self _ _
    rw [List.mem_filter] at hc
    exact truthy_trim (trim_ne_empty_of_mem phone c hc.1 (isDigitChar_not_trim c hc.2))

theorem validatePhoneNumber_of_digits (phone : String) (st : UploadState)
    (d0 d1 d2 d3 d4 d5 d6 d7 d8 d9 : Char)
    (hd : phone.data.filter isDigitChar = [d0, d1, d2, d3, d4, d5, d6, d7, d8, d9]) :
    validatePhoneNumber phone st =
      ("", { st with patientInfo := { st.patientInfo with
        phone := ⟨[d0, d1, d2, '-', d3, d4, d5, '-', d6, d7, d8, d9]⟩ } }) := by
  have ht := truthy_trim_of_digits phone (by rw [hd]; rfl)
  unfold validatePhoneNumber
  rw [ht, hd]
  rfl

/-- C16. A phone input with exactly ten decimal digits (whatever else is in it)
gives no error and rewrites the phone field to d1d2d3-d4d5d6-d7d8d9d10, digits in
their order, and validating that output gives the same field again; a non-blank
input whose digit count is not ten gives the error "Phone number must be exactly
10 digits" and rewrites nothing. -/
theorem validatePhoneNumber_ten_digits (phone : String) (st : UploadState) :
    (∀ d0 d1 d2 d3 d4 d5 d6 d7 d8 d9 : Char,
      phone.data.filter isDigitChar = [d0, d1, d2, d3, d4, d5, d6, d7, d8, d9] →
      validatePhoneNumber phone st =
        ("", { st with patientInfo := { st.patientInfo with
          phone := ⟨[d0, d1, d2, '-', d3, d4, d5, '-', d6, d7, d8, d9]⟩ } }) ∧
      ∀ st' : UploadState,
        validatePhoneNumber ⟨[d0, d1, d2, '-', d3, d4, d5, '-', d6, d7, d8, d9]⟩ st' =
          ("", { st' with patientInfo := { st'.patientInfo with
            phone := ⟨[d0, d1, d2, '-', d3, d4, d5, '-', d6, d7, d8, d9]⟩ } })) ∧
    (trim phone ≠ "" → (phone.data.filter isDigitChar).length ≠ 10 →
      validatePhoneNumber phone st = ("Phone number must be exactly 10 digits", st)) := by
  constructor
  · intro d0 d1 d2 d3 d4 d5 d6 d7 d8 d9 hd
    refine ⟨validatePhoneNumber_of_digits phone st d0 d1 d2 d3 d4 d5 d6 d7 d8 d9 hd, ?_⟩
    intro st'
    apply validatePhoneNumber_of_digits
    have hall : ∀ c ∈ [d0, d1, d2, d3, d4, d5, d6, d7, d8, d9], isDigitChar c = true := by
      intro c hc
      rw [← hd] at hc
      exact (List.mem_filter.mp hc).2
    have hdash : isDigitChar '-' = false := by decide
    simp only [List.mem_cons, List.mem_singleton, forall_eq_or_imp, forall_eq] at hall
    obtain ⟨h0, h1, h2, h3, h4, h5, h6, h7, h8, h9, -⟩ := hall
    simp [List.filter, h0, h1, h2, h3, h4, h5, h6, h7, h8, h9, hdash]
  · intro hq hlen
    unfold validatePhoneNumber
    rw [truthy_trim hq]
    simp [hlen]

/-- Witness of C16: the input "(980) 123-4567" and the input "12345". -/
theorem validatePhoneNumber_ten_digits_witness :
    validatePhoneNumber "(980) 123-4567" emptyUpload.st =
      ("", { emptyUpload.st with patientInfo := { emptyUpload.st.patientInfo with
        phone := "980-123-4567" } }) ∧
    validatePhoneNumber "12345" emptyUpload.st =
      ("Phone number must be exactly 10 digits", emptyUpload.st) :=
  ⟨((validatePhoneNumber_ten_digits "(980) 123-4567" emptyUpload.st).1
      '9' '8' '0' '1' '2' '3' '4' '5' '6' '7' (by decide)).1,
   (validatePhoneNumber_ten_digits "12345" emptyUpload.st).2 (by decide) (by decide)⟩

/-! ### The date of birth -/

theorem completedAge_nonneg (birth today : JsDate) (h : birth.after today = false) :
    0 ≤ completedAge birth today := by
  simp only [JsDate.after, Bool.or_eq_false_iff, Bool.and_eq_false_iff, decide_eq_false_iff_not,
    not_lt] at h
  unfold completedAge birthdayPending
  split_ifs with hp
  · rcases h with ⟨h1, h2⟩
    rcases hp with hp | ⟨hp1, hp2⟩
    · rcases h2 with h2 | ⟨h2, h3⟩
      · omega
      · omega
    · rcases h2 with h2 | ⟨h2, h3⟩
      · omega
      · rcases h3 with h3 | ⟨h3, h4⟩
        · omega
        · omega
  · omega

theorem validateDateOfBirth_reading (offsetMs : Int) (dob : DateValue) (birth today : JsDate)
    (hb : newDate offsetMs dob = some birth) :
    validateDateOfBirth offsetMs (some dob) today =
      if birth.after today = true then "Date of birth cannot be in the future"
      else if completedAge birth today > 120 then "Age cannot exceed 120 years"
      else "" := by
  have hadj : (if (today.month : Int) - (birth.month : Int) < 0 ∨
        ((today.month : Int) - (birth.month : Int) = 0 ∧ today.date < birth.date)
      then today.fullYear - birth.fullYear - 1 else today.fullYear - birth.fullYear) =
      completedAge birth today := by
    unfold completedAge birthdayPending
    have hiff : ((today.month : Int) - (birth.month : Int) < 0 ∨
        ((today.month : Int) - (birth.month : Int) = 0 ∧ today.date < birth.date)) ↔
        (today.month < birth.month ∨ (today.month = birth.month ∧ today.date < birth.date)) := by
      constructor
      · rintro (h1 | ⟨h1, h2⟩)
        · left; omega
        · right; exact ⟨by omega, h2⟩
      · rintro (h1 | ⟨h1, h2⟩)
        · left; omega
        · right; exact ⟨by omega, h2⟩
    by_cases hp : today.month < birth.month ∨ (today.month = birth.month ∧ today.date < birth.date)
    · rw [if_pos (hiff.mpr hp), if_pos hp]
    · rw [if_neg (fun h' => hp (hiff.mp h')), if_neg hp]
      omega
  simp only [validateDateOfBirth, hb, hadj]
  cases h : birth.after today
  · have hn := completedAge_nonneg birth today h
    simp only [Bool.false_eq_true, if_false]
    rw [if_neg (by omega)]
  · simp

theorem newDate_cases (offsetMs : Int) (dob : DateValue) (hv : dob.isValid = true) :
    ∃ birth : JsDate, newDate offsetMs dob = some birth ∧
      ((0 ≤ offsetMs ∧ birth.fullYear = dob.year ∧ birth.month = dob.month - 1 ∧
          birth.date = dob.day) ∨
        (offsetMs < 0 ∧ 1 < dob.day ∧ birth.fullYear = dob.year ∧ birth.month = dob.month - 1 ∧
          birth.date = dob.day - 1) ∨
        (offsetMs < 0 ∧ dob.day = 1 ∧ 1 < dob.month ∧ birth.fullYear = dob.year ∧
          birth.month = dob.month - 2) ∨
        (offsetMs < 0 ∧ dob.day = 1 ∧ dob.month = 1 ∧ birth.fullYear = (dob.year : Int) - 1 ∧
          birth.month = 11 ∧ birth.date = 31)) := by
  have hv' := hv
  simp only [DateValue.isValid, Bool.and_eq_true, decide_eq_true_eq] at hv'
  obtain ⟨⟨⟨hm1, hm12⟩, hd1⟩, hdn⟩ := hv'
  unfold newDate
  simp only [hv, Bool.not_true, Bool.false_eq_true, if_false]
  by_cases ho : 0 ≤ offsetMs
  · rw [if_pos ho]
    exact ⟨_, rfl, Or.inl ⟨ho, rfl, rfl, rfl⟩⟩
  · rw [if_neg ho]
    by_cases hd : 1 < dob.day
    · rw [if_pos hd]
      exact ⟨_, rfl, Or.inr (Or.inl ⟨by omega, hd, rfl, rfl, rfl⟩)⟩
    · rw [if_neg hd]
      by_cases hm : 1 < dob.month
      · rw [if_pos hm]
        exact ⟨_, rfl, Or.inr (Or.inr (Or.inl ⟨by omega, by omega, hm, rfl, rfl⟩))⟩
      · rw [if_neg hm]
        exact ⟨_, rfl, Or.inr (Or.inr (Or.inr ⟨by omega, by omega, by omega, rfl, rfl, rfl⟩))⟩

/-- C18, evaluated: in New York (UTC-05:00) on 5 November 2026 at 23:00.  The
date of birth 6 November 1905 has its 121st anniversary tomorrow: it is not
after now and its age in completed years is 120, and yet the validator returns
"Age cannot exceed 120 years", because it reads the day before, 5 November
1905.  The date of birth 6 November 2026 is tomorrow, a future date, and yet the
validator returns no error, because it compares 5 November 2026, 19:00, with
now.  In Nepal (UTC+05:45) both values are judged as the claim says. -/
theorem validateDateOfBirth_reads_previous_day :
    validateDateOfBirth newYorkOffset (some { year := 1905, month := 11, day := 6 }) sampleEvening
      = "Age cannot exceed 120 years" ∧
    (DateValue.asDay { year := 1905, month := 11, day := 6 }).after sampleEvening = false ∧
    completedAge (DateValue.asDay { year := 1905, month := 11, day := 6 }) sampleEvening = 120 ∧
    newDate newYorkOffset { year := 1905, month := 11, day := 6 } =
      some { fullYear := 1905, month := 10, date := 5, msOfDay := 68400000 } ∧
    validateDateOfBirth newYorkOffset (some { year := 2026, month := 11, day := 6 }) sampleEvening
      = "" ∧
    (DateValue.asDay { year := 2026, month := 11, day := 6 }).after sampleEvening = true ∧
    newDate newYorkOffset { year := 2026, month := 11, day := 6 } =
      some { fullYear := 2026, month := 10, date := 5, msOfDay := 68400000 } ∧
    validateDateOfBirth nepalOffset (some { year := 1905, month := 11, day := 6 }) sampleEvening
      = "" ∧
    validateDateOfBirth nepalOffset (some { year := 2026, month := 11, day := 6 }) sampleEvening
      = "Date of birth cannot be in the future" := by
  decide

/-- C17, refuted as stated: in Nepal (UTC+05:45) today is 5 November 2026 and the
date of birth is 4 November 1906, which lies 120 years and 1 day before today;
the validator returns no error.  It returns none in New York or at Greenwich
either. -/
theorem dob_120_years_and_a_day_accepted :
    validateDateOfBirth nepalOffset (some { year := 1906, month := 11, day := 4 }) sampleToday
      = "" ∧
    validateDateOfBirth newYorkOffset (some { year := 1906, month := 11, day := 4 }) sampleToday
      = "" ∧
    validateDateOfBirth 0 (some { year := 1906, month := 11, day := 4 }) sampleToday = "" := by
  decide

/-- C17, amended: whatever the offset of local time, a date of birth whose 121st
anniversary is on or before today (completed age 121 or more) is rejected with
"Age cannot exceed 120 years", and a date of birth exactly 120 years before
today is accepted.  A date of birth 120 years and 1 day before today is not
rejected as a rule: where local time is at or ahead of UTC, every date of birth
with completed age 120 is accepted. -/
theorem validateDateOfBirth_age_limit (offsetMs : Int) (dob : DateValue) (today : JsDate)
    (hv : dob.isValid = true) :
    (((dob.year : Int) + 121 < today.fullYear ∨
        ((dob.year : Int) + 121 = today.fullYear ∧ ¬ birthdayPending dob.asDay today)) →
      validateDateOfBirth offsetMs (some dob) today = "Age cannot exceed 120 years") ∧
    ((dob.year : Int) + 120 = today.fullYear → dob.month - 1 = today.month →
      dob.day = today.date → validateDateOfBirth offsetMs (some dob) today = "") ∧
    (0 ≤ offsetMs → completedAge dob.asDay today = 120 →
      validateDateOfBirth offsetMs (some dob) today = "") := by
  have hv' := hv
  simp only [DateValue.isValid, Bool.and_eq_true, decide_eq_true_eq] at hv'
  obtain ⟨⟨⟨hm1, hm12⟩, hd1⟩, hdn⟩ := hv'
  obtain ⟨birth, hb, hcases⟩ := newDate_cases offsetMs dob hv
  rw [validateDateOfBirth_reading offsetMs dob birth today hb]
  have hafter : birth.fullYear < today.fullYear → birth.after today = false := by
    intro h
    simp only [JsDate.after, Bool.or_eq_false_iff, Bool.and_eq_false_iff,
      decide_eq_false_iff_not]
    exact ⟨by omega, Or.inl (by omega)⟩
  refine ⟨?_, ?_, ?_⟩
  · intro h
    simp only [birthdayPending, DateValue.asDay] at h
    have hy : birth.fullYear < today.fullYear := by
      rcases hcases with ⟨-, h1, -⟩ | ⟨-, -, h1, -⟩ | ⟨-, -, -, h1, -⟩ | ⟨-, -, -, h1, -⟩ <;> omega
    have hage : completedAge birth today > 120 := by
      unfold completedAge birthdayPending
      rcases hcases with ⟨-, h1, h2, h3⟩ | ⟨-, -, h1, h2, h3⟩ | ⟨-, h0, hm, h1, h2⟩ |
        ⟨-, h0, hm, h1, h2, h3⟩ <;> split_ifs <;> omega
    rw [hafter hy, if_neg (by simp), if_pos hage]
  · intro hy hm hd
    have hy' : birth.fullYear < today.fullYear := by
      rcases hcases with ⟨-, h1, -⟩ | ⟨-, -, h1, -⟩ | ⟨-, -, -, h1, -⟩ | ⟨-, -, -, h1, -⟩ <;> omega
    have hage : ¬ completedAge birth today > 120 := by
      unfold completedAge birthdayPending
      rcases hcases with ⟨-, h1, h2, h3⟩ | ⟨-, -, h1, h2, h3⟩ | ⟨-, h0, hm', h1, h2⟩ |
        ⟨-, h0, hm', h1, h2, h3⟩ <;> split_ifs <;> omega
    rw [hafter hy', if_neg (by simp), if_neg hage]
  · intro ho hage
    rcases hcases with ⟨-, h1, h2, h3⟩ | ⟨hneg, -⟩ | ⟨hneg, -⟩ | ⟨hneg, -⟩
    · have hage' : completedAge birth today = 120 := by
        simp only [completedAge, birthdayPending, DateValue.asDay] at hage
        simp only [completedAge, birthdayPending, h1, h2, h3]
        exact hage
      have hy : birth.fullYear < today.fullYear := by
        unfold completedAge at hage'
        split_ifs at hage' <;> omega
      rw [hafter hy, if_neg (by simp), if_neg (by omega)]
    · omega
    · omega
    · omega

/-- Witness of C17 amended: today 5 November 2026, in New York; born 5 November
1905 is rejected, born 5 November 1906 is accepted; in Nepal, born 4 November
1906 is accepted. -/
theorem validateDateOfBirth_age_limit_witness :
    validateDateOfBirth newYorkOffset (some { year := 1905, month := 11, day := 5 }) sampleToday
      = "Age cannot exceed 120 years" ∧
    validateDateOfBirth newYorkOffset (some { year := 1906, month := 11, day := 5 }) sampleToday
      = "" ∧
    validateDateOfBirth nepalOffset (some { year := 1906, month := 11, day := 4 }) sampleToday
      = "" :=
  ⟨(validateDateOfBirth_age_limit newYorkOffset { year := 1905, month := 11, day := 5 }
      sampleToday (by decide)).1 (Or.inr ⟨by decide, by decide⟩),
   (validateDateOfBirth_age_limit newYorkOffset { year := 1906, month := 11, day := 5 }
      sampleToday (by decide)).2.1 (by decide) (by decide) (by decide),
   (validateDateOfBirth_age_limit nepalOffset { year := 1906, month := 11, day := 4 }
      sampleToday (by decide)).2.2 (by decide) (by decide)⟩

/-! ### File selection -/

/-- C19. `handleFileSelection` accepts a file (selects it, with no alert) exactly
when its MIME type is one of image/jpeg, image/jpg, image/png, image/dicom or its
lower-cased name ends with ".dcm", and its size is at most 10 * 1024 * 1024
bytes; so a file of exactly 10 MB with such a type or name is accepted, and a
rejected file leaves the state, the selection included, unchanged. -/
theorem handleFileSelection_accepts_iff (P : Platform) (file : FileValue) (w : UploadWorld) :
    ((handleFileSelection P file w).alerts = w.alerts ↔
      ((file.type ∈ ["image/jpeg", "image/jpg", "image/png", "image/dicom"] ∨
          ".dcm".data <:+ (P.toLowerCase file.name).data) ∧
        file.size ≤ 10 * 1024 * 1024)) ∧
    ((file.type ∈ ["image/jpeg", "image/jpg", "image/png", "image/dicom"] ∨
          ".dcm".data <:+ (P.toLowerCase file.name).data) →
      file.size ≤ 10 * 1024 * 1024 →
      (handleFileSelection P file w).st.selectedFile = some file) ∧
    ((file.type ∈ ["image/jpeg", "image/jpg", "image/png", "image/dicom"] ∨
          ".dcm".data <:+ (P.toLowerCase file.name).data) →
      file.size = 10 * 1024 * 1024 →
      (handleFileSelection P file w).st.selectedFile = some file) ∧
    (¬ ((file.type ∈ ["image/jpeg", "image/jpg", "image/png", "image/dicom"] ∨
          ".dcm".data <:+ (P.toLowerCase file.name).data) ∧
        file.size ≤ 10 * 1024 * 1024) →
      (handleFileSelection P file w).st = w.st) := by
  have htype : (!allowedTypes.contains file.type && !endsWith (P.toLowerCase file.name) ".dcm")
      = true ↔ ¬ (file.type ∈ ["image/jpeg", "image/jpg", "image/png", "image/dicom"] ∨
        ".dcm".data <:+ (P.toLowerCase file.name).data) := by
    simp only [Bool.and_eq_true, Bool.not_eq_true', endsWith, allowedTypes, not_or]
    rw [← Bool.not_eq_true, ← Bool.not_eq_true, List.isSuffixOf_iff_suffix]
    simp [List.contains, List.elem_iff]
  have hsel : (file.type ∈ ["image/jpeg", "image/jpg", "image/png", "image/dicom"] ∨
        ".dcm".data <:+ (P.toLowerCase file.name).data) →
      file.size ≤ 10 * 1024 * 1024 →
      (handleFileSelection P file w).st.selectedFile = some file ∧
      (handleFileSelection P file w).alerts = w.alerts := by
    intro h1 h2
    unfold handleFileSelection
    rw [if_neg (fun h => htype.mp h h1), if_neg (by omega)]
    split_ifs <;> exact ⟨rfl, rfl⟩
  have hrej : ¬ ((file.type ∈ ["image/jpeg", "image/jpg", "image/png", "image/dicom"] ∨
        ".dcm".data <:+ (P.toLowerCase file.name).data) ∧ file.size ≤ 10 * 1024 * 1024) →
      (handleFileSelection P file w).st = w.st ∧
      (handleFileSelection P file w).alerts ≠ w.alerts := by
    intro h
    unfold handleFileSelection
    by_cases h1 : (file.type ∈ ["image/jpeg", "image/jpg", "image/png", "image/dicom"] ∨
        ".dcm".data <:+ (P.toLowerCase file.name).data)
    · have h2 : file.size > 10 * 1024 * 1024 := by
        by_contra hc
        exact h ⟨h1, by omega⟩
      rw [if_neg (fun h' => htype.mp h' h1), if_pos h2]
      exact ⟨rfl, by simp⟩
    · rw [if_pos (htype.mpr h1)]
      exact ⟨rfl, by simp⟩
  refine ⟨⟨fun h => ?_, fun h => (hsel h.1 h.2).2⟩, fun h1 h2 => (hsel h1 h2).1,
    fun h1 h2 => (hsel h1 (by omega)).1, fun h => (hrej h).1⟩
  by_contra hc
  exact (hrej hc).2 h

/-- Witness of C19: a PNG of exactly 10 MB is selected. -/
theorem handleFileSelection_accepts_iff_witness :
    (handleFileSelection asciiPlatform
      { name := "scan.PNG", type := "image/png", size := 10 * 1024 * 1024 }
      emptyUpload).st.selectedFile =
      some { name := "scan.PNG", type := "image/png", size := 10 * 1024 * 1024 } :=
  (handleFileSelection_accepts_iff asciiPlatform
    { name := "scan.PNG", type := "image/png", size := 10 * 1024 * 1024 } emptyUpload).2.2.1
    (Or.inl (by decide)) rfl

/-! ### Error messages of the HTTP client -/

/-- C20, refuted as stated: a 400 answer to `get` whose body has a `message`
field and no `detail` raises the generic text, not the message; a 400 answer to
`post` whose body has only an `error` field raises the generic text as well. -/
theorem get_ignores_message_field :
    ApiService.settle Method.get messageOnly400 =
      ApiResult.thrown { message := "HTTP error! status: 400", response := none } ∧
    (ApiService.postError errorOnly400).message = "HTTP error! status: 400" := by
  decide

/-- C20, amended: for a response that is not ok, the error `post` raises has as
message the body's `detail` when that is a string, otherwise its `message` field
when present, otherwise the generic "HTTP error! status: <code>" text; the error
`get`, `put` and `delete` raise has as message the `detail` field when present
and otherwise the generic text, whatever the `message` field holds.  The `error`
field is read by none of them: the raised message is the same whatever that
field holds. -/
theorem error_message_preference (response : FetchResponse) (hok : response.ok = false) :
    (∃ e : ApiError, ApiService.settle Method.post response = ApiResult.thrown e ∧
      (∀ d : String, response.errorData.detail = JsonField.str d → e.message = d) ∧
      ((∀ d : String, response.errorData.detail ≠ JsonField.str d) →
        ∀ m : String, response.errorData.message.truthyText = some m → e.message = m) ∧
      ((∀ d : String, response.errorData.detail ≠ JsonField.str d) →
        response.errorData.message.truthyText = none →
        e.message = "HTTP error! status: " ++ toString response.status)) ∧
    (∀ method : Method, method ≠ Method.post →
      ∃ e : ApiError, ApiService.settle method response = ApiResult.thrown e ∧
        (∀ d : String, response.errorData.detail.truthyText = some d → e.message = d) ∧
        (response.errorData.detail.truthyText = none →
          e.message = "HTTP error! status: " ++ toString response.status)) ∧
    (∀ (method : Method) (data : ErrorData) (x : JsonField), response.json = some data →
      ∃ e e' : ApiError, ApiService.settle method response = ApiResult.thrown e ∧
        ApiService.settle method { response with json := some { data with error := x } } =
          ApiResult.thrown e' ∧
        e'.message = e.message) := by
  refine ⟨?_, ?_, ?_⟩
  · refine ⟨ApiService.postError response, by simp [ApiService.settle, hok], ?_, ?_, ?_⟩
    · intro d hd
      simp [ApiService.postError, hd]
    · intro hd m hm
      unfold ApiService.postError
      cases hdet : response.errorData.detail with
      | absent => simp [hm]
      | str d => exact absurd hdet (hd d)
      | other t => simp [hm]
    · intro hd hm
      unfold ApiService.postError
      cases hdet : response.errorData.detail with
      | absent => simp [hm, httpErrorText]
      | str d => exact absurd hdet (hd d)
      | other t => simp [hm, httpErrorText]
  · intro method hm
    cases method with
    | post => exact absurd rfl hm
    | get =>
      refine ⟨ApiService.getError response, by simp [ApiService.settle, hok], ?_, ?_⟩
      · intro d hd
        simp [ApiService.getError, hd]
      · intro hd
        simp [ApiService.getError, hd, httpErrorText]
    | put =>
      refine ⟨ApiService.putError response, by simp [ApiService.settle, hok], ?_, ?_⟩
      · intro d hd
        simp [ApiService.putError, hd]
      · intro hd
        simp [ApiService.putError, hd, httpErrorText]
    | delete =>
      refine ⟨ApiService.deleteError response, by simp [ApiService.settle, hok], ?_, ?_⟩
      · intro d hd
        simp [ApiService.deleteError, hd]
      · intro hd
        simp [ApiService.deleteError, hd, httpErrorText]
  · intro method data x hjson
    have hok' : FetchResponse.ok { response with json := some { data with error := x } } = false :=
      hok
    cases method with
    | get =>
      exact ⟨ApiService.getError response,
        ApiService.getError { response with json := some { data with error := x } },
        by simp [ApiService.settle, hok], by simp [ApiService.settle, hok'],
        by simp [ApiService.getError, FetchResponse.errorData, hjson]⟩
    | post =>
      exact ⟨ApiService.postError response,
        ApiService.postError { response with json := some { data with error := x } },
        by simp [ApiService.settle, hok], by simp [ApiService.settle, hok'],
        by simp [ApiService.postError, FetchResponse.errorData, hjson]⟩
    | put =>
      exact ⟨ApiService.putError response,
        ApiService.putError { response with json := some { data with error := x } },
        by simp [ApiService.settle, hok], by simp [ApiService.settle, hok'],
        by simp [ApiService.putError, FetchResponse.errorData, hjson]⟩
    | delete =>
      exact ⟨ApiService.deleteError response,
        ApiService.deleteError { response with json := some { data with error := x } },
        by simp [ApiService.settle, hok], by simp [ApiService.settle, hok'],
        by simp [ApiService.deleteError, FetchResponse.errorData, hjson]⟩

/-- Witness of C20 amended: a 400 answer to `post` with only a `message` field
raises that message; the same answer to `get` raises the generic text. -/
theorem error_message_preference_witness :
    (∃ e : ApiError, ApiService.settle Method.post messageOnly400 = ApiResult.thrown e ∧
      e.message = "Not allowed") ∧
    (∃ e : ApiError, ApiService.settle Method.get messageOnly400 = ApiResult.thrown e ∧
      e.message = "HTTP error! status: " ++ toString messageOnly400.status) := by
  obtain ⟨⟨e, he, -, hm, -⟩, hrest, -⟩ := error_message_preference messageOnly400 (by decide)
  obtain ⟨e', he', -, hg⟩ := hrest Method.get (by decide)
  exact ⟨⟨e, he, hm (fun d h => JsonField.noConfusion h) "Not allowed" (by decide)⟩,
    ⟨e', he', hg (by decide)⟩⟩

/-! ### What the raised error carries, and the request headers -/

/-- C21, on the code: the error `post` raises carries the status and the parsed
body (the empty object when the body is not JSON); the errors `get`, `put` and
`delete` raise carry no response at all, so a 404 and a 400 with the same
`detail` raise equal errors. -/
theorem only_post_error_carries_response (response : FetchResponse) :
    (ApiService.postError response).response =
      some { status := response.status, statusText := response.statusText,
             data := response.errorData } ∧
    (ApiService.getError response).response = none ∧
    (ApiService.putError response).response = none ∧
    (ApiService.deleteError response).response = none ∧
    ApiService.settle Method.get notFound404 =
      ApiResult.thrown { message := "User not found", response := none } ∧
    ApiService.settle Method.get { notFound404 with status := 400, statusText := "Bad Request" } =
      ApiService.settle Method.get notFound404 := by
  refine ⟨rfl, rfl, rfl, rfl, by decide, by decide⟩

/-- C22, on the code: with the token "t" stored and options that supply only the
header X-Trace, the headers of the outgoing request of every method hold no
Authorization (those of `get` are just the supplied ones); with options that
have no `headers` property the Authorization header is "Bearer t". -/
theorem supplied_headers_drop_authorization :
    ApiService.configHeaders Method.get (some "t") { headers := some [("X-Trace", "1")] } false =
      [("X-Trace", "1")] ∧
    (∀ method : Method,
      header (ApiService.configHeaders method (some "t")
        { headers := some [("X-Trace", "1")] } false) "Authorization" = none) ∧
    (∀ method : Method,
      header (ApiService.configHeaders method (some "t") { headers := none } false)
        "Authorization" = some "Bearer t") := by
  refine ⟨by decide, ?_, ?_⟩
  · intro method
    cases method <;> decide
  · intro method
    cases method <;> decide

/-! ### Login, logout and the theme -/

/-- C23, on the code: the credential exchange succeeds with the token "tok" and
the profile request answers 500.  `login` resolves `{success: true}` although
the profile fetch failed, the token is stored, and the session user is still
null. -/
theorem login_succeeds_without_profile :
    (AuthContext.login "a@b.np" "pw" (CredentialAnswer.ok (some "tok"))
      (ProfileAnswer.notOk 500) signedOut).2 = { success := true, error := none } ∧
    (AuthContext.login "a@b.np" "pw" (CredentialAnswer.ok (some "tok"))
      (ProfileAnswer.notOk 500) signedOut).1.st.user = none ∧
    (AuthContext.login "a@b.np" "pw" (CredentialAnswer.ok (some "tok"))
      (ProfileAnswer.notOk 500) signedOut).1.storedToken = some "tok" := by
  decide

/-- C24, refuted as stated: the credential exchange answers 500 with a body that
is not JSON (the error page of a proxy, say).  `login` resolves with the error
"Network error", which is neither the body's `detail` nor "Login failed". -/
theorem login_non_json_answer_is_network_error :
    (AuthContext.login "a@b.np" "pw" (CredentialAnswer.notOk 500 none)
      ProfileAnswer.rejected signedOut).2 = { success := false, error := some "Network error" } ∧
    (AuthContext.login "a@b.np" "pw" (CredentialAnswer.notOk 500 none)
      ProfileAnswer.rejected signedOut).2.error ≠ some "Login failed" := by
  decide

/-- C24, amended: when the credential exchange answers not ok, `login` resolves
`{success: false, error: e}` and changes neither the session user nor the token
(stored or in state); the profile is not requested.  With a JSON body `e` is the
body's `detail`, or "Login failed" when `detail` is absent; with a body that is
not JSON `e` is "Network error". -/
theorem login_rejected_leaves_session (email password : String) (status : Nat)
    (body : Option ErrorData) (profile : ProfileAnswer) (w : AuthWorld) :
    (AuthContext.login email password (CredentialAnswer.notOk status body)
      profile w).2.success = false ∧
    (∀ (errorData : ErrorData) (d : String), body = some errorData →
      errorData.detail.truthyText = some d →
      (AuthContext.login email password (CredentialAnswer.notOk status body)
        profile w).2.error = some d) ∧
    (∀ errorData : ErrorData, body = some errorData → errorData.detail.truthyText = none →
      (AuthContext.login email password (CredentialAnswer.notOk status body)
        profile w).2.error = some "Login failed") ∧
    (body = none →
      (AuthContext.login email password (CredentialAnswer.notOk status body)
        profile w).2.error = some "Network error") ∧
    (AuthContext.login email password (CredentialAnswer.notOk status body)
      profile w).1.st = w.st ∧
    (AuthContext.login email password (CredentialAnswer.notOk status body)
      profile w).1.storedToken = w.storedToken ∧
    (AuthContext.login email password (CredentialAnswer.notOk status body)
      profile w).1.fetches = w.fetches ++ [AuthRequest.loginJson email password] := by
  cases body with
  | none =>
    refine ⟨rfl, ?_, ?_, fun _ => rfl, rfl, rfl, rfl⟩
    · intro errorData d h
      cases h
    · intro errorData h
      cases h
  | some data =>
    refine ⟨rfl, ?_, ?_, ?_, rfl, rfl, rfl⟩
    · intro errorData d h hd
      cases h
      simp [AuthContext.login, hd]
    · intro errorData h hd
      cases h
      simp [AuthContext.login, hd]
    · intro h
      cases h

/-- Witness of C24 amended: a wrong password answered 401 with the detail
"Incorrect email or password". -/
theorem login_rejected_leaves_session_witness :
    (AuthContext.login "a@b.np" "wrong"
      (CredentialAnswer.notOk 401
        (some { detail := JsonField.str "Incorrect email or password",
                message := JsonField.absent, error := JsonField.absent }))
      ProfileAnswer.rejected signedOut).2.error = some "Incorrect email or password" :=
  (login_rejected_leaves_session "a@b.np" "wrong" 401
    (some { detail := JsonField.str "Incorrect email or password",
            message := JsonField.absent, error := JsonField.absent })
    ProfileAnswer.rejected signedOut).2.1 _ "Incorrect email or password" rfl (by decide)

/-- C25. `logout` removes the stored token and sets the context's token and user
to null, so `isAuthenticated` is false; it makes no request and changes nothing
else. -/
theorem logout_is_local (w : AuthWorld) :
    (AuthContext.logout w).storedToken = none ∧
    (AuthContext.logout w).st.token = none ∧
    (AuthContext.logout w).st.user = none ∧
    AuthContext.isAuthenticated (AuthContext.logout w).st = false ∧
    (AuthContext.logout w).fetches = w.fetches ∧
    (AuthContext.logout w).st.loading = w.st.loading ∧
    AuthContext.logout w =
      { st := { user := none, token := none, loading := w.st.loading }
        storedToken := none
        fetches := w.fetches } :=
  ⟨rfl, rfl, rfl, rfl, rfl, rfl, rfl⟩

/-- C26. The initial theme is "dark" exactly when the stored value is "dark" and
"light" in every other case (nothing stored, another value, storage throwing);
`toggleTheme` maps "dark" to "light" and "light" to "dark", so toggling twice
gives back the theme one started with. -/
theorem theme_initial_and_toggle (read : StorageRead) :
    (initialTheme read = "dark" ↔ read = StorageRead.value (some "dark")) ∧
    (read ≠ StorageRead.value (some "dark") → initialTheme read = "light") ∧
    toggleTheme "dark" = "light" ∧
    toggleTheme "light" = "dark" ∧
    toggleTheme (toggleTheme (initialTheme read)) = initialTheme read ∧
    (∀ t : String, (t = "dark" ∨ t = "light") → toggleTheme (toggleTheme t) = t) := by
  have hinit : initialTheme read = "dark" ∨ initialTheme read = "light" := by
    unfold initialTheme
    cases read with
    | throws => exact Or.inr rfl
    | value v => by_cases h : v = some "dark" <;> simp [h]
  have htwice : ∀ t : String, (t = "dark" ∨ t = "light") → toggleTheme (toggleTheme t) = t := by
    intro t ht
    rcases ht with h | h <;> subst h <;> decide
  refine ⟨?_, ?_, by decide, by decide, htwice _ hinit, htwice⟩
  · cases read with
    | throws => simp [initialTheme]
    | value v =>
      by_cases h : v = some "dark"
      · simp [initialTheme, h]
      · simp [initialTheme, h]
  · intro hne
    cases read with
    | throws => rfl
    | value v =>
      have h : v ≠ some "dark" := fun h => hne (by rw [h])
      simp [initialTheme, h]

/-! ### E-mail validation -/

theorem splitChar_of_not_mem (sep : Char) (l : List Char) (h : sep ∉ l) :
    splitChar sep l = [l] := by
  induction l with
  | nil => rfl
  | cons c cs ih =>
    have hc : c ≠ sep := fun e => h (by rw [e]; exact List.mem_cons_self _ _)
    have hcs : sep ∉ cs := fun e => h (List.mem_cons_of_mem _ e)
    simp [splitChar, hc, ih hcs]

theorem splitChar_append (sep : Char) (l d : List Char) (h : sep ∉ l) :
    splitChar sep (l ++ sep :: d) = l :: splitChar sep d := by
  induction l with
  | nil => simp [splitChar]
  | cons c cs ih =>
    have hc : c ≠ sep := fun e => h (by rw [e]; exact List.mem_cons_self _ _)
    have hcs : sep ∉ cs := fun e => h (List.mem_cons_of_mem _ e)
    simp [splitChar, hc, ih hcs]

theorem count_eq_one_split (sep : Char) (t : List Char) (h : t.count sep = 1) :
    ∃ l d : List Char, t = l ++ sep :: d ∧ sep ∉ l ∧ sep ∉ d := by
  induction t with
  | nil => simp at h
  | cons c cs ih =>
    by_cases hc : c = sep
    · subst hc
      rw [List.count_cons_self] at h
      have h0 : cs.count c = 0 := by omega
      exact ⟨[], cs, rfl, by simp, List.count_eq_zero.mp h0⟩
    · have h' : cs.count sep = 1 := by
        have hb : (c == sep) = false := by simpa using hc
        simpa [List.count_cons, hb] using h
      obtain ⟨l, d, e, hl, hd⟩ := ih h'
      refine ⟨c :: l, d, by rw [e]; rfl, ?_, hd⟩
      intro hm
      rcases List.mem_cons.mp hm with h1 | h1
      · exact hc h1.symm
      · exact hl h1

theorem count_of_split (sep : Char) (l d : List Char) (hl : sep ∉ l) (hd : sep ∉ d) :
    (l ++ sep :: d).count sep = 1 := by
  rw [List.count_append, List.count_cons_self, List.count_eq_zero.mpr hl,
    List.count_eq_zero.mpr hd]

theorem split_unique (sep : Char) (l d l' d' : List Char) (hl : sep ∉ l) (hl' : sep ∉ l')
    (h : l ++ sep :: d = l' ++ sep :: d') : l = l' ∧ d = d' := by
  induction l generalizing l' with
  | nil =>
    cases l' with
    | nil => simpa using h
    | cons c cs =>
      simp only [List.nil_append, List.cons_append, List.cons.injEq] at h
      exact absurd (by rw [h.1]; exact List.mem_cons_self _ _) hl'
  | cons c cs ih =>
    cases l' with
    | nil =>
      simp only [List.nil_append, List.cons_append, List.cons.injEq] at h
      exact absurd (by rw [← h.1]; exact List.mem_cons_self _ _) hl
    | cons c' cs' =>
      simp only [List.cons_append, List.cons.injEq] at h
      have := ih cs' (fun e => hl (List.mem_cons_of_mem _ e))
        (fun e => hl' (List.mem_cons_of_mem _ e)) h.2
      exact ⟨by rw [h.1, this.1], this.2⟩

theorem singleton_infix_iff (a : Char) (l : List Char) : [a] <:+: l ↔ a ∈ l := by
  constructor
  · rintro ⟨s, t, rfl⟩
    simp
  · intro h
    obtain ⟨s, t, rfl⟩ := List.append_of_mem h
    exact ⟨s, t, by simp⟩

theorem chain_step (p : Prop) [Decidable p] (e : String) (rest : EmailValidation) (P : Prop)
    (h : (rest = { isValid := true, error := none } ↔ P) ∧
      (rest ≠ { isValid := true, error := none } → rest.isValid = false ∧ rest.error ≠ none) ∧
      (rest.isValid = true ↔ rest.error = none)) :
    ((if p then { isValid := false, error := some e } else rest) =
        ({ isValid := true, error := none } : EmailValidation) ↔ (¬ p ∧ P)) ∧
    ((if p then { isValid := false, error := some e } else rest) ≠
        ({ isValid := true, error := none } : EmailValidation) →
      (if p then ({ isValid := false, error := some e } : EmailValidation) else rest).isValid
          = false ∧
        (if p then ({ isValid := false, error := some e } : EmailValidation) else rest).error
          ≠ none) ∧
    ((if p then ({ isValid := false, error := some e } : EmailValidation) else rest).isValid
        = true ↔
      (if p then ({ isValid := false, error := some e } : EmailValidation) else rest).error
        = none) := by
  by_cases hp : p
  · simp only [if_pos hp]
    refine ⟨?_, ?_, ?_⟩
    · constructor
      · intro h1
        exact absurd (congrArg EmailValidation.isValid h1) (by simp)
      · intro h1
        exact absurd hp h1.1
    · intro _
      exact ⟨by simp, by simp⟩
    · simp
  · simp only [if_neg hp]
    refine ⟨?_, h.2.1, h.2.2⟩
    rw [h.1]
    exact ⟨fun hP => ⟨hp, hP⟩, fun hP => hP.2⟩

theorem chain_base :
    (({ isValid := true, error := none } : EmailValidation) = { isValid := true, error := none }
        ↔ True) ∧
    (({ isValid := true, error := none } : EmailValidation) ≠ { isValid := true, error := none } →
      ({ isValid := true, error := none } : EmailValidation).isValid = false ∧
        ({ isValid := true, error := none } : EmailValidation).error ≠ none) ∧
    (({ isValid := true, error := none } : EmailValidation).isValid = true ↔
      ({ isValid := true, error := none } : EmailValidation).error = none) :=
  ⟨by simp, fun h => absurd rfl h, by simp⟩

theorem validateEmail_cases (email : String) :
    (validateEmail email = { isValid := true, error := none } ↔
      (¬ (!truthy email || trim email == "") = true ∧
        ¬ jsLength (trim email) < 5 ∧ ¬ jsLength (trim email) > 254 ∧
        ¬ (!includes (trim email) "@") = true ∧ ¬ (trim email).data.count '@' ≠ 1 ∧
        ¬ (localPartOf (trim email)).isEmpty = true ∧
        ¬ jsLength ⟨localPartOf (trim email)⟩ > 64 ∧
        ¬ (domainOf (trim email)).isEmpty = true ∧
        ¬ (!includes ⟨domainOf (trim email)⟩ ".") = true ∧
        ¬ includes (trim email) ".." = true ∧
        ¬ (startsWith (trim email) "." || endsWith (trim email) ".") = true ∧
        ¬ (!isValidEmail (trim email)) = true ∧ True)) ∧
    (validateEmail email ≠ { isValid := true, error := none } →
      (validateEmail email).isValid = false ∧ (validateEmail email).error ≠ none) ∧
    ((validateEmail email).isValid = true ↔ (validateEmail email).error = none) := by
  unfold validateEmail
  exact chain_step _ _ _ _ (chain_step _ _ _ _ (chain_step _ _ _ _ (chain_step _ _ _ _
    (chain_step _ _ _ _ (chain_step _ _ _ _ (chain_step _ _ _ _ (chain_step _ _ _ _
    (chain_step _ _ _ _ (chain_step _ _ _ _ (chain_step _ _ _ _ (chain_step _ _ _ _
    chain_base)))))))))))

theorem split_parts (t : String) (l d : List Char) (ht : t.data = l ++ '@' :: d)
    (hl : '@' ∉ l) (hd : '@' ∉ d) : localPartOf t = l ∧ domainOf t = d := by
  unfold localPartOf domainOf
  rw [ht, splitChar_append '@' l d hl, splitChar_of_not_mem '@' d hd]
  exact ⟨rfl, rfl⟩

theorem jsLength_pos_ne_empty {t : String} (h : 5 ≤ jsLength t) : t ≠ "" := by
  intro e
  rw [e, jsLength_empty] at h
  omega

/-- C27. `validateEmail` returns `{isValid: true, error: null}` exactly when the
trimmed input has length between 5 and 254, holds exactly one '@' with a
non-empty local part of at most 64 characters and a domain containing a '.',
holds no "..", neither starts nor ends with '.', and matches the `isValidEmail`
pattern; in every other case `isValid` is false and `error` is a message; so
`isValid` is true exactly when `error` is null. -/
theorem validateEmail_valid_iff (email : String) :
    (validateEmail email = { isValid := true, error := none } ↔
      specEmailAccepted (trim email)) ∧
    (¬ specEmailAccepted (trim email) →
      (validateEmail email).isValid = false ∧ (validateEmail email).error ≠ none) ∧
    ((validateEmail email).isValid = true ↔ (validateEmail email).error = none) := by
  obtain ⟨hiff, hbad, hnull⟩ := validateEmail_cases email
  have key : validateEmail email = { isValid := true, error := none } ↔
      specEmailAccepted (trim email) := by
    rw [hiff]
    unfold specEmailAccepted
    constructor
    · rintro ⟨-, h2, h3, h4, h5, h6, h7, h8, h9, h10, h11, h12, -⟩
      have hcount : (trim email).data.count '@' = 1 := by
        by_contra hc
        exact h5 hc
      obtain ⟨l, d, ht, hl, hd⟩ := count_eq_one_split '@' _ hcount
      obtain ⟨el, ed⟩ := split_parts (trim email) l d ht hl hd
      rw [el] at h6 h7
      rw [ed] at h9
      refine ⟨by omega, by omega, ⟨l, d, ht, hl, hd, ?_, by omega, ?_⟩, ?_, ?_, ?_, ?_⟩
      · intro e
        rw [e] at h6
        exact h6 rfl
      · have hi : includes ⟨d⟩ "." = true := by simpa using h9
        exact (singleton_infix_iff '.' d).mp ((includes_iff _ _).mp hi)
      · intro hi
        exact h10 ((includes_iff _ _).mpr hi)
      · intro hp
        apply h11
        have : startsWith (trim email) "." = true := List.isPrefixOf_iff_prefix.mpr hp
        simp [this]
      · intro hs
        apply h11
        have : endsWith (trim email) "." = true := List.isSuffixOf_iff_suffix.mpr hs
        simp [this]
      · simpa using h12
    · rintro ⟨h1, h2, ⟨l, d, ht, hl, hd, hne, hlen, hdot⟩, h3, h4, h5, h6⟩
      obtain ⟨el, ed⟩ := split_parts (trim email) l d ht hl hd
      have htne : trim email ≠ "" := jsLength_pos_ne_empty h1
      have hene : email ≠ "" := trim_ne_empty htne
      refine ⟨?_, by omega, by omega, ?_, ?_, ?_, ?_, ?_, ?_, ?_, ?_, ?_, trivial⟩
      · have h1' : truthy email = true := (truthy_iff email).mpr hene
        have h2' : (trim email == "") = false := by simpa using htne
        simp [h1', h2']
      · have : includes (trim email) "@" = true := by
          rw [includes_iff, ht]
          exact ⟨l, d, by simp⟩
        simp [this]
      · have := count_of_split '@' l d hl hd
        rw [← ht] at this
        simp [this]
      · rw [el]
        cases l with
        | nil => exact absurd rfl hne
        | cons c cs => simp
      · rw [el]
        omega
      · rw [ed]
        cases d with
        | nil => exact absurd hdot (by simp)
        | cons c cs => simp
      · rw [ed]
        have : includes ⟨d⟩ "." = true :=
          (includes_iff _ _).mpr ((singleton_infix_iff '.' d).mpr hdot)
        simp [this]
      · intro hi
        exact h3 ((includes_iff _ _).mp hi)
      · intro hor
        simp only [Bool.or_eq_true] at hor
        rcases hor with hp | hs
        · exact h4 (List.isPrefixOf_iff_prefix.mp hp)
        · exact h5 (List.isSuffixOf_iff_suffix.mp hs)
      · simp [h6]
  refine ⟨key, ?_, hnull⟩
  intro hno
  exact hbad (fun h => hno (key.mp h))

/-- Witness of C27: the input " rai@clinic.np " is valid, the input "a@b" is too
short. -/
theorem validateEmail_valid_iff_witness :
    validateEmail " rai@clinic.np " = { isValid := true, error := none } ∧
    specEmailAccepted (trim " rai@clinic.np ") ∧
    validateEmail "a@b" = { isValid := false, error := some "Email is too short" } :=
  ⟨by decide, (validateEmail_valid_iff " rai@clinic.np ").1.mp (by decide), by decide⟩

/-! ### The message of a failed upload -/

/-- C28, refuted as stated: the body's `detail` is the string "Either patient_id
or patient_name must be provided"; the surfaced message is not that string but
the hint to select or describe a patient. -/
theorem upload_detail_string_replaced :
    uploadErrorMessage
      { message := some "Either patient_id or patient_name must be provided"
        data := some
          { detail := UploadDetail.str "Either patient_id or patient_name must be provided"
            message := none, error := none } } =
      "Please select an existing patient or provide patient information for a new patient." := by
  decide

/-- C28, amended: for a failed upload whose error carries a response body the
message is chosen in the claimed order (image-validation message for an object
`detail` whose error text contains "Invalid image type"; for any other object
its message, else its error, else the generic text; a non-empty string `detail`
itself; otherwise the body's message, else its error, else the generic text),
and the chosen message is then replaced by the patient hint when it contains
"Either patient_id or patient_name must be provided" and surfaced as it is
otherwise. -/
theorem upload_error_message_order (error : UploadError) (errorData : UploadErrorData)
    (h : error.data = some errorData) :
    (∀ (detail : DetailObject) (e : String), errorData.detail = UploadDetail.object detail →
      detail.error = some e → "Invalid image type".data <:+: e.data →
      uploadErrorMessage error = patientRequirementFix
        (imageValidationMessage (orElse detail.separator_prediction "Non-medical")
          detail.mriPercent)) ∧
    (∀ detail : DetailObject, errorData.detail = UploadDetail.object detail →
      (∀ e : String, detail.error = some e → ¬ "Invalid image type".data <:+: e.data) →
      uploadErrorMessage error = patientRequirementFix
        (orElse detail.message (orElse detail.error "Upload failed. Please try again."))) ∧
    (∀ s : String, errorData.detail = UploadDetail.str s → s ≠ "" →
      uploadErrorMessage error = patientRequirementFix s) ∧
    ((errorData.detail = UploadDetail.absent ∨ errorData.detail = UploadDetail.str "") →
      uploadErrorMessage error = patientRequirementFix
        (orElse errorData.message (orElse errorData.error "Upload failed. Please try again."))) ∧
    (∀ m : String, ¬ "Either patient_id or patient_name must be provided".data <:+: m.data →
      patientRequirementFix m = m) := by
  refine ⟨?_, ?_, ?_, ?_, ?_⟩
  · intro detail e hd he hin
    have hne : e ≠ "" := by
      intro h0
      rw [h0] at hin
      exact absurd (List.infix_nil.mp hin) (by decide)
    have ht : truthy e = true := (truthy_iff e).mpr hne
    have hi : includes e "Invalid image type" = true := (includes_iff _ _).mpr hin
    simp [uploadErrorMessage, h, hd, he, ht, hi]
  · intro detail hd hno
    have hc : (match detail.error with
        | some e => truthy e && includes e "Invalid image type"
        | none => false) = false := by
      cases he : detail.error with
      | none => rfl
      | some e =>
        have : includes e "Invalid image type" = false := by
          rw [← Bool.not_eq_true, includes_iff]
          exact hno e he
        simp [this]
    simp only [uploadErrorMessage, h, hd, hc, Bool.false_eq_true, if_false]
  · intro s hd hs
    simp [uploadErrorMessage, h, hd, (truthy_iff s).mpr hs]
  · rintro (hd | hd)
    · simp [uploadErrorMessage, h, hd]
    · simp [uploadErrorMessage, h, hd, truthy_empty]
  · intro m hm
    have : includes m "Either patient_id or patient_name must be provided" = false := by
      rw [← Bool.not_eq_true, includes_iff]
      exact hm
    simp [patientRequirementFix, this]

/-- Witness of C28 amended: a body whose `detail` is the string "Bad file". -/
theorem upload_error_message_order_witness :
    uploadErrorMessage
      { message := some "Bad file"
        data := some { detail := UploadDetail.str "Bad file", message := none, error := none } } =
      patientRequirementFix "Bad file" :=
  (upload_error_message_order
    { message := some "Bad file"
      data := some { detail := UploadDetail.str "Bad file", message := none, error := none } }
    { detail := UploadDetail.str "Bad file", message := none, error := none } rfl).2.2.1
    "Bad file" rfl (by decide)

/-! ### Trimming in the local search -/

/-- C29, on the code: the search text "jack " (with a trailing blank) has the
trimmed form "jack", which is what the backend path sends; the local filter
matches on the untrimmed text and keeps no entry of a cache holding the patient
Jack, whom the text "jack" keeps. -/
theorem local_search_matches_untrimmed :
    trim "jack " = "jack" ∧
    searchFilter "jack " = some "jack" ∧
    filterBySearch asciiPlatform "jack " [jack] = [] ∧
    filterBySearch asciiPlatform "jack" [jack] = [jack] := by
  decide

/-! ### The OTP entry -/

theorem jsLength_mk_append (a b : List Char) :
    jsLength ⟨a ++ b⟩ = jsLength ⟨a⟩ + jsLength ⟨b⟩ := by
  simp [jsLength, List.map_append, List.sum_append]

theorem jsLength_joinOTP (otp : List String) :
    jsLength (joinOTP otp) = (otp.map jsLength).sum := by
  induction otp with
  | nil => rfl
  | cons s rest ih =>
    have e : joinOTP (s :: rest) = ⟨s.data ++ (joinOTP rest).data⟩ := rfl
    rw [e, jsLength_mk_append, List.map_cons, List.sum_cons]
    have e2 : (⟨(joinOTP rest).data⟩ : String) = joinOTP rest := rfl
    rw [e2, ih]

theorem jsLength_digit (c : Char) (h : isDigitChar c = true) : jsLength ⟨[c]⟩ = 1 := by
  simp only [isDigitChar, Bool.and_eq_true, decide_eq_true_eq] at h
  have : c.toNat < 0x10000 := by omega
  simp [jsLength, this]

theorem pastedData_eq (text : String) : slice text.data 0 6 = text.data.take 6 := by
  simpa using slice_nat text.data 0 6

theorem handlePaste_digits (otp : List String) (text : String)
    (hne : text.data.take 6 ≠ []) (hall : ∀ c ∈ text.data.take 6, isDigitChar c = true) :
    handlePaste otp text =
      (text.data.take 6).map (fun c => String.mk [c]) ++
        List.replicate (6 - (text.data.take 6).length) "" := by
  have hcond : (!(text.data.take 6).isEmpty && (text.data.take 6).all isDigitChar) = true := by
    have h1 : (text.data.take 6).isEmpty = false := by
      cases hp : text.data.take 6 with
      | nil => exact absurd hp hne
      | cons c cs => rfl
    have h2 : (text.data.take 6).all isDigitChar = true := List.all_eq_true.mpr hall
    rw [h1, h2]
    rfl
  unfold handlePaste
  simp only [pastedData_eq, hcond, if_true]
  have hs := slice_nat ((text.data.take 6).map (fun c => String.mk [c]) ++ List.replicate 6 "") 0 6
  simp only [Nat.cast_zero, Nat.cast_ofNat, zero_add, List.drop_zero] at hs
  rw [hs, List.take_append_eq_append_take, List.take_replicate, List.length_map]
  have hlen : (text.data.take 6).length ≤ 6 := List.length_take_le _ _
  rw [List.take_of_length_le (by rw [List.length_map]; exact hlen)]
  congr 2
  omega

theorem handlePaste_other (otp : List String) (text : String)
    (h : ¬ (text.data.take 6 ≠ [] ∧ ∀ c ∈ text.data.take 6, isDigitChar c = true)) :
    handlePaste otp text = otp := by
  have hcond : (!(text.data.take 6).isEmpty && (text.data.take 6).all isDigitChar) = false := by
    rw [← Bool.not_eq_true]
    intro hc
    simp only [Bool.and_eq_true, Bool.not_eq_true', List.all_eq_true] at hc
    apply h
    refine ⟨?_, hc.2⟩
    intro e
    rw [e] at hc
    exact absurd hc.1 (by simp)
  unfold handlePaste
  simp only [pastedData_eq, hcond, Bool.false_eq_true, if_false]

/-- C30. The OTP entry always has exactly six slots of at most one character
each: the initial and cleared state has, `handleOTPChange` keeps it for every
index 0 to 5 and every value, `handlePaste` keeps it for every text (a text whose
first six characters are not all digits changes nothing, otherwise those digits
fill the first slots and the rest are blank); a code reaches the verification
call only when its joined length is 6, which in such a state means that all six
slots are filled. -/
theorem otp_six_slots :
    otpWellFormed emptyOTP ∧
    (∀ (otp : List String) (index : Nat) (value : String), otpWellFormed otp → index < 6 →
      otpWellFormed (handleOTPChange otp index value)) ∧
    (∀ (otp : List String) (text : String), otpWellFormed otp →
      otpWellFormed (handlePaste otp text)) ∧
    (∀ (otp : List String) (text : String),
      ¬ (text.data.take 6 ≠ [] ∧ ∀ c ∈ text.data.take 6, isDigitChar c = true) →
      handlePaste otp text = otp) ∧
    (∀ (otp : List String) (text : String), text.data.take 6 ≠ [] →
      (∀ c ∈ text.data.take 6, isDigitChar c = true) →
      handlePaste otp text =
        (text.data.take 6).map (fun c => String.mk [c]) ++
          List.replicate (6 - min 6 text.data.length) "") ∧
    (∀ (otp : List String) (code : String), submittedCode otp = some code →
      code = joinOTP otp ∧ jsLength code = 6) ∧
    (∀ otp : List String, otpWellFormed otp →
      (jsLength (joinOTP otp) = 6 ↔ ∀ s ∈ otp, jsLength s = 1)) := by
  refine ⟨?_, ?_, ?_, handlePaste_other, ?_, ?_, ?_⟩
  · refine ⟨rfl, ?_⟩
    intro s hs
    simp only [emptyOTP, List.mem_cons, List.mem_singleton, or_self, List.not_mem_nil,
      or_false] at hs
    rw [hs, jsLength_empty]
    omega
  · intro otp index value h _
    unfold handleOTPChange
    split_ifs with hv
    · exact h
    · refine ⟨by rw [List.length_set]; exact h.1, ?_⟩
      intro s hs
      rcases List.mem_or_eq_of_mem_set hs with h1 | h1
      · exact h.2 s h1
      · rw [h1]
        omega
  · intro otp text h
    by_cases hd : text.data.take 6 ≠ [] ∧ ∀ c ∈ text.data.take 6, isDigitChar c = true
    · rw [handlePaste_digits otp text hd.1 hd.2]
      have hlen : (text.data.take 6).length ≤ 6 := List.length_take_le _ _
      refine ⟨by rw [List.length_append, List.length_map, List.length_replicate]; omega, ?_⟩
      intro s hs
      rcases List.mem_append.mp hs with h1 | h1
      · obtain ⟨c, hc, rfl⟩ := List.mem_map.mp h1
        rw [jsLength_digit c (hd.2 c hc)]
      · rw [(List.mem_replicate.mp h1).2, jsLength_empty]
        omega
    · rw [handlePaste_other otp text hd]
      exact h
  · intro otp text hne hall
    rw [handlePaste_digits otp text hne hall, List.length_take]
  · intro otp code h
    unfold submittedCode at h
    split_ifs at h with hc
    simp only [Option.some.injEq] at h
    refine ⟨h.symm, ?_⟩
    rw [← h]
    omega
  · rintro otp ⟨hlen, hslot⟩
    rw [jsLength_joinOTP]
    match otp, hlen, hslot with
    | [a, b, c, d, e, f], _, hslot =>
      have ha := hslot a (by simp)
      have hb := hslot b (by simp)
      have hc := hslot c (by simp)
      have hd := hslot d (by simp)
      have he := hslot e (by simp)
      have hf := hslot f (by simp)
      simp only [List.map_cons, List.map_nil, List.sum_cons, List.sum_nil, List.mem_cons,
        List.mem_singleton, List.not_mem_nil, or_false, forall_eq_or_imp, forall_eq]
      constructor
      · intro hsum
        refine ⟨?_, ?_, ?_, ?_, ?_, ?_⟩ <;> omega
      · rintro ⟨h1, h2, h3, h4, h5, h6⟩
        omega

/-- Witness of C30: the paste "123" into the empty entry, and the change of slot
2 to "7". -/
theorem otp_six_slots_witness :
    handlePaste emptyOTP "123" = ["1", "2", "3", "", "", ""] ∧
    otpWellFormed (handlePaste emptyOTP "123") ∧
    otpWellFormed (handleOTPChange emptyOTP 2 "7") :=
  ⟨by decide, otp_six_slots.2.2.1 emptyOTP "123" otp_six_slots.1,
    otp_six_slots.2.1 emptyOTP 2 "7" otp_six_slots.1 (by decide)⟩

end SecondOpinion
